import Mathlib

/-! Verification development for the `trace` package (aluka-7/trace)

A shallow embedding of the span-context wire codec, the span lifecycle
(`Span`, `dapper`) and the propagation layer, followed by theorems about them.

Conventions of the embedding

* Go strings are modelled as lists of characters (`Str`).  Every routine used
  here (`strings.Split` on `":"`, `strconv.ParseUint`) inspects single bytes and
  treats each byte of a multi-byte character as "not a digit, not a colon", so
  the code-point view and the byte view agree.
* `uint64`, `byte`, `uint32` are `Nat` with explicit reductions modulo `2^w`
  where the Go code can wrap; `int` / `int64` are `Int`.
* `float32` values are modelled by rationals (only constants and comparisons
  occur, no arithmetic).
* Pointers to `Span` and `dapper` are indices into the heap of a `World`.
* Results of `time.Now`, `rand` and `sync.Pool.Get` are explicit arguments.
-/

namespace trace

/-! ## Strings and `strconv` -/

/-- A Go string. -/
abbrev Str := List Char

/-- The table `digits` of `strconv` limited to base 16: the digit for `d < 16`. -/
def digitChar (d : Nat) : Char :=
  if d = 0 then '0' else if d = 1 then '1' else if d = 2 then '2' else
  if d = 3 then '3' else if d = 4 then '4' else if d = 5 then '5' else
  if d = 6 then '6' else if d = 7 then '7' else if d = 8 then '8' else
  if d = 9 then '9' else if d = 10 then 'a' else if d = 11 then 'b' else
  if d = 12 then 'c' else if d = 13 then 'd' else if d = 14 then 'e' else 'f'

/-- The loop of `strconv.formatBits` for base 16: while `u >= 16` emit the low
digit and shift, then emit the last digit.  `fuel` bounds the number of loop
rounds (the Go buffer holds 65 bytes; 16 rounds suffice for 64 bits). -/
def formatBits : Nat → Nat → Str → Str
  | 0, u, acc => digitChar (u % 16) :: acc
  | fuel + 1, u, acc =>
    if u ≥ 16 then formatBits fuel (u / 16) (digitChar (u % 16) :: acc)
    else digitChar u :: acc

/-- Go `strconv.FormatUint(u, 16)` for a `uint64` value. -/
def FormatUint (u : Nat) : Str := formatBits 16 u []

/-- Go `strings.Join(elems, sep)`. -/
def Join : List Str → Str → Str
  | [], _ => []
  | [a], _ => a
  | a :: b :: rest, sep => a ++ sep ++ Join (b :: rest) sep

/-- Go `strings.Split(s, sep)` for a one-byte separator: the fields between the
occurrences of `sep`; always at least one field. -/
def Split : Str → Char → List Str
  | [], _ => [[]]
  | c :: cs, sep =>
    if c = sep then [] :: Split cs sep
    else
      match Split cs sep with
      | [] => [[c]]
      | f :: fs => (c :: f) :: fs

/-- The two error kinds of `strconv.ParseUint`. -/
inductive NumError
  | ErrSyntax
  | ErrRange
deriving DecidableEq, Repr

/-- The helper `lower` of `strconv`: `c | ('x' - 'X')`. -/
def lower (c : Nat) : Nat := c ||| 32

/-- The digit value `strconv.ParseUint` assigns to a byte, before the check
against the base; `none` where the Go code reports a syntax error. -/
def digitVal (c : Nat) : Option Nat :=
  if 48 ≤ c ∧ c ≤ 57 then some (c - 48)
  else if 97 ≤ lower c ∧ lower c ≤ 122 then some (lower c - 97 + 10)
  else none

/-- The cutoff `maxUint64/16 + 1` of `strconv.ParseUint`. -/
def cutoff16 : Nat := (2 ^ 64 - 1) / 16 + 1

/-- The value `maxVal = 1<<64 - 1`. -/
def maxVal64 : Nat := 2 ^ 64 - 1

/-- The digit loop of `strconv.ParseUint(s, 16, 64)` with accumulator `n`. -/
def parseLoop : Str → Nat → Except NumError Nat
  | [], n => .ok n
  | c :: cs, n =>
    match digitVal c.toNat with
    | none => .error .ErrSyntax
    | some d =>
      if d ≥ 16 then .error .ErrSyntax
      else if n ≥ cutoff16 then .error .ErrRange
      else
        let n16 := (n * 16) % 2 ^ 64
        let n1 := (n16 + d) % 2 ^ 64
        if n1 < n16 ∨ n1 > maxVal64 then .error .ErrRange
        else parseLoop cs n1

/-- Go `strconv.ParseUint(s, 16, 64)`. -/
def ParseUint (s : Str) : Except NumError Nat :=
  if s = [] then .error .ErrSyntax else parseLoop s 0

/-! ## Errors -/

/-- The error values of `errors.go`. -/
inductive Error
  | ErrUnsupportedFormat
  | ErrTraceNotFound
  | ErrInvalidTrace
  | ErrInvalidCarrier
  | ErrTraceCorrupted
  | errEmptyTracerString
  | errInvalidTracerString
deriving DecidableEq, Repr

/-! ## Span context and its wire codec (`tracer.go`) -/

def flagSampled : Nat := 1

def flagDebug : Nat := 2

def maxLevel : Int := 64

/-- The hard-coded sampling probability `0.00025`. -/
def probability : Rat := 1 / 4000

/-- The struct `spanContext`. -/
structure spanContext where
  TraceId : Nat
  SpanId : Nat
  ParentId : Nat
  Flags : Nat
  Probability : Rat
  Level : Int
deriving DecidableEq

/-- The field types of `spanContext`: three `uint64` and a `byte`. -/
def spanContext.wf (c : spanContext) : Prop :=
  c.TraceId < 2 ^ 64 ∧ c.SpanId < 2 ^ 64 ∧ c.ParentId < 2 ^ 64 ∧ c.Flags < 2 ^ 8

instance (c : spanContext) : Decidable c.wf := by
  unfold spanContext.wf; infer_instance

def spanContext.isSampled (c : spanContext) : Bool :=
  (c.Flags &&& flagSampled) == flagSampled

def spanContext.isDebug (c : spanContext) : Bool :=
  (c.Flags &&& flagDebug) == flagDebug

def spanContext.IsValid (c : spanContext) : Bool :=
  c.TraceId != 0 && c.SpanId != 0

def emptyContext : spanContext :=
  { TraceId := 0, SpanId := 0, ParentId := 0, Flags := 0, Probability := 0, Level := 0 }

/-- The method `spanContext.String`: four hexadecimal fields joined by `:`. -/
def spanContext.String (c : spanContext) : Str :=
  Join [FormatUint c.TraceId, FormatUint c.SpanId, FormatUint c.ParentId,
        FormatUint c.Flags] [':']

/-- The closure `parseHexUint64` of `contextFromString`: parse the fields in
order and stop at the first error. -/
def parseHexUint64 : List Str → Except NumError (List Nat)
  | [] => .ok []
  | h :: hs =>
    match ParseUint h with
    | .error e => .error e
    | .ok v =>
      match parseHexUint64 hs with
      | .error e => .error e
      | .ok vs => .ok (v :: vs)

/-- The function `contextFromString`. -/
def contextFromString (value : Str) : Except Error spanContext :=
  if value = [] then .error .errEmptyTracerString
  else
    let items := Split value ':'
    if items.length < 4 then .error .errInvalidTracerString
    else
      match parseHexUint64 (items.take 4) with
      | .error _ => .error .errInvalidTracerString
      | .ok ret =>
        .ok { TraceId := ret.getD 0 0, SpanId := ret.getD 1 0, ParentId := ret.getD 2 0,
              Flags := ret.getD 3 0 % 256, Probability := 0, Level := 0 }

/-! ## Reference notions for hexadecimal numerals -/

/-- A byte value that is a hexadecimal digit: `0-9`, `a-f` or `A-F`. -/
def isHexByte (x : Nat) : Prop :=
  (48 ≤ x ∧ x ≤ 57) ∨ (97 ≤ x ∧ x ≤ 102) ∨ (65 ≤ x ∧ x ≤ 70)

instance (x : Nat) : Decidable (isHexByte x) := by
  unfold isHexByte; infer_instance

/-- The value of a hexadecimal digit given by its byte value. -/
def hexByteValue (x : Nat) : Nat :=
  if x ≤ 57 then x - 48 else if 97 ≤ x then x - 97 + 10 else x - 65 + 10

/-- A character that is a hexadecimal digit. -/
def isHexDigit (c : Char) : Prop := isHexByte c.toNat

instance (c : Char) : Decidable (isHexDigit c) := by
  unfold isHexDigit; infer_instance

/-- The value of a hexadecimal numeral read left to right, starting from `n`. -/
def hexValueFrom : Nat → Str → Nat
  | n, [] => n
  | n, c :: cs => hexValueFrom (n * 16 + hexByteValue c.toNat) cs

/-- The value of a hexadecimal numeral. -/
def hexValue (s : Str) : Nat := hexValueFrom 0 s

/-- A base-16 numeral that fits in 64 bits: non-empty, hexadecimal digits only,
value below `2^64`. -/
def isHex64 (s : Str) : Prop :=
  s ≠ [] ∧ (∀ c ∈ s, isHexDigit c) ∧ hexValue s < 2 ^ 64

instance (s : Str) : Decidable (isHex64 s) := by
  unfold isHex64; infer_instance

/-- The digit `strconv.ParseUint` accepts for base 16, if the byte is one. -/
def hexDigitOf (x : Nat) : Option Nat :=
  (digitVal x).bind (fun d => if d < 16 then some d else none)

/-! ## Tags, log fields, constants declared outside the given sources -/

/-- Modelled from the spec: the typed value of a `Tag` (declared in a file that is
not among the sources): a string, a bool or a number. -/
inductive TagValue
  | str (s : Str)
  | bool (b : Bool)
  | num (x : Rat)
deriving DecidableEq

/-- Modelled from the spec: the struct `Tag` (its declaration is not among the
sources): a key and a typed value, with the field names `span.go` uses. -/
structure Tag where
  Key : Str
  Value : TagValue
deriving DecidableEq

/-- Modelled from the spec: the constructor `TagString(key, val)`. -/
def TagString (key val : Str) : Tag := { Key := key, Value := .str val }

/-- Modelled from the spec: the constructor `TagBool(key, val)`. -/
def TagBool (key : Str) (val : Bool) : Tag := { Key := key, Value := .bool val }

/-- Modelled from the spec: the struct `LogField` (its declaration is not among the
sources): a key and a string value, with the field names `span.go` uses. -/
structure LogField where
  Key : Str
  Value : Str
deriving DecidableEq

/-- Modelled from the spec: the constructor `Log(key, val)` of a log field. -/
def Log (key val : Str) : LogField := { Key := key, Value := val }

/-- Modelled from the spec: the message `protoGen.Field` (its declaration is not
among the sources): one key/value field of a log entry, as `setLog` fills it. -/
structure protoGen.Field where
  Key : Str
  Value : Str
deriving DecidableEq

/-- Modelled from the spec: the message `protoGen.Log` (its declaration is not among
the sources): a timestamped log entry holding the fields of one call, as `setLog`
fills it. -/
structure protoGen.Log where
  Timestamp : Int
  Fields : List protoGen.Field
deriving DecidableEq

/-- Values the package reads from declarations or libraries outside the given
sources: the header key `FosTraceID`, the tag and log keys, the host hash
computed at start-up, and `textproto.CanonicalMIMEHeaderKey`. -/
structure Env where
  FosTraceID : Str
  TagSpanKind : Str
  TagError : Str
  LogMessage : Str
  LogStack : Str
  hostHash : Nat
  canonicalKey : Str → Str

/-! ## Identifier generation (`common.go`) -/

/-- The four bytes written by `binary.BigEndian.PutUint32`. -/
def putUint32 (v : Nat) : List Nat :=
  [v / 2 ^ 24 % 256, v / 2 ^ 16 % 256, v / 2 ^ 8 % 256, v % 256]

/-- The value read by `binary.BigEndian.Uint64` from eight bytes. -/
def beUint64 (b : List Nat) : Nat := b.foldl (fun acc x => acc * 256 + x) 0

/-- The function `genID`: `rand` is the result of `rand.Int31()` and `unix` that
of `time.Now().Unix()`. -/
def genID (hostHash : Nat) (rand : Nat) (unix : Int) : Nat :=
  let lo := putUint32 ((unix % 2 ^ 32).toNat / 2 ^ 8)
  let lo := lo.set 0 (hostHash % 256)
  let hi := putUint32 (rand % 2 ^ 31)
  beUint64 (hi ++ lo)

/-- The UTF-8 bytes of a string, as `[]byte(s)` yields them. -/
def utf8Bytes : Str → List Nat
  | [] => []
  | c :: cs => (String.utf8EncodeChar c).map UInt8.toNat ++ utf8Bytes cs

/-- The function `oneAtTimeHash` on `uint32`. -/
def oneAtTimeHash (s : Str) : Nat :=
  let h := (utf8Bytes s).foldl
    (fun hash b =>
      let h1 := (hash + b) % 2 ^ 32
      let h2 := (h1 + (h1 <<< 10) % 2 ^ 32) % 2 ^ 32
      h2 ^^^ (h2 >>> 6)) 0
  let h1 := (h + (h <<< 3) % 2 ^ 32) % 2 ^ 32
  let h2 := h1 ^^^ (h1 >>> 11)
  (h2 + (h2 <<< 15) % 2 ^ 32) % 2 ^ 32

/-! ## Sampler (`sample.go`) -/

def slotLength : Nat := 2048

def ignores : List Str :=
  ["/metrics".toList, "/healthy".toList, "/grpc.health.v1.Health/Check".toList]

/-- The struct `probabilitySampling`; `slot` is the array of `slotLength` seconds. -/
structure probabilitySampling where
  probability : Rat
  slot : Nat → Int

/-- The method `probabilitySampling.IsSampled`; `now` is `time.Now().Unix()` and
`r` is `rand.Float32()`.  Returns the decision, the probability and the sampler
after the call. -/
def probabilitySampling.IsSampled (p : probabilitySampling) (_traceID : Nat)
    (operationName : Str) (now : Int) (r : Rat) : (Bool × Rat) × probabilitySampling :=
  if ignores.any (fun ignored => operationName = ignored) then ((false, 0), p)
  else
    let idx := oneAtTimeHash operationName % slotLength
    let old := p.slot idx
    if old ≠ now then ((true, 1), { p with slot := Function.update p.slot idx now })
    else ((decide (r < p.probability), p.probability), p)

/-- The function `newSampler` (it panics outside `(0, 1]`; the only call passes
the constant `probability`). -/
def newSampler (pr : Rat) : probabilitySampling := { probability := pr, slot := fun _ => 0 }

/-! ## Spans, tracers and the heap -/

def _maxChildren : Int := 1024

def _maxTags : Nat := 128

def _maxLogs : Nat := 256

/-- The struct `Span`.  The field `dapper` is the index of the owning tracer
(`getSpan` sets it on every span it hands out). -/
structure Span where
  dapper : Nat
  context : spanContext
  operationName : Str
  startTime : Int
  duration : Int
  tags : List Tag
  logs : List protoGen.Log
  children : Int

/-- The zero value `new(Span)`. -/
def Span.zero : Span :=
  { dapper := 0, context := emptyContext, operationName := [], startTime := 0, duration := 0,
    tags := [], logs := [], children := 0 }

/-- The struct `dapper`.  `reporter` is the index of the reporter the tracer was
built with, `pool` lists the addresses of the `Span` objects held by its
`sync.Pool`.  The map `propagators` is fixed by `NewTracer` and modelled by
the function `propagators` below. -/
structure dapper where
  serviceName : Str
  disableSample : Bool
  tags : List Tag
  reporter : Nat
  pool : List Nat
  sampler : probabilitySampling

/-- The mutable state of a program using the package: the `Span` objects by
address, the allocation frontier, the tracers by index, and for each reporter
the spans passed to `WriteSpan` (address and content at the time of the call). -/
structure World where
  spans : Nat → Span
  next : Nat
  dappers : Nat → dapper
  dnext : Nat
  reports : Nat → List (Nat × Span)

def World.setSpan (w : World) (a : Nat) (s : Span) : World :=
  { w with spans := Function.update w.spans a s }

def World.setDapper (w : World) (d : Nat) (t : dapper) : World :=
  { w with dappers := Function.update w.dappers d t }

/-- The state before any tracer or span exists. -/
def World.empty : World :=
  { spans := fun _ => Span.zero, next := 0,
    dappers := fun _ => { serviceName := [], disableSample := false, tags := [], reporter := 0,
                          pool := [], sampler := newSampler probability },
    dnext := 0, reports := fun _ => [] }

/-- The interface `Trace` restricted to the implementations of the core: a
pointer to a `Span`, or the value `noopSpan`. -/
inductive Trace
  | span (a : Nat)
  | noop
deriving DecidableEq

/-- Results drawn from outside the program by one span creation: the choice made
by `sync.Pool.Get`, the result of `rand.Int31()`, of `time.Now().Unix()` and of
`time.Now()`. -/
structure Draw where
  pick : Nat
  rand : Nat
  unix : Int
  now : Int

/-- The function `NewTracer`: allocates a tracer using reporter `report`. -/
def NewTracer (w : World) (serviceName : Str) (tags : List Tag) (report : Nat)
    (disableSample : Bool) : Nat × World :=
  (w.dnext,
   { w.setDapper w.dnext
       { serviceName := serviceName, disableSample := disableSample, tags := tags,
         reporter := report, pool := [], sampler := newSampler probability } with
     dnext := w.dnext + 1 })

/-- The method `Span.SetTag`. -/
def Span.SetTag (s : Span) (tags : List Tag) : Span :=
  if !s.context.isSampled && !s.context.isDebug then s
  else
    let s1 := if s.tags.length < _maxTags then { s with tags := s.tags ++ tags } else s
    if s1.tags.length = _maxTags then
      { s1 with tags := s1.tags ++ [{ Key := "trace.error".toList,
                                      Value := .str "too many tags".toList }] }
    else s1

/-- The method `Span.setLog`; `now` is `time.Now().UnixNano()`. -/
def Span.setLog (s : Span) (logs : List LogField) (now : Int) : Span :=
  { s with logs := s.logs ++ [{ Timestamp := now,
                                Fields := logs.map (fun l => { Key := l.Key, Value := l.Value }) }] }

/-- The method `Span.SetLog`; `t1` and `t2` are the clock readings of the two
possible `setLog` calls. -/
def Span.SetLog (s : Span) (logs : List LogField) (t1 t2 : Int) : Span :=
  if !s.context.isSampled && !s.context.isDebug then s
  else
    let s1 := if s.logs.length < _maxLogs then s.setLog logs t1 else s
    if s1.logs.length = _maxLogs then
      s1.setLog [{ Key := "trace.error".toList, Value := "too many logs".toList }] t2
    else s1

/-- The method `SetTag` of the interface `Trace`: on a span it updates the span
and returns it, on `noopSpan` it returns `noopSpan`. -/
def Trace.SetTag (w : World) (t : Trace) (tags : List Tag) : Trace × World :=
  match t with
  | .span a => (.span a, w.setSpan a ((w.spans a).SetTag tags))
  | .noop => (.noop, w)

/-- The method `SetLog` of the interface `Trace`. -/
def Trace.SetLog (w : World) (t : Trace) (logs : List LogField) (t1 t2 : Int) : Trace × World :=
  match t with
  | .span a => (.span a, w.setSpan a ((w.spans a).SetLog logs t1 t2))
  | .noop => (.noop, w)

/-- The call `d.pool.Get()` of `sync.Pool`: it either removes and returns one of
the pooled objects (`pick` is its position) or, when `pick` is out of range,
allocates a new zero `Span` through the `New` function of the pool. -/
def poolGet (w : World) (d : Nat) (pick : Nat) : Nat × World :=
  match (w.dappers d).pool.get? pick with
  | some a => (a, w.setDapper d { w.dappers d with pool := (w.dappers d).pool.eraseIdx pick })
  | none => (w.next, { w.setSpan w.next Span.zero with next := w.next + 1 })

/-- The method `dapper.getSpan`. -/
def dapper.getSpan (w : World) (d : Nat) (pick : Nat) : Nat × World :=
  let r := poolGet w d pick
  let sp := r.2.spans r.1
  (r.1, r.2.setSpan r.1 { sp with dapper := d, children := 0, tags := [], logs := [] })

/-- The method `dapper.newSpanWithContext`. -/
def dapper.newSpanWithContext (env : Env) (w : World) (d : Nat) (operationName : Str)
    (ctx : spanContext) (dr : Draw) : Trace × World :=
  let r := dapper.getSpan w d dr.pick
  let sp := r.1
  let w1 := r.2
  if ctx.Level > maxLevel then (.noop, w1)
  else
    let level := ctx.Level + 1
    let sc : spanContext :=
      { TraceId := ctx.TraceId, ParentId := ctx.SpanId, Flags := ctx.Flags, Level := level,
        SpanId := if ctx.SpanId = 0 then ctx.TraceId else genID env.hostHash dr.rand dr.unix,
        Probability := 0 }
    let s := w1.spans sp
    (.span sp, w1.setSpan sp
      { s with operationName := operationName, context := sc, startTime := dr.now,
               tags := s.tags ++ (w1.dappers d).tags })

/-- The struct `option`. -/
structure option where
  Debug : Bool

def defaultOption : option := { Debug := false }

/-- The type `Option` of the package: a function that edits an `option`. -/
abbrev TraceOption := option → option

/-- The function `EnableDebug`. -/
def EnableDebug : TraceOption := fun opt => { opt with Debug := true }

/-- The sampling decision inside `dapper.New`: forced to `(true, 1)` when
sampling is disabled on the tracer, else the answer of the sampler. -/
def samplingDecision (dp : dapper) (traceId : Nat) (operationName : Str) (sNow : Int)
    (sRand : Rat) : (Bool × Rat) × probabilitySampling :=
  if dp.disableSample then ((true, 1), dp.sampler)
  else dp.sampler.IsSampled traceId operationName sNow sRand

/-- The method `dapper.New`; `sNow` and `sRand` are the clock reading and the
random number used by the sampler. -/
def dapper.New (env : Env) (w : World) (d : Nat) (operationName : Str)
    (opts : List TraceOption) (dr : Draw) (sNow : Int) (sRand : Rat) : Trace × World :=
  let opt := opts.foldl (fun o fn => fn o) defaultOption
  let traceId := genID env.hostHash dr.rand dr.unix
  let dp := w.dappers d
  let r := samplingDecision dp traceId operationName sNow sRand
  let w0 := w.setDapper d { dp with sampler := r.2 }
  let ctx : spanContext :=
    { TraceId := traceId, SpanId := 0, ParentId := 0, Flags := 0, Probability := 0, Level := 0 }
  let ctx := if r.1.1 then { ctx with Flags := flagSampled, Probability := r.1.2 } else ctx
  if opt.Debug then
    let ctx := { ctx with Flags := ctx.Flags ||| flagDebug }
    let r1 := dapper.newSpanWithContext env w0 d operationName ctx dr
    let r2 := Trace.SetTag r1.2 r1.1 [TagString env.TagSpanKind "server".toList]
    Trace.SetTag r2.2 r2.1 [TagBool "debug".toList true]
  else
    let r1 := dapper.newSpanWithContext env w0 d operationName ctx dr
    Trace.SetTag r1.2 r1.1 [TagString env.TagSpanKind "server".toList]

/-- The method `Span.Fork` on the span at address `a`. -/
def Span.Fork (env : Env) (w : World) (a : Nat) (_serviceName operationName : Str)
    (dr : Draw) : Trace × World :=
  let s := w.spans a
  if s.children > _maxChildren then (.noop, w)
  else
    let s1 := { s with children := s.children + 1 }
    let w1 := w.setSpan a s1
    let r := dapper.newSpanWithContext env w1 s1.dapper operationName s1.context dr
    Trace.SetTag r.2 r.1 [TagString env.TagSpanKind "client".toList]

/-- The method `Span.Follow` on the span at address `a`. -/
def Span.Follow (env : Env) (w : World) (a : Nat) (serviceName operationName : Str)
    (dr : Draw) : Trace × World :=
  let r := Span.Fork env w a serviceName operationName dr
  Trace.SetTag r.2 r.1 [TagString env.TagSpanKind "producer".toList]

/-- The methods `Fork` and `Follow` of the interface `Trace`. -/
def Trace.Fork (env : Env) (w : World) (t : Trace) (serviceName operationName : Str)
    (dr : Draw) : Trace × World :=
  match t with
  | .span a => Span.Fork env w a serviceName operationName dr
  | .noop => (.noop, w)

def Trace.Follow (env : Env) (w : World) (t : Trace) (serviceName operationName : Str)
    (dr : Draw) : Trace × World :=
  match t with
  | .span a => Span.Follow env w a serviceName operationName dr
  | .noop => (.noop, w)

/-- An error value passed to `Finish`: its message and, when it implements
`stackTracer`, its formatted stack trace. -/
structure GoError where
  msg : Str
  stack : Option Str

/-- Clock readings used by one `Finish` call: for the duration and for the log
entries it may write. -/
structure FinishClock where
  now : Int
  t1 : Int
  t2 : Int
  t3 : Int
  t4 : Int

/-- The method `dapper.putSpan`. -/
def dapper.putSpan (w : World) (d : Nat) (a : Nat) : World :=
  let sp := w.spans a
  let sp := if sp.tags.length > 32 then { sp with tags := [] } else sp
  let sp := if sp.logs.length > 32 then { sp with logs := [] } else sp
  let w1 := w.setSpan a sp
  w1.setDapper d { w1.dappers d with pool := a :: (w1.dappers d).pool }

/-- The method `WriteSpan` of a reporter, after `mockReport.WriteSpan` of
`dapper_test.go`: the reporter `r` appends the span to what it has received.
The record keeps the address and the content at the time of the call. -/
def WriteSpan (w : World) (r : Nat) (a : Nat) : World :=
  { w with reports := Function.update w.reports r (w.reports r ++ [(a, w.spans a)]) }

/-- The method `dapper.report`. -/
def dapper.report (w : World) (d : Nat) (a : Nat) : World :=
  let sp := w.spans a
  let w1 := if sp.context.isSampled then WriteSpan w (w.dappers d).reporter a else w
  dapper.putSpan w1 d a

/-- The part of `Span.Finish` before the hand-over to the tracer: the duration
and, for a non-nil error, the error tag and the log entries.  `perr` is `none`
for a nil pointer and `some none` for a pointer to a nil error. -/
def Span.finishMark (env : Env) (s : Span) (perr : Option (Option GoError))
    (clk : FinishClock) : Span :=
  let s := { s with duration := clk.now - s.startTime }
  match perr with
  | some (some err) =>
    let s := s.SetTag [TagBool env.TagError true]
    let s := s.SetLog [Log env.LogMessage err.msg] clk.t1 clk.t2
    match err.stack with
    | some st => s.SetLog [Log env.LogStack st] clk.t3 clk.t4
    | none => s
  | _ => s

/-- The method `Span.Finish` on the span at address `a`. -/
def Span.Finish (env : Env) (w : World) (a : Nat) (perr : Option (Option GoError))
    (clk : FinishClock) : World :=
  let s := Span.finishMark env (w.spans a) perr clk
  dapper.report (w.setSpan a s) s.dapper a

/-! ## Propagation (`dapper.go`) -/

/-- A Go `map[string][]string`, the type under `http.Header` and `metadata.MD`. -/
abbrev StrMap := Str → Option (List Str)

/-- The carrier values passed to `Inject` and `Extract` as `interface{}`: an
`http.Header` or a `metadata.MD` (`none` is the nil map), or a value of another
type that has no `Set`/`Get` methods. -/
inductive Carrier
  | httpHeader (h : Option StrMap)
  | grpcMD (md : Option StrMap)
  | other (tag : Nat)

/-- The format values passed to `Inject` and `Extract` as `interface{}`: the two
constants, any other value that can be a map key (`other`, the nil interface
among them), and a value whose type is not comparable, such as a slice, a map
or a func (`unhashable`). -/
inductive Format
  | HTTPFormat
  | GRPCFormat
  | other (tag : Nat)
  | unhashable (tag : Nat)
deriving DecidableEq

/-- The values implementing the interface `Carrier`: an `http.Header` itself (its
method set has `Set(key, value string)` and `Get(key string) string`), an
`httpCarrier` and a `gRpcCarrier`. -/
inductive CarrierObj
  | header (h : Option StrMap)
  | httpCarrier (h : Option StrMap)
  | gRpcCarrier (g : Option StrMap)

/-- A call that returns normally, returns an error, or panics. -/
inductive Outcome (α : Type)
  | ok (a : α)
  | error (e : Error)
  | panic

/-- The type assertion `carrier.(Carrier)`. -/
def Carrier.asCarrier : Carrier → Option CarrierObj
  | .httpHeader h => some (.header h)
  | .grpcMD _ => none
  | .other _ => none

/-- The method `http.Header.Set`: replaces the values under the canonical key;
`none` is the panic of an assignment into a nil map. -/
def headerSet (env : Env) (h : Option StrMap) (key val : Str) : Option StrMap :=
  match h with
  | none => none
  | some m => some (Function.update m (env.canonicalKey key) (some [val]))

/-- The method `http.Header.Get`: the first value under the canonical key, or `""`. -/
def headerGet (env : Env) (h : Option StrMap) (key : Str) : Str :=
  match h with
  | none => []
  | some m =>
    match m (env.canonicalKey key) with
    | some (v :: _) => v
    | _ => []

/-- The method `Set` of a carrier; `none` is a panic.  `gRpcCarrier.Set` appends
`val` to the values under `key`. -/
def CarrierObj.Set (env : Env) (c : CarrierObj) (key val : Str) : Option CarrierObj :=
  match c with
  | .header h => (headerSet env h key val).map (fun m => .header (some m))
  | .httpCarrier h => (headerSet env h key val).map (fun m => .httpCarrier (some m))
  | .gRpcCarrier none => none
  | .gRpcCarrier (some g) =>
    some (.gRpcCarrier (some (Function.update g key (some ((g key).getD [] ++ [val])))))

/-- The method `Get` of a carrier.  `gRpcCarrier.Get` returns the first value
under `key`, or `""`. -/
def CarrierObj.Get (env : Env) (c : CarrierObj) (key : Str) : Str :=
  match c with
  | .header h => headerGet env h key
  | .httpCarrier h => headerGet env h key
  | .gRpcCarrier none => []
  | .gRpcCarrier (some g) =>
    match g key with
    | some (v :: _) => v
    | _ => []

/-- The caller's carrier value after the calls made through a `CarrierObj`
(the maps are shared). -/
def CarrierObj.toCarrier : CarrierObj → Carrier
  | .header h => .httpHeader h
  | .httpCarrier h => .httpHeader h
  | .gRpcCarrier g => .grpcMD g

/-- The methods `httpPropagator.Inject` and `httpPropagator.Extract`. -/
def httpPropagator.Inject : Carrier → Except Error CarrierObj
  | .httpHeader none => .error .ErrInvalidTrace
  | .httpHeader (some h) => .ok (.httpCarrier (some h))
  | _ => .error .ErrInvalidCarrier

def httpPropagator.Extract : Carrier → Except Error CarrierObj
  | .httpHeader none => .error .ErrTraceNotFound
  | .httpHeader (some h) => .ok (.httpCarrier (some h))
  | _ => .error .ErrInvalidCarrier

/-- The methods `gRpcPropagator.Inject` and `gRpcPropagator.Extract`. -/
def gRpcPropagator.Inject : Carrier → Except Error CarrierObj
  | .grpcMD none => .error .ErrInvalidTrace
  | .grpcMD (some md) => .ok (.gRpcCarrier (some md))
  | _ => .error .ErrInvalidCarrier

def gRpcPropagator.Extract : Carrier → Except Error CarrierObj
  | .grpcMD none => .error .ErrTraceNotFound
  | .grpcMD (some md) => .ok (.gRpcCarrier (some md))
  | _ => .error .ErrInvalidCarrier

/-- The two implementations of the interface `propagator`. -/
inductive propagator
  | http
  | gRpc
deriving DecidableEq

def propagator.Inject : propagator → Carrier → Except Error CarrierObj
  | .http => httpPropagator.Inject
  | .gRpc => gRpcPropagator.Inject

def propagator.Extract : propagator → Carrier → Except Error CarrierObj
  | .http => httpPropagator.Extract
  | .gRpc => gRpcPropagator.Extract

/-- The lookup `d.propagators[format]` in the map `NewTracer` gives every tracer,
a `map[interface{}]propagator` with the keys `HTTPFormat` and `GRPCFormat`:
`some (some pp)` is an entry found, `some none` a key that is not in the map,
and `none` is the run-time panic of hashing a key of an unhashable type. -/
def propagators : Format → Option (Option propagator)
  | .HTTPFormat => some (some .http)
  | .GRPCFormat => some (some .gRpc)
  | .other _ => some none
  | .unhashable _ => none

/-- The method `Visit` of the interface `Trace`, called with the method value
`carr.Set`: a span calls it once with the header key and its encoded context,
`noopSpan` does not call it.  `none` is a panic inside `Set`. -/
def Trace.Visit (env : Env) (w : World) (t : Trace) (carr : CarrierObj) : Option CarrierObj :=
  match t with
  | .span a => carr.Set env env.FosTraceID (w.spans a).context.String
  | .noop => some carr

/-- The method `dapper.Inject`; `t = none` is the nil interface value.  The
result is the caller's carrier after the call; the call panics when `Set`
panics and when the format looked up in the map is unhashable. -/
def dapper.Inject (env : Env) (w : World) (_d : Nat) (t : Option Trace) (format : Format)
    (carrier : Carrier) : Outcome Carrier :=
  match carrier.asCarrier with
  | some carr =>
    match t with
    | none => .panic
    | some t =>
      match Trace.Visit env w t carr with
      | none => .panic
      | some c => .ok c.toCarrier
  | none =>
    match propagators format with
    | none => .panic
    | some none => .error .ErrUnsupportedFormat
    | some (some pp) =>
      match pp.Inject carrier with
      | .error e => .error e
      | .ok carr =>
        match t with
        | none => .ok carr.toCarrier
        | some t =>
          match Trace.Visit env w t carr with
          | none => .panic
          | some c => .ok c.toCarrier

/-- The method `dapper.extract`; it panics when the format looked up in the map
is unhashable. -/
def dapper.extract (env : Env) (w : World) (d : Nat) (format : Format) (carrier : Carrier)
    (dr : Draw) : Outcome (Trace × World) :=
  let carr : Outcome CarrierObj :=
    match carrier.asCarrier with
    | some carr => .ok carr
    | none =>
      match propagators format with
      | none => .panic
      | some none => .error .ErrUnsupportedFormat
      | some (some pp) =>
        match pp.Extract carrier with
        | .error e => .error e
        | .ok carr => .ok carr
  match carr with
  | .panic => .panic
  | .error e => .error e
  | .ok carr =>
    match contextFromString (carr.Get env env.FosTraceID) with
    | .error e => .error e
    | .ok ctx => .ok (dapper.newSpanWithContext env w d [] ctx dr)

/-- The method `dapper.Extract`. -/
def dapper.Extract (env : Env) (w : World) (d : Nat) (format : Format) (carrier : Carrier)
    (dr : Draw) : Outcome (Trace × World) :=
  match dapper.extract env w d format carrier dr with
  | .error e => .error e
  | .panic => .panic
  | .ok r => .ok (Trace.SetTag r.2 r.1 [TagString env.TagSpanKind "server".toList])

/-- The context `newSpanWithContext` derives from a parent context. -/
def childContext (env : Env) (ctx : spanContext) (dr : Draw) : spanContext :=
  { TraceId := ctx.TraceId, ParentId := ctx.SpanId, Flags := ctx.Flags, Level := ctx.Level + 1,
    SpanId := if ctx.SpanId = 0 then ctx.TraceId else genID env.hostHash dr.rand dr.unix,
    Probability := 0 }

/-! ## Concrete values used to evaluate the definitions -/

/-- A concrete environment: `"trace-id"` as header key, the usual tag and log
keys, host hash 7 and a canonicalisation that leaves keys unchanged. -/
def sampleEnv : Env :=
  { FosTraceID := "trace-id".toList, TagSpanKind := "span.kind".toList,
    TagError := "error".toList, LogMessage := "message".toList, LogStack := "stack".toList,
    hostHash := 7, canonicalKey := fun k => k }

/-- Concrete draws for one span creation. -/
def sampleDraw : Draw := { pick := 0, rand := 5, unix := 1700000000, now := 0 }

/-- A gRPC metadata map that already holds the encoded context `1:1:0:1` under
the trace key. -/
def staleMD : StrMap := fun k => if k = "trace-id".toList then some ["1:1:0:1".toList] else none

/-! ## Iterated operations used in the statements -/

/-- The world after `n` successive `Fork` calls on the span at `a`; call `i` uses
the draws `drs i`. -/
def forkTimes (env : Env) (a : Nat) (drs : Nat → Draw) : Nat → World → World
  | 0, w => w
  | n + 1, w => (Span.Fork env (forkTimes env a drs n w) a [] [] (drs n)).2

/-- A chain of `n` nested `Fork` calls: each call forks the span returned by the
call before it. -/
def forkChain (env : Env) (drs : Nat → Draw) : Nat → Trace × World → Trace × World
  | 0, r => r
  | n + 1, r =>
    Trace.Fork env (forkChain env drs n r).2 (forkChain env drs n r).1 [] [] (drs n)

/-- The root context `dapper.New` builds before it creates the span. -/
def rootContext (traceId : Nat) (sampled : Bool) (pr : Rat) (debug : Bool) : spanContext :=
  { TraceId := traceId, SpanId := 0, ParentId := 0,
    Flags := (if sampled then flagSampled else 0) ||| (if debug then flagDebug else 0),
    Probability := if sampled then pr else 0, Level := 0 }

/-- A fresh tracer in the empty world, and the root span `dapper.New` creates on it. -/
def freshRoot (env : Env) (serviceName : Str) (tags : List Tag) (disableSample : Bool)
    (operationName : Str) (opts : List TraceOption) (dr : Draw) (sNow : Int) (sRand : Rat) :
    Trace × World :=
  dapper.New env (NewTracer World.empty serviceName tags 0 disableSample).2
    (NewTracer World.empty serviceName tags 0 disableSample).1 operationName opts dr sNow sRand

/-- The world of the tests: a fresh tracer `service1` without default tags and
with sampling disabled, and the root span of `New("opt_1")` at address 0 (trace
id and span id `0x5076553f1`, flags 1, level 1, one tag `span.kind=server`). -/
def rootWorld : World :=
  (freshRoot sampleEnv "service1".toList [] true "opt_1".toList [] sampleDraw 0 0).2

/-- The log entry `setLog` builds from the fields of one call at time `now`. -/
def logEntry (logs : List LogField) (now : Int) : protoGen.Log :=
  { Timestamp := now, Fields := logs.map (fun l => { Key := l.Key, Value := l.Value }) }

/-- The marker entry `SetLog` appends when the cap is reached. -/
def tooManyLogs (now : Int) : protoGen.Log :=
  logEntry [{ Key := "trace.error".toList, Value := "too many logs".toList }] now

/-- The marker tag `SetTag` appends when the cap is reached. -/
def tooManyTags : Tag := { Key := "trace.error".toList, Value := .str "too many tags".toList }

/-- A sequence of `SetLog` calls on one span; each call comes with its fields and
its two clock readings. -/
def setLogCalls (s : Span) (calls : List (List LogField × Int × Int)) : Span :=
  calls.foldl (fun s c => s.SetLog c.1 c.2.1 c.2.2) s

/-- The logs expected after a sequence of `SetLog` calls on a span without logs:
one entry per call for the first 256 calls, then the marker written by the
256th call. -/
def expectedLogs (calls : List (List LogField × Int × Int)) : List protoGen.Log :=
  if calls.length < 256 then calls.map (fun c => logEntry c.1 c.2.1)
  else (calls.take 256).map (fun c => logEntry c.1 c.2.1) ++
    [tooManyLogs (calls.getD 255 ([], 0, 0)).2.2]

/-- A list of 130 tags, offered in one `SetTag` call. -/
def tags130 : List Tag := List.replicate 130 (TagString "k".toList "v".toList)

/-! ## Further notions and concrete values used in the statements -/

/-- The world after `SetTag` is called through the interface on the span at `a`. -/
def setTagWorld (w : World) (a : Nat) (tags : List Tag) : World :=
  (Trace.SetTag w (.span a) tags).2

/-- A fresh tracer `service1` with sampling enabled and the root span of
`New("/metrics")` at address 0: the name is on the ignore list, so the span is
not sampled and its flags are 0. -/
def unsampledWorld : World :=
  (freshRoot sampleEnv "service1".toList [] false "/metrics".toList [] sampleDraw 0 0).2

/-- The same with the debug option: the flags are 2, the debug bit alone. -/
def debugWorld : World :=
  (freshRoot sampleEnv "service1".toList [] false "/metrics".toList [EnableDebug] sampleDraw
    0 0).2

/-- An empty `map[string][]string`. -/
def emptyMap : StrMap := fun _ => none

/-- A tag list holds at most one tag per key. -/
def oneTagPerKey (tags : List Tag) : Prop := (tags.map (fun t => t.Key)).Nodup

instance (tags : List Tag) : Decidable (oneTagPerKey tags) := by
  unfold oneTagPerKey; infer_instance

/-- A lowercase hexadecimal digit, `0-9` or `a-f`. -/
def isLowerHexDigit (c : Char) : Prop :=
  (48 ≤ c.toNat ∧ c.toNat ≤ 57) ∨ (97 ≤ c.toNat ∧ c.toNat ≤ 102)

instance (c : Char) : Decidable (isLowerHexDigit c) := by
  unfold isLowerHexDigit; infer_instance

/-- A lowercase base-16 numeral of the value `v`: not empty, digits `0-9a-f` only. -/
def isLowerHexNumeral (s : Str) (v : Nat) : Prop :=
  s ≠ [] ∧ (∀ c ∈ s, isLowerHexDigit c) ∧ hexValue s = v

/-- The shortest lowercase base-16 numeral of `v`: no lowercase numeral of `v` is
shorter. -/
def isShortestHex (s : Str) (v : Nat) : Prop :=
  isLowerHexNumeral s v ∧ ∀ s', isLowerHexNumeral s' v → s.length ≤ s'.length

/-- The scenario of `TestDapper`: two tracers `service1` (index 0) and `service2`
(index 1) with one default tag, sampling disabled, both built with reporter 0. -/
def testTracers : World :=
  (NewTracer
    (NewTracer World.empty "service1".toList [TagString "ip".toList "10.0.0.1".toList] 0 true).2
    "service2".toList [TagString "ip".toList "10.0.0.1".toList] 0 true).2

/-- The span `sp1 := t1.New("opt_1")` of the scenario, at address 0. -/
def testSp1 : Trace × World :=
  dapper.New sampleEnv testTracers 0 "opt_1".toList [] sampleDraw 0 0

/-- The span `sp2 := sp1.Fork("", "opt_client")`, at address 1. -/
def testSp2 : Trace × World :=
  Trace.Fork sampleEnv testSp1.2 testSp1.1 [] "opt_client".toList
    { pick := 0, rand := 6, unix := 1700000000, now := 1 }

/-- The header after `t1.Inject(sp2, HTTPFormat, header)` on an empty header. -/
def testHeader : Carrier :=
  match dapper.Inject sampleEnv testSp2.2 0 (some testSp2.1) .HTTPFormat
      (.httpHeader (some emptyMap)) with
  | .ok c => c
  | _ => .httpHeader (some emptyMap)

/-- The span `sp3` of `t2.Extract(HTTPFormat, header)`, at address 2. -/
def testSp3 : Trace × World :=
  match dapper.Extract sampleEnv testSp2.2 1 .HTTPFormat testHeader
      { pick := 0, rand := 9, unix := 1700000000, now := 2 } with
  | .ok r => r
  | _ => (.noop, testSp2.2)

/-- The state of the scenario before the three `Finish` calls. -/
def testWorld : World := testSp3.2

/-- A clock for `Finish`. -/
def sampleClock : FinishClock := { now := 10, t1 := 11, t2 := 12, t3 := 13, t4 := 14 }

/-- An error with the message `boom` and no stack trace. -/
def sampleError : GoError := { msg := "boom".toList, stack := none }

/-- The root span of `rootWorld` after one `SetTag` call with 127 tags: it holds
its first tag, the 127 tags and the marker, 129 tags in all. -/
def cappedTagsWorld : World :=
  setTagWorld rootWorld 0 (List.replicate 127 (TagString "k".toList "v".toList))

/-- The root span of `rootWorld` after 256 `SetLog` calls: it holds 256 entries and
the marker. -/
def cappedLogsWorld : World :=
  rootWorld.setSpan 0
    (setLogCalls (rootWorld.spans 0) (List.replicate 256 ([Log "k".toList "v".toList], 1, 2)))

/-- One call of `IsSampled`: its arguments, the clock reading and the random draw. -/
structure SamplerCall where
  traceID : Nat
  operationName : Str
  now : Int
  rand : Rat

/-- The sampler after a sequence of `IsSampled` calls. -/
def IsSampledCalls (p : probabilitySampling) (calls : List SamplerCall) : probabilitySampling :=
  calls.foldl (fun p c => (p.IsSampled c.traceID c.operationName c.now c.rand).2) p

/-- The slot of the ring an operation name falls into. -/
def slotOf (operationName : Str) : Nat := oneAtTimeHash operationName % slotLength

/-! ## Paths of forks -/

/-- A path of nested `Fork` calls through the interface: each step forks the span
returned by the step before it, with its own service name, operation name and
draws. -/
def forkPath (env : Env) : List (Str × Str × Draw) → Trace × World → Trace × World
  | [], r => r
  | st :: rest, r => forkPath env rest (Trace.Fork env r.2 r.1 st.1 st.2.1 st.2.2)

/-- Two concrete fork steps. -/
def sampleSteps : List (Str × Str × Draw) :=
  [([], "opt_client".toList, { pick := 0, rand := 6, unix := 1700000000, now := 1 }),
   ([], "opt_inner".toList, { pick := 0, rand := 9, unix := 1700000000, now := 2 })]

/-! ## A pooled span object -/

/-- The scenario of `TestDapper` after `sp1.Finish(&err)` with the error `boom`:
the object at address 0 holds three tags, one log entry and child count 1 and
lies in the pool of tracer 0. -/
def pooledWorld : World :=
  Span.Finish sampleEnv testWorld 0 (some (some sampleError)) sampleClock

/-- An unsampled context as `contextFromString` returns it for `"a:b:0:0"`. -/
def unsampledContext : spanContext :=
  { TraceId := 10, SpanId := 11, ParentId := 0, Flags := 0, Probability := 0, Level := 0 }

/-! # Theorems -/
/-! ## Lemmas on `strconv` -/

theorem lower_ge_of_ge (x : Nat) (h : 128 ≤ x) : 128 ≤ lower x := by
  have h6 : (x ||| 32) / 2 / 2 / 2 / 2 / 2 / 2 = x / 2 / 2 / 2 / 2 / 2 / 2 := by
    simp [Nat.or_div_two]
  unfold lower
  omega

theorem hexDigitOf_small : ∀ x : Nat, x < 128 →
    hexDigitOf x = if isHexByte x then some (hexByteValue x) else none := by
  unfold hexDigitOf digitVal isHexByte hexByteValue lower
  decide

theorem hexDigitOf_eq (x : Nat) :
    hexDigitOf x = if isHexByte x then some (hexByteValue x) else none := by
  by_cases hx : x < 128
  · exact hexDigitOf_small x hx
  · have hl := lower_ge_of_ge x (by omega)
    have h1 : ¬ isHexByte x := by unfold isHexByte; omega
    have h2 : digitVal x = none := by
      unfold digitVal
      rw [if_neg (by omega), if_neg (by omega)]
    simp [hexDigitOf, h1, h2]

theorem hexByteValue_lt (x : Nat) (h : isHexByte x) : hexByteValue x < 16 := by
  unfold isHexByte at h
  unfold hexByteValue
  split
  · omega
  · split <;> omega

/-- One round of the digit loop, in terms of the reference notions. -/
theorem parseLoop_cons (c : Char) (cs : Str) (n : Nat) :
    parseLoop (c :: cs) n =
      if isHexDigit c then
        if n ≥ cutoff16 then .error .ErrRange
        else parseLoop cs (n * 16 + hexByteValue c.toNat)
      else .error .ErrSyntax := by
  have hd := hexDigitOf_eq c.toNat
  unfold hexDigitOf at hd
  unfold isHexDigit
  rw [parseLoop]
  by_cases hc : isHexByte c.toNat
  · have hlt := hexByteValue_lt _ hc
    rw [if_pos hc] at hd
    rw [if_pos hc]
    cases hdv : digitVal c.toNat with
    | none => rw [hdv] at hd; simp at hd
    | some d =>
      rw [hdv] at hd
      simp only [Option.some_bind] at hd
      have hd16 : d < 16 := by
        by_contra hcon
        rw [if_neg hcon] at hd
        cases hd
      rw [if_pos hd16] at hd
      cases hd
      simp only []
      rw [if_neg (by omega)]
      by_cases hn : n ≥ cutoff16
      · rw [if_pos hn, if_pos hn]
      · rw [if_neg hn, if_neg hn]
        have hn' : n < 2 ^ 60 := by unfold cutoff16 at hn; omega
        have e1 : (n * 16) % 2 ^ 64 = n * 16 := Nat.mod_eq_of_lt (by omega)
        have e2 : (n * 16 + hexByteValue c.toNat) % 2 ^ 64 = n * 16 + hexByteValue c.toNat :=
          Nat.mod_eq_of_lt (by omega)
        simp only [e1, e2]
        rw [if_neg]
        unfold maxVal64
        omega
  · rw [if_neg hc] at hd
    rw [if_neg hc]
    cases hdv : digitVal c.toNat with
    | none => rfl
    | some d =>
      rw [hdv] at hd
      simp only [Option.some_bind] at hd
      have hd16 : ¬ d < 16 := by
        intro hcon
        rw [if_pos hcon] at hd
        cases hd
      simp only []
      rw [if_pos (by omega)]

theorem le_hexValueFrom (cs : Str) : ∀ n, n ≤ hexValueFrom n cs := by
  induction cs with
  | nil => intro n; exact Nat.le_refl _
  | cons c cs ih =>
    intro n
    have := ih (n * 16 + hexByteValue c.toNat)
    simp only [hexValueFrom]
    omega

/-- The digit loop succeeds exactly on digit strings whose value fits. -/
theorem parseLoop_ok_iff (cs : Str) : ∀ n v, n < 2 ^ 64 →
    (parseLoop cs n = .ok v ↔
      (∀ c ∈ cs, isHexDigit c) ∧ hexValueFrom n cs < 2 ^ 64 ∧ v = hexValueFrom n cs) := by
  induction cs with
  | nil =>
    intro n v hn
    simp only [parseLoop, hexValueFrom, List.not_mem_nil, false_implies, implies_true,
      true_and, Except.ok.injEq]
    constructor
    · intro h; exact ⟨hn, h.symm⟩
    · intro h; exact h.2.symm
  | cons c cs ih =>
    intro n v hn
    rw [parseLoop_cons]
    simp only [List.mem_cons, forall_eq_or_imp, hexValueFrom]
    by_cases hc : isHexDigit c
    · rw [if_pos hc]
      have hlt := hexByteValue_lt _ hc
      by_cases hcut : n ≥ cutoff16
      · rw [if_pos hcut]
        have hle := le_hexValueFrom cs (n * 16 + hexByteValue c.toNat)
        unfold cutoff16 at hcut
        constructor
        · intro h; cases h
        · intro h; omega
      · rw [if_neg hcut]
        unfold cutoff16 at hcut
        rw [ih (n * 16 + hexByteValue c.toNat) v (by omega)]
        simp [hc]
    · rw [if_neg hc]
      constructor
      · intro h; cases h
      · intro h; exact absurd h.1.1 hc

/-- The function `ParseUint` succeeds exactly on base-16 numerals that fit in 64 bits. -/
theorem ParseUint_ok_iff (s : Str) (v : Nat) :
    ParseUint s = .ok v ↔ isHex64 s ∧ v = hexValue s := by
  unfold ParseUint isHex64 hexValue
  by_cases hs : s = []
  · rw [if_pos hs]
    constructor
    · intro h; cases h
    · intro h; exact absurd hs h.1.1
  · rw [if_neg hs, parseLoop_ok_iff s 0 v (by norm_num)]
    constructor
    · intro h; exact ⟨⟨hs, h.1, h.2.1⟩, h.2.2⟩
    · intro h; exact ⟨h.1.2.1, h.1.2.2, h.2⟩

/-! ## Lemmas on formatting, joining and splitting -/

theorem digitChar_spec : ∀ d : Nat, d < 16 →
    isHexDigit (digitChar d) ∧ hexByteValue (digitChar d).toNat = d ∧ digitChar d ≠ ':' := by
  unfold isHexDigit isHexByte hexByteValue digitChar
  decide

theorem formatBits_hex (fuel : Nat) : ∀ (u : Nat) (acc : Str),
    (∀ c ∈ acc, isHexDigit c ∧ c ≠ ':') →
    ∀ c ∈ formatBits fuel u acc, isHexDigit c ∧ c ≠ ':' := by
  induction fuel with
  | zero =>
    intro u acc hacc c hc
    simp only [formatBits, List.mem_cons] at hc
    rcases hc with rfl | hc
    · have := digitChar_spec (u % 16) (Nat.mod_lt _ (by norm_num))
      exact ⟨this.1, this.2.2⟩
    · exact hacc c hc
  | succ fuel ih =>
    intro u acc hacc c hc
    rw [formatBits] at hc
    by_cases hu : u ≥ 16
    · rw [if_pos hu] at hc
      refine ih (u / 16) _ ?_ c hc
      intro c' hc'
      simp only [List.mem_cons] at hc'
      rcases hc' with rfl | hc'
      · have := digitChar_spec (u % 16) (Nat.mod_lt _ (by norm_num))
        exact ⟨this.1, this.2.2⟩
      · exact hacc c' hc'
    · rw [if_neg hu] at hc
      simp only [List.mem_cons] at hc
      rcases hc with rfl | hc
      · have := digitChar_spec u (by omega)
        exact ⟨this.1, this.2.2⟩
      · exact hacc c hc

theorem formatBits_ne_nil (fuel u : Nat) (acc : Str) : formatBits fuel u acc ≠ [] := by
  cases fuel with
  | zero => simp [formatBits]
  | succ fuel =>
    induction fuel generalizing u acc with
    | zero =>
      rw [formatBits]
      split
      · simp [formatBits]
      · simp
    | succ fuel ih =>
      rw [formatBits]
      split
      · exact ih _ _
      · simp

theorem formatBits_value (fuel : Nat) : ∀ (u : Nat) (acc : Str), u < 16 ^ (fuel + 1) →
    hexValueFrom 0 (formatBits fuel u acc) = hexValueFrom u acc := by
  induction fuel with
  | zero =>
    intro u acc hu
    have hu' : u < 16 := by simpa using hu
    simp only [formatBits, hexValueFrom, Nat.mod_eq_of_lt hu',
      (digitChar_spec u hu').2.1, Nat.zero_mul, Nat.zero_add]
  | succ fuel ih =>
    intro u acc hu
    rw [formatBits]
    by_cases h16 : u ≥ 16
    · rw [if_pos h16]
      have hdiv : u / 16 < 16 ^ (fuel + 1) := by
        rw [Nat.div_lt_iff_lt_mul (by norm_num)]
        calc u < 16 ^ (fuel + 1 + 1) := hu
          _ = 16 ^ (fuel + 1) * 16 := by rw [Nat.pow_succ]
      rw [ih (u / 16) _ hdiv]
      simp only [hexValueFrom, (digitChar_spec (u % 16) (Nat.mod_lt _ (by norm_num))).2.1]
      congr 1
      omega
    · rw [if_neg h16]
      simp only [hexValueFrom, (digitChar_spec u (by omega)).2.1, Nat.zero_mul, Nat.zero_add]

/-- The numeral `FormatUint u` of a 64-bit value parses back to `u`. -/
theorem ParseUint_FormatUint (u : Nat) (hu : u < 2 ^ 64) : ParseUint (FormatUint u) = .ok u := by
  rw [ParseUint_ok_iff]
  unfold isHex64 hexValue FormatUint
  have hv : hexValueFrom 0 (formatBits 16 u []) = u := by
    rw [formatBits_value 16 u [] (by omega)]
    rfl
  refine ⟨⟨formatBits_ne_nil _ _ _, ?_, ?_⟩, ?_⟩
  · intro c hc
    exact (formatBits_hex 16 u [] (by simp) c hc).1
  · rw [hv]; exact hu
  · exact hv.symm

theorem FormatUint_no_colon (u : Nat) : ∀ c ∈ FormatUint u, c ≠ ':' := by
  intro c hc
  exact (formatBits_hex 16 u [] (by simp) c hc).2

theorem FormatUint_ne_nil (u : Nat) : FormatUint u ≠ [] := formatBits_ne_nil _ _ _

theorem Split_ne_nil (s : Str) (sep : Char) : Split s sep ≠ [] := by
  cases s with
  | nil => simp [Split]
  | cons c cs =>
    rw [Split]
    split
    · simp
    · split <;> simp

theorem Split_no_sep (a : Str) (sep : Char) (ha : ∀ c ∈ a, c ≠ sep) : Split a sep = [a] := by
  induction a with
  | nil => rfl
  | cons c cs ih =>
    have hc : c ≠ sep := ha c (by simp)
    have hcs := ih (fun c' hc' => ha c' (by simp [hc']))
    rw [Split, if_neg hc, hcs]

theorem Split_append_sep (a rest : Str) (sep : Char) (ha : ∀ c ∈ a, c ≠ sep) :
    Split (a ++ sep :: rest) sep = a :: Split rest sep := by
  induction a with
  | nil => simp [Split]
  | cons c cs ih =>
    have hc : c ≠ sep := ha c (by simp)
    have hcs := ih (fun c' hc' => ha c' (by simp [hc']))
    rw [List.cons_append, Split, if_neg hc, hcs]

/-- Splitting the join of four separator-free fields gives the fields back. -/
theorem Split_Join4 (a b c d : Str) (sep : Char) (ha : ∀ x ∈ a, x ≠ sep)
    (hb : ∀ x ∈ b, x ≠ sep) (hc : ∀ x ∈ c, x ≠ sep) (hd : ∀ x ∈ d, x ≠ sep) :
    Split (Join [a, b, c, d] [sep]) sep = [a, b, c, d] := by
  simp only [Join, List.append_assoc, List.singleton_append]
  rw [Split_append_sep a _ sep ha, Split_append_sep b _ sep hb, Split_append_sep c _ sep hc,
    Split_no_sep d sep hd]

/-! ## Lemmas on `contextFromString` -/

theorem parseHexUint64_ok_iff (l : List Str) : ∀ vs,
    (parseHexUint64 l = .ok vs ↔ (∀ f ∈ l, isHex64 f) ∧ vs = l.map hexValue) := by
  induction l with
  | nil =>
    intro vs
    simp only [parseHexUint64, Except.ok.injEq, List.not_mem_nil, false_implies, implies_true,
      List.map_nil, true_and]
    exact eq_comm
  | cons h hs ih =>
    intro vs
    rw [parseHexUint64]
    cases hp : ParseUint h with
    | error e =>
      simp only [List.mem_cons, forall_eq_or_imp, List.map_cons]
      constructor
      · intro hh; cases hh
      · intro hh
        have := (ParseUint_ok_iff h (hexValue h)).2 ⟨hh.1.1, rfl⟩
        rw [hp] at this
        cases this
    | ok v =>
      have hv := (ParseUint_ok_iff h v).1 hp
      simp only [List.mem_cons, forall_eq_or_imp, List.map_cons]
      cases hq : parseHexUint64 hs with
      | error e =>
        constructor
        · intro hh; cases hh
        · intro hh
          have := (ih (hs.map hexValue)).2 ⟨hh.1.2, rfl⟩
          rw [hq] at this
          cases this
      | ok ws =>
        have hw := (ih ws).1 hq
        simp only [Except.ok.injEq]
        constructor
        · intro hh
          subst hh
          exact ⟨⟨hv.1, hw.1⟩, by rw [hv.2, hw.2]⟩
        · intro hh
          rw [hh.2, hv.2, hw.2]

theorem parseHexUint64_error_iff (l : List Str) :
    (∃ e, parseHexUint64 l = .error e) ↔ ∃ f ∈ l, ¬ isHex64 f := by
  constructor
  · rintro ⟨e, he⟩
    by_contra hcon
    push_neg at hcon
    have := (parseHexUint64_ok_iff l (l.map hexValue)).2 ⟨hcon, rfl⟩
    rw [he] at this
    cases this
  · rintro ⟨f, hf, hnot⟩
    cases hp : parseHexUint64 l with
    | error e => exact ⟨e, rfl⟩
    | ok vs => exact absurd (((parseHexUint64_ok_iff l vs).1 hp).1 f hf) hnot

/-- The three outcomes of `contextFromString` in terms of the fields of the input. -/
theorem contextFromString_cases (s : Str) :
    (s = [] ∧ contextFromString s = .error .errEmptyTracerString) ∨
    (s ≠ [] ∧ ((Split s ':').length < 4 ∨ ∃ f ∈ (Split s ':').take 4, ¬ isHex64 f) ∧
      contextFromString s = .error .errInvalidTracerString) ∨
    (s ≠ [] ∧ 4 ≤ (Split s ':').length ∧ (∀ f ∈ (Split s ':').take 4, isHex64 f) ∧
      ∃ c, contextFromString s = .ok c) := by
  unfold contextFromString
  by_cases hs : s = []
  · left
    exact ⟨hs, by rw [if_pos hs]⟩
  · right
    rw [if_neg hs]
    simp only []
    by_cases hl : (Split s ':').length < 4
    · left
      exact ⟨hs, Or.inl hl, by rw [if_pos hl]⟩
    · rw [if_neg hl]
      cases hp : parseHexUint64 ((Split s ':').take 4) with
      | error e =>
        left
        exact ⟨hs, Or.inr ((parseHexUint64_error_iff _).1 ⟨e, hp⟩), rfl⟩
      | ok vs =>
        right
        exact ⟨hs, by omega, ((parseHexUint64_ok_iff _ vs).1 hp).1, _, rfl⟩

/-- Decoding an encoded context gives back the ids and the flags. -/
theorem contextFromString_String (ctx : spanContext) (h : ctx.wf) :
    contextFromString ctx.String =
      .ok { TraceId := ctx.TraceId, SpanId := ctx.SpanId, ParentId := ctx.ParentId,
            Flags := ctx.Flags, Probability := 0, Level := 0 } := by
  obtain ⟨ht, hs, hp, hf⟩ := h
  have hf64 : ctx.Flags < 2 ^ 64 := by omega
  have hsplit : Split ctx.String ':' =
      [FormatUint ctx.TraceId, FormatUint ctx.SpanId, FormatUint ctx.ParentId,
       FormatUint ctx.Flags] :=
    Split_Join4 _ _ _ _ ':' (FormatUint_no_colon _) (FormatUint_no_colon _)
      (FormatUint_no_colon _) (FormatUint_no_colon _)
  have hne : ctx.String ≠ [] := by
    intro hnil
    have := Split_Join4 (FormatUint ctx.TraceId) (FormatUint ctx.SpanId)
      (FormatUint ctx.ParentId) (FormatUint ctx.Flags) ':' (FormatUint_no_colon _)
      (FormatUint_no_colon _) (FormatUint_no_colon _) (FormatUint_no_colon _)
    unfold spanContext.String at hnil
    rw [hnil] at this
    simp [Split] at this
  unfold contextFromString
  rw [if_neg hne]
  simp only [hsplit, List.length_cons, List.length_nil]
  rw [if_neg (by omega)]
  simp only [List.take, parseHexUint64, ParseUint_FormatUint _ ht, ParseUint_FormatUint _ hs,
    ParseUint_FormatUint _ hp, ParseUint_FormatUint _ hf64, List.getD_cons_zero,
    List.getD_cons_succ]
  have : ctx.Flags % 256 = ctx.Flags := Nat.mod_eq_of_lt (by omega)
  rw [this]

/-! ## Lemmas on spans and tracers -/

theorem Span.SetTag_context (s : Span) (tags : List Tag) : (s.SetTag tags).context = s.context := by
  unfold Span.SetTag
  split
  · rfl
  · simp only []
    split <;> split <;> rfl

theorem Span.SetTag_frame (s : Span) (tags : List Tag) :
    (s.SetTag tags).logs = s.logs ∧ (s.SetTag tags).children = s.children ∧
    (s.SetTag tags).operationName = s.operationName ∧ (s.SetTag tags).dapper = s.dapper ∧
    (s.SetTag tags).startTime = s.startTime ∧ (s.SetTag tags).duration = s.duration := by
  unfold Span.SetTag
  split
  · simp
  · simp only []
    split <;> split <;> simp

theorem World.setSpan_same (w : World) (a : Nat) (s : Span) : (w.setSpan a s).spans a = s := by
  simp [World.setSpan]

theorem World.setSpan_other (w : World) (a b : Nat) (s : Span) (h : b ≠ a) :
    (w.setSpan a s).spans b = w.spans b := by
  simp [World.setSpan, Function.update_noteq h]

/-- Below the level gate `newSpanWithContext` returns the span taken by `getSpan`,
with the derived context. -/
theorem newSpanWithContext_span (env : Env) (w : World) (d : Nat) (op : Str) (ctx : spanContext)
    (dr : Draw) (h : ctx.Level ≤ maxLevel) :
    ∃ w', dapper.newSpanWithContext env w d op ctx dr = (.span (dapper.getSpan w d dr.pick).1, w') ∧
      (w'.spans (dapper.getSpan w d dr.pick).1).context =
        { TraceId := ctx.TraceId, ParentId := ctx.SpanId, Flags := ctx.Flags,
          Level := ctx.Level + 1,
          SpanId := if ctx.SpanId = 0 then ctx.TraceId else genID env.hostHash dr.rand dr.unix,
          Probability := 0 } ∧
      (w'.spans (dapper.getSpan w d dr.pick).1).operationName = op ∧
      (∀ b, b ≠ (dapper.getSpan w d dr.pick).1 →
        w'.spans b = (dapper.getSpan w d dr.pick).2.spans b) := by
  unfold dapper.newSpanWithContext
  simp only []
  rw [if_neg (by omega)]
  refine ⟨_, rfl, ?_, ?_, ?_⟩
  · rw [World.setSpan_same]
  · rw [World.setSpan_same]
  · intro b hb
    rw [World.setSpan_other _ _ _ _ hb]

theorem Trace.SetTag_span (w : World) (a : Nat) (tags : List Tag) :
    Trace.SetTag w (.span a) tags = (.span a, w.setSpan a ((w.spans a).SetTag tags)) := rfl

/-- What `Extract` returns on a non-nil `http.Header` that holds an encoded
context as the only value under the trace key. -/
theorem Extract_http_of_value (env : Env) (w : World) (d : Nat) (m : StrMap) (ctx : spanContext)
    (dr : Draw) (hwf : ctx.wf) (hm : m (env.canonicalKey env.FosTraceID) = some [ctx.String]) :
    ∃ b w', dapper.Extract env w d .HTTPFormat (.httpHeader (some m)) dr = .ok (.span b, w') ∧
      (w'.spans b).context.TraceId = ctx.TraceId ∧
      (w'.spans b).context.ParentId = ctx.SpanId ∧
      (w'.spans b).context.Flags = ctx.Flags ∧
      (w'.spans b).context.Level = 1 := by
  have hdec := contextFromString_String ctx hwf
  obtain ⟨w1, hnew, hctx, -, -⟩ := newSpanWithContext_span env w d []
    { TraceId := ctx.TraceId, SpanId := ctx.SpanId, ParentId := ctx.ParentId,
      Flags := ctx.Flags, Probability := 0, Level := 0 } dr (by simp [maxLevel])
  refine ⟨(dapper.getSpan w d dr.pick).1,
    w1.setSpan (dapper.getSpan w d dr.pick).1
      ((w1.spans (dapper.getSpan w d dr.pick).1).SetTag
        [TagString env.TagSpanKind "server".toList]), ?_, ?_⟩
  · unfold dapper.Extract dapper.extract
    simp only [Carrier.asCarrier, CarrierObj.Get, headerGet, hm, hdec, hnew, Trace.SetTag_span]
  · simp only [World.setSpan_same, Span.SetTag_context, hctx]
    simp

/-! ## Lemmas on `getSpan`, `newSpanWithContext` and `Fork` -/

theorem World.setDapper_spans (w : World) (d : Nat) (t : dapper) :
    (w.setDapper d t).spans = w.spans := rfl

theorem World.setDapper_next (w : World) (d : Nat) (t : dapper) :
    (w.setDapper d t).next = w.next := rfl

theorem World.setSpan_dappers (w : World) (a : Nat) (s : Span) :
    (w.setSpan a s).dappers = w.dappers := rfl

theorem World.setSpan_next (w : World) (a : Nat) (s : Span) :
    (w.setSpan a s).next = w.next := rfl

/-- What `sync.Pool.Get` returns and changes. -/
theorem poolGet_spec (w : World) (d pick : Nat) :
    ((poolGet w d pick).1 ∈ (w.dappers d).pool ∧ (poolGet w d pick).2.next = w.next ∨
      (poolGet w d pick).1 = w.next ∧ (poolGet w d pick).2.next = w.next + 1) ∧
    (∀ b, b ≠ (poolGet w d pick).1 → (poolGet w d pick).2.spans b = w.spans b) ∧
    (poolGet w d pick).2.reports = w.reports ∧
    (∀ e, (∀ x ∈ ((poolGet w d pick).2.dappers e).pool, x ∈ (w.dappers e).pool) ∧
      ((poolGet w d pick).2.dappers e).tags = (w.dappers e).tags ∧
      ((poolGet w d pick).2.dappers e).disableSample = (w.dappers e).disableSample ∧
      ((poolGet w d pick).2.dappers e).reporter = (w.dappers e).reporter ∧
      ((poolGet w d pick).2.dappers e).sampler = (w.dappers e).sampler) := by
  unfold poolGet
  split
  · rename_i c hg
    refine ⟨Or.inl ⟨List.get?_mem hg, rfl⟩, fun b _ => rfl, rfl, fun e => ?_⟩
    by_cases he : e = d
    · subst he
      refine ⟨fun x hx => ?_, ?_, ?_, ?_, ?_⟩
      · have hx' : x ∈ (w.dappers e).pool.eraseIdx pick := by
          simpa [World.setDapper] using hx
        exact List.mem_of_mem_eraseIdx hx'
      all_goals simp [World.setDapper]
    · refine ⟨fun x hx => ?_, ?_, ?_, ?_, ?_⟩
      · simpa [World.setDapper, Function.update_noteq he] using hx
      all_goals simp [World.setDapper, Function.update_noteq he]
  · refine ⟨Or.inr ⟨rfl, rfl⟩, fun b hb => ?_, rfl, fun e => ⟨fun x hx => hx, rfl, rfl, rfl, rfl⟩⟩
    exact World.setSpan_other _ _ _ _ hb

theorem getSpan_fst_eq (w : World) (d pick : Nat) :
    (dapper.getSpan w d pick).1 = (poolGet w d pick).1 := rfl

/-- The address `getSpan` returns: a pooled one, or the allocation frontier. -/
theorem getSpan_fst (w : World) (d pick : Nat) :
    (dapper.getSpan w d pick).1 ∈ (w.dappers d).pool ∨ (dapper.getSpan w d pick).1 = w.next := by
  rw [getSpan_fst_eq]
  rcases (poolGet_spec w d pick).1 with h | h
  · exact Or.inl h.1
  · exact Or.inr h.1

/-- A live span (allocated and not in the pool) is never the one `getSpan` returns. -/
theorem getSpan_fst_ne (w : World) (d pick a : Nat) (ha : a < w.next)
    (hp : a ∉ (w.dappers d).pool) : (dapper.getSpan w d pick).1 ≠ a := by
  rcases getSpan_fst w d pick with h | h
  · intro heq; rw [heq] at h; exact hp h
  · omega

/-- The function `getSpan` changes no span but the one it returns. -/
theorem getSpan_spans_other (w : World) (d pick b : Nat) (hb : b ≠ (dapper.getSpan w d pick).1) :
    (dapper.getSpan w d pick).2.spans b = w.spans b := by
  rw [getSpan_fst_eq] at hb
  show ((poolGet w d pick).2.setSpan (poolGet w d pick).1 _).spans b = w.spans b
  rw [World.setSpan_other _ _ _ _ hb]
  exact (poolGet_spec w d pick).2.1 b hb

/-- The span `getSpan` returns is reset and bound to the tracer. -/
theorem getSpan_reset (w : World) (d pick : Nat) :
    ((dapper.getSpan w d pick).2.spans (dapper.getSpan w d pick).1).tags = [] ∧
    ((dapper.getSpan w d pick).2.spans (dapper.getSpan w d pick).1).logs = [] ∧
    ((dapper.getSpan w d pick).2.spans (dapper.getSpan w d pick).1).children = 0 ∧
    ((dapper.getSpan w d pick).2.spans (dapper.getSpan w d pick).1).dapper = d := by
  unfold dapper.getSpan
  simp only [World.setSpan_same, and_self]

theorem getSpan_next (w : World) (d pick : Nat) :
    (dapper.getSpan w d pick).1 ∈ (w.dappers d).pool ∧ (dapper.getSpan w d pick).2.next = w.next ∨
    (dapper.getSpan w d pick).1 = w.next ∧ (dapper.getSpan w d pick).2.next = w.next + 1 :=
  (poolGet_spec w d pick).1

theorem getSpan_next_le (w : World) (d pick : Nat) :
    w.next ≤ (dapper.getSpan w d pick).2.next := by
  rcases getSpan_next w d pick with h | h <;> omega

/-- The function `getSpan` only removes addresses from the pools and leaves the
other fields of the tracers unchanged. -/
theorem getSpan_dappers (w : World) (d pick e : Nat) :
    (∀ x ∈ ((dapper.getSpan w d pick).2.dappers e).pool, x ∈ (w.dappers e).pool) ∧
    ((dapper.getSpan w d pick).2.dappers e).tags = (w.dappers e).tags ∧
    ((dapper.getSpan w d pick).2.dappers e).disableSample = (w.dappers e).disableSample ∧
    ((dapper.getSpan w d pick).2.dappers e).reporter = (w.dappers e).reporter ∧
    ((dapper.getSpan w d pick).2.dappers e).sampler = (w.dappers e).sampler :=
  (poolGet_spec w d pick).2.2.2 e

theorem getSpan_reports (w : World) (d pick : Nat) :
    (dapper.getSpan w d pick).2.reports = w.reports :=
  (poolGet_spec w d pick).2.2.1

theorem newSpanWithContext_eq (env : Env) (w : World) (d : Nat) (op : Str) (ctx : spanContext)
    (dr : Draw) (h : ctx.Level ≤ maxLevel) :
    dapper.newSpanWithContext env w d op ctx dr =
      (.span (dapper.getSpan w d dr.pick).1,
       (dapper.getSpan w d dr.pick).2.setSpan (dapper.getSpan w d dr.pick).1
         { (dapper.getSpan w d dr.pick).2.spans (dapper.getSpan w d dr.pick).1 with
           operationName := op, context := childContext env ctx dr, startTime := dr.now,
           tags := ((dapper.getSpan w d dr.pick).2.spans (dapper.getSpan w d dr.pick).1).tags ++
                   ((dapper.getSpan w d dr.pick).2.dappers d).tags }) := by
  unfold dapper.newSpanWithContext childContext
  simp only []
  rw [if_neg (by omega)]

theorem newSpanWithContext_noop (env : Env) (w : World) (d : Nat) (op : Str) (ctx : spanContext)
    (dr : Draw) (h : ctx.Level > maxLevel) :
    dapper.newSpanWithContext env w d op ctx dr = (.noop, (dapper.getSpan w d dr.pick).2) := by
  unfold dapper.newSpanWithContext
  simp only []
  rw [if_pos h]

theorem getSpan_setSpan_fst (w : World) (a : Nat) (s : Span) (d pick : Nat) :
    (dapper.getSpan (w.setSpan a s) d pick).1 = (dapper.getSpan w d pick).1 := by
  unfold dapper.getSpan poolGet
  simp only [World.setSpan_dappers, World.setSpan_next]
  split <;> rfl

/-- The effect of a `Fork` that passes both gates, on the span at `a`, on the
returned span and on the rest of the state. -/
theorem Fork_spec (env : Env) (w : World) (a : Nat) (sn op : Str) (dr : Draw)
    (hc : (w.spans a).children ≤ _maxChildren) (hl : (w.spans a).context.Level ≤ maxLevel) :
    ∃ w', Span.Fork env w a sn op dr =
        (.span (dapper.getSpan w (w.spans a).dapper dr.pick).1, w') ∧
      (w'.spans (dapper.getSpan w (w.spans a).dapper dr.pick).1).context =
        childContext env (w.spans a).context dr ∧
      (w'.spans (dapper.getSpan w (w.spans a).dapper dr.pick).1).operationName = op ∧
      (w'.spans (dapper.getSpan w (w.spans a).dapper dr.pick).1).children = 0 ∧
      (w'.spans (dapper.getSpan w (w.spans a).dapper dr.pick).1).dapper = (w.spans a).dapper ∧
      (w'.spans (dapper.getSpan w (w.spans a).dapper dr.pick).1).logs = [] ∧
      ((dapper.getSpan w (w.spans a).dapper dr.pick).1 ≠ a →
        w'.spans a = { w.spans a with children := (w.spans a).children + 1 }) ∧
      (∀ b, b ≠ (dapper.getSpan w (w.spans a).dapper dr.pick).1 → b ≠ a →
        w'.spans b = w.spans b) ∧
      w'.next = (dapper.getSpan w (w.spans a).dapper dr.pick).2.next ∧
      w'.dappers = (dapper.getSpan w (w.spans a).dapper dr.pick).2.dappers ∧
      w'.reports = w.reports := by
  have hfst := getSpan_setSpan_fst w a { w.spans a with children := (w.spans a).children + 1 }
    (w.spans a).dapper dr.pick
  have hreset := getSpan_reset (w.setSpan a { w.spans a with children := (w.spans a).children + 1 })
    (w.spans a).dapper dr.pick
  unfold Span.Fork
  simp only []
  rw [if_neg (by omega), newSpanWithContext_eq _ _ _ _ _ _ hl, Trace.SetTag_span]
  rw [hfst] at hreset ⊢
  refine ⟨_, rfl, ?_, ?_, ?_, ?_, ?_, ?_, ?_, ?_, ?_, ?_⟩
  · simp only [World.setSpan_same, Span.SetTag_context]
  · simp only [World.setSpan_same, (Span.SetTag_frame _ _).2.2.1]
  · simp only [World.setSpan_same, (Span.SetTag_frame _ _).2.1]
    exact hreset.2.2.1
  · simp only [World.setSpan_same, (Span.SetTag_frame _ _).2.2.2.1]
    exact hreset.2.2.2
  · simp only [World.setSpan_same, (Span.SetTag_frame _ _).1]
    exact hreset.2.1
  · intro hne
    have hne' : a ≠ (dapper.getSpan w (w.spans a).dapper dr.pick).1 := fun h => hne h.symm
    rw [World.setSpan_other _ _ _ _ hne', World.setSpan_other _ _ _ _ hne',
      getSpan_spans_other _ _ _ _ (by rw [hfst]; exact hne'), World.setSpan_same]
  · intro b hb hba
    rw [World.setSpan_other _ _ _ _ hb, World.setSpan_other _ _ _ _ hb,
      getSpan_spans_other _ _ _ _ (by rw [hfst]; exact hb), World.setSpan_other _ _ _ _ hba]
  · simp only [World.setSpan_next]
    unfold dapper.getSpan poolGet
    simp only [World.setSpan_dappers, World.setSpan_next]
    split <;> rfl
  · simp only [World.setSpan_dappers]
    unfold dapper.getSpan poolGet
    simp only [World.setSpan_dappers, World.setSpan_next]
    split <;> rfl
  · simp only [World.setSpan]
    rw [getSpan_reports]

theorem Fork_noop_children (env : Env) (w : World) (a : Nat) (sn op : Str) (dr : Draw)
    (hc : (w.spans a).children > _maxChildren) :
    Span.Fork env w a sn op dr = (.noop, w) := by
  unfold Span.Fork
  simp only []
  rw [if_pos hc]

/-- What `Extract` returns on non-nil gRPC metadata whose first value under the
trace key decodes to `ctx`. -/
theorem Extract_grpc_of_value (env : Env) (w : World) (d : Nat) (m : StrMap) (v : Str)
    (rest : List Str) (ctx : spanContext) (dr : Draw)
    (hm : m env.FosTraceID = some (v :: rest)) (hdec : contextFromString v = .ok ctx) :
    ∃ b w', dapper.Extract env w d .GRPCFormat (.grpcMD (some m)) dr = .ok (.span b, w') ∧
      (w'.spans b).context.TraceId = ctx.TraceId ∧
      (w'.spans b).context.ParentId = ctx.SpanId ∧
      (w'.spans b).context.Flags = ctx.Flags ∧
      (w'.spans b).context.Level = ctx.Level + 1 := by
  have hl : ctx.Level = 0 := by
    unfold contextFromString at hdec
    split at hdec
    · cases hdec
    · simp only [] at hdec
      split at hdec
      · cases hdec
      · split at hdec
        · cases hdec
        · cases hdec; rfl
  obtain ⟨w1, hnew, hctx, -, -⟩ := newSpanWithContext_span env w d [] ctx dr (by rw [hl]; decide)
  refine ⟨(dapper.getSpan w d dr.pick).1,
    w1.setSpan (dapper.getSpan w d dr.pick).1
      ((w1.spans (dapper.getSpan w d dr.pick).1).SetTag
        [TagString env.TagSpanKind "server".toList]), ?_, ?_⟩
  · unfold dapper.Extract dapper.extract
    simp only [Carrier.asCarrier, propagators, propagator.Extract, gRpcPropagator.Extract,
      CarrierObj.Get, hm, hdec, hnew, Trace.SetTag_span]
  · simp only [World.setSpan_same, Span.SetTag_context, hctx]
    simp

/-! ## Lemmas on `New`, repeated forks and fork chains -/

theorem foldl_EnableDebug (opts : List TraceOption) (h : ∀ fn ∈ opts, fn = EnableDebug) :
    ∀ o : option, (opts.foldl (fun o fn => fn o) o).Debug = (o.Debug || !opts.isEmpty) := by
  induction opts with
  | nil => intro o; simp
  | cons f fs ih =>
    intro o
    have hf : f = EnableDebug := h f (by simp)
    rw [List.foldl_cons, ih (fun fn hfn => h fn (by simp [hfn])), hf]
    simp [EnableDebug]

theorem getSpan_setDapper_sampler (w : World) (d pick : Nat) (smp : probabilitySampling) :
    (dapper.getSpan (w.setDapper d { w.dappers d with sampler := smp }) d pick).1 =
      (dapper.getSpan w d pick).1 ∧
    (dapper.getSpan (w.setDapper d { w.dappers d with sampler := smp }) d pick).2.next =
      (dapper.getSpan w d pick).2.next ∧
    (∀ b, (dapper.getSpan (w.setDapper d { w.dappers d with sampler := smp }) d pick).2.spans b =
      (dapper.getSpan w d pick).2.spans b) ∧
    (∀ e, ((dapper.getSpan (w.setDapper d { w.dappers d with sampler := smp }) d pick).2.dappers
        e).pool = ((dapper.getSpan w d pick).2.dappers e).pool) := by
  unfold dapper.getSpan poolGet
  simp only [World.setDapper, Function.update_same]
  split
  · refine ⟨rfl, rfl, fun b => rfl, fun e => ?_⟩
    simp only [World.setSpan_dappers]
    by_cases he : e = d
    · subst he; simp
    · simp [Function.update_noteq he]
  · refine ⟨rfl, rfl, fun b => rfl, fun e => ?_⟩
    simp only [World.setSpan_dappers]
    by_cases he : e = d
    · subst he; simp [World.setSpan]
    · simp [Function.update_noteq he, World.setSpan]

/-- The span `dapper.New` returns: its address, its context and the other fields. -/
theorem New_spec (env : Env) (w : World) (d : Nat) (op : Str) (opts : List TraceOption)
    (dr : Draw) (sNow : Int) (sRand : Rat) :
    ∃ w', dapper.New env w d op opts dr sNow sRand = (.span (dapper.getSpan w d dr.pick).1, w') ∧
      (w'.spans (dapper.getSpan w d dr.pick).1).context =
        childContext env
          (rootContext (genID env.hostHash dr.rand dr.unix)
            (samplingDecision (w.dappers d) (genID env.hostHash dr.rand dr.unix) op sNow
              sRand).1.1
            (samplingDecision (w.dappers d) (genID env.hostHash dr.rand dr.unix) op sNow
              sRand).1.2
            (opts.foldl (fun o fn => fn o) defaultOption).Debug) dr ∧
      (w'.spans (dapper.getSpan w d dr.pick).1).operationName = op ∧
      (w'.spans (dapper.getSpan w d dr.pick).1).children = 0 ∧
      (w'.spans (dapper.getSpan w d dr.pick).1).dapper = d ∧
      (w'.spans (dapper.getSpan w d dr.pick).1).logs = [] ∧
      w'.next = (dapper.getSpan w d dr.pick).2.next ∧
      (∀ e, (w'.dappers e).pool = ((dapper.getSpan w d dr.pick).2.dappers e).pool) := by
  have hg := getSpan_setDapper_sampler w d dr.pick
    (samplingDecision (w.dappers d) (genID env.hostHash dr.rand dr.unix) op sNow sRand).2
  have hreset := getSpan_reset (w.setDapper d { w.dappers d with
    sampler := (samplingDecision (w.dappers d) (genID env.hostHash dr.rand dr.unix) op sNow
      sRand).2 }) d dr.pick
  unfold dapper.New
  simp only []
  cases hs : (samplingDecision (w.dappers d) (genID env.hostHash dr.rand dr.unix) op sNow
      sRand).1.1 <;>
    cases hd : (opts.foldl (fun o fn => fn o) defaultOption).Debug <;>
    simp only [Bool.false_eq_true, if_true, if_false] <;>
    rw [newSpanWithContext_eq _ _ _ _ _ _ (by simp [maxLevel])] <;>
    simp only [Trace.SetTag_span] <;>
    rw [hg.1] at hreset ⊢ <;>
    refine ⟨_, rfl, ?_, ?_, ?_, ?_, ?_, ?_, ?_⟩ <;>
    simp only [World.setSpan_same, Span.SetTag_context, World.setSpan_next,
      World.setSpan_dappers, (Span.SetTag_frame _ _).1, (Span.SetTag_frame _ _).2.1,
      (Span.SetTag_frame _ _).2.2.1, (Span.SetTag_frame _ _).2.2.2.1, hreset, hg.2.1] <;>
    first
      | rfl
      | exact hg.2.2.2

/-- Repeated forks of one live span: while the child count stays within
`_maxChildren + 1`, every call passes the gate and adds one child. -/
theorem forkTimes_spec (env : Env) (a : Nat) (drs : Nat → Draw) (w : World)
    (hlive : a < w.next) (hpool : a ∉ (w.dappers (w.spans a).dapper).pool)
    (hl : (w.spans a).context.Level ≤ maxLevel) :
    ∀ n : Nat, (w.spans a).children + n ≤ _maxChildren + 1 →
      (forkTimes env a drs n w).spans a =
        { w.spans a with children := (w.spans a).children + n } ∧
      a < (forkTimes env a drs n w).next ∧
      a ∉ ((forkTimes env a drs n w).dappers (w.spans a).dapper).pool := by
  intro n
  induction n with
  | zero =>
    intro _
    refine ⟨?_, hlive, hpool⟩
    simp [forkTimes]
  | succ n ih =>
    intro hn
    obtain ⟨hsp, hlv, hpl⟩ := ih (by push_cast at hn; omega)
    have hd : ((forkTimes env a drs n w).spans a).dapper = (w.spans a).dapper := by rw [hsp]
    have hch : ((forkTimes env a drs n w).spans a).children = (w.spans a).children + n := by
      rw [hsp]
    have hlev : ((forkTimes env a drs n w).spans a).context.Level ≤ maxLevel := by
      rw [hsp]; exact hl
    obtain ⟨w', hf, -, -, -, -, -, hpar, -, hnext, hdap, -⟩ :=
      Fork_spec env (forkTimes env a drs n w) a [] [] (drs n)
        (by rw [hch]; push_cast at hn; omega) hlev
    have hne := getSpan_fst_ne (forkTimes env a drs n w)
      ((forkTimes env a drs n w).spans a).dapper (drs n).pick a hlv (by rw [hd]; exact hpl)
    have hw' : forkTimes env a drs (n + 1) w = w' := by
      simp only [forkTimes, hf]
    rw [hw']
    refine ⟨?_, ?_, ?_⟩
    · rw [hpar hne, hsp]
      simp only [Span.mk.injEq, true_and, and_true]
      push_cast
      omega
    · rw [hnext]
      exact Nat.lt_of_lt_of_le hlv (getSpan_next_le _ _ _)
    · rw [hdap]
      intro hmem
      exact hpl ((getSpan_dappers _ _ _ _).1 a hmem)

/-- With an empty pool `getSpan` allocates at the frontier. -/
theorem getSpan_fresh (w : World) (d pick : Nat) (hp : (w.dappers d).pool = []) :
    (dapper.getSpan w d pick).1 = w.next ∧ (dapper.getSpan w d pick).2.next = w.next + 1 ∧
    ((dapper.getSpan w d pick).2.dappers d).pool = [] := by
  have hpool : ((dapper.getSpan w d pick).2.dappers d).pool = [] := by
    apply List.eq_nil_iff_forall_not_mem.2
    intro x hx
    have := (getSpan_dappers w d pick d).1 x hx
    rw [hp] at this
    exact absurd this (List.not_mem_nil x)
  rcases getSpan_next w d pick with h | h
  · rw [hp] at h
    exact absurd h.1 (List.not_mem_nil _)
  · exact ⟨h.1, h.2, hpool⟩

/-- A chain of nested forks on a tracer with an empty pool: starting from a span
of level `L` without children, the `n`-th nested span is real and has level
`L + n`, as long as `L + n ≤ maxLevel + 1`. -/
theorem forkChain_spec (env : Env) (drs : Nat → Draw) (w : World) (a d : Nat) (L : Int)
    (hlive : a < w.next) (hd : (w.spans a).dapper = d) (hpool : (w.dappers d).pool = [])
    (hch : (w.spans a).children = 0) (hL : (w.spans a).context.Level = L) :
    ∀ n : Nat, L + n ≤ maxLevel + 1 →
      ∃ c w', forkChain env drs n (.span a, w) = (.span c, w') ∧ c < w'.next ∧
        (w'.spans c).dapper = d ∧ (w'.dappers d).pool = [] ∧ (w'.spans c).children = 0 ∧
        (w'.spans c).context.Level = L + n := by
  intro n
  induction n with
  | zero =>
    intro _
    exact ⟨a, w, rfl, hlive, hd, hpool, hch, by simpa using hL⟩
  | succ n ih =>
    intro hn
    obtain ⟨c, w', hchain, hc, hcd, hcp, hcc, hcl⟩ := ih (by push_cast at hn; omega)
    obtain ⟨w'', hf, hctx, -, hch', hd', -, -, -, hnext, hdap, -⟩ :=
      Fork_spec env w' c [] [] (drs n) (by rw [hcc]; decide)
        (by rw [hcl]; push_cast at hn; omega)
    rw [hcd] at hf hctx hch' hd' hnext hdap
    obtain ⟨hfst, hfn, hfp⟩ := getSpan_fresh w' d (drs n).pick hcp
    refine ⟨(dapper.getSpan w' d (drs n).pick).1, w'', ?_, ?_, hd', ?_, hch', ?_⟩
    · simp only [forkChain, hchain, Trace.Fork, hf]
    · rw [hnext, hfst, hfn]; omega
    · rw [hdap]; exact hfp
    · rw [hctx]
      simp only [childContext, hcl]
      push_cast
      omega

theorem forkChain_succ (env : Env) (drs : Nat → Draw) (n : Nat) (r : Trace × World) :
    forkChain env drs (n + 1) r =
      Trace.Fork env (forkChain env drs n r).2 (forkChain env drs n r).1 [] [] (drs n) := rfl

/-- A `Fork` on a span whose level is above `maxLevel` returns `noopSpan`. -/
theorem Fork_noop_level (env : Env) (w : World) (a : Nat) (sn op : Str) (dr : Draw)
    (hc : (w.spans a).children ≤ _maxChildren) (hl : (w.spans a).context.Level > maxLevel) :
    (Span.Fork env w a sn op dr).1 = .noop := by
  unfold Span.Fork
  simp only []
  rw [if_neg (by omega), newSpanWithContext_noop _ _ _ _ _ _ hl]
  rfl

/-- The root span created on a fresh tracer: it sits at address 0, is live, has
level 1 and no children, and the pool of the tracer is empty. -/
theorem freshRoot_spec (env : Env) (sn : Str) (tags : List Tag) (ds : Bool) (op : Str)
    (opts : List TraceOption) (dr : Draw) (sNow : Int) (sRand : Rat) :
    ∃ w, freshRoot env sn tags ds op opts dr sNow sRand = (.span 0, w) ∧ 0 < w.next ∧
      (w.spans 0).dapper = 0 ∧ (w.dappers 0).pool = [] ∧ (w.spans 0).children = 0 ∧
      (w.spans 0).context.Level = 1 := by
  have hp : ((NewTracer World.empty sn tags 0 ds).2.dappers
      (NewTracer World.empty sn tags 0 ds).1).pool = [] := by
    simp [NewTracer, World.setDapper]
  obtain ⟨hfst, hfn, hfp⟩ := getSpan_fresh _ _ dr.pick hp
  obtain ⟨w, hnew, hctx, -, hch, hd, -, hnext, hdap⟩ :=
    New_spec env (NewTracer World.empty sn tags 0 ds).2 (NewTracer World.empty sn tags 0 ds).1
      op opts dr sNow sRand
  have h0 : (NewTracer World.empty sn tags 0 ds).2.next = 0 := rfl
  have hd0 : (NewTracer World.empty sn tags 0 ds).1 = 0 := rfl
  rw [hfst, h0] at hnew hctx hch hd
  rw [hd0] at hd
  refine ⟨w, hnew, ?_, hd, ?_, hch, ?_⟩
  · rw [hnext, hfn]; omega
  · rw [hdap 0]
    rw [hd0] at hfp
    exact hfp
  · rw [hctx]
    simp [childContext, rootContext]

/-! ## Lemmas on `SetTag` and `SetLog` -/

theorem Span.SetLog_context (s : Span) (logs : List LogField) (t1 t2 : Int) :
    (s.SetLog logs t1 t2).context = s.context := by
  unfold Span.SetLog Span.setLog
  split
  · rfl
  · simp only []
    split <;> split <;> rfl

theorem gate_of_sampled_or_debug (c : spanContext)
    (h : c.isSampled = true ∨ c.isDebug = true) : ¬ ((!c.isSampled && !c.isDebug) = true) := by
  rcases h with h | h <;> simp [h]

/-- One `SetLog` call below the cap appends the entry of the call, and the marker
when the entry is the 256th. -/
theorem SetLog_below (s : Span) (h : s.context.isSampled = true ∨ s.context.isDebug = true)
    (logs : List LogField) (t1 t2 : Int) (hlen : s.logs.length < _maxLogs) :
    (s.SetLog logs t1 t2).logs =
      s.logs ++ [logEntry logs t1] ++
        (if s.logs.length + 1 = _maxLogs then [tooManyLogs t2] else []) := by
  unfold Span.SetLog
  rw [if_neg (gate_of_sampled_or_debug _ h)]
  simp only [if_pos hlen, Span.setLog, List.length_append, List.length_singleton]
  by_cases h256 : s.logs.length + 1 = _maxLogs
  · rw [if_pos h256, if_pos h256]
    rfl
  · rw [if_neg h256, if_neg h256]
    simp [logEntry]

/-- One `SetLog` call on a span that holds more than 256 entries changes nothing. -/
theorem SetLog_above (s : Span) (logs : List LogField) (t1 t2 : Int)
    (hlen : s.logs.length > _maxLogs) : s.SetLog logs t1 t2 = s := by
  unfold Span.SetLog
  split
  · rfl
  · simp only [if_neg (show ¬ s.logs.length < _maxLogs by omega)]
    rw [if_neg (by omega)]

theorem setLogCalls_append (s : Span) (calls : List (List LogField × Int × Int))
    (c : List LogField × Int × Int) :
    setLogCalls s (calls ++ [c]) = (setLogCalls s calls).SetLog c.1 c.2.1 c.2.2 := by
  simp [setLogCalls, List.foldl_append]

theorem setLogCalls_context (s : Span) (calls : List (List LogField × Int × Int)) :
    (setLogCalls s calls).context = s.context := by
  induction calls using List.reverseRecOn with
  | nil => rfl
  | append_singleton cs c ih => rw [setLogCalls_append, Span.SetLog_context, ih]

/-- The logs after any sequence of `SetLog` calls on a span that starts without
logs. -/
theorem setLogCalls_logs (s : Span) (h : s.context.isSampled = true ∨ s.context.isDebug = true)
    (hnil : s.logs = []) (calls : List (List LogField × Int × Int)) :
    (setLogCalls s calls).logs = expectedLogs calls := by
  induction calls using List.reverseRecOn with
  | nil => simp [setLogCalls, expectedLogs, hnil]
  | append_singleton cs c ih =>
    have hctx : (setLogCalls s cs).context.isSampled = true ∨
        (setLogCalls s cs).context.isDebug = true := by
      rw [setLogCalls_context]; exact h
    rw [setLogCalls_append]
    by_cases hlt : cs.length < 255
    · have hexp : expectedLogs cs = cs.map (fun c => logEntry c.1 c.2.1) := by
        unfold expectedLogs; rw [if_pos (by omega)]
      have hlen : (setLogCalls s cs).logs.length = cs.length := by
        rw [ih, hexp, List.length_map]
      rw [SetLog_below _ hctx _ _ _ (by rw [hlen]; unfold _maxLogs; omega), hlen,
        if_neg (by unfold _maxLogs; omega), ih, hexp]
      unfold expectedLogs
      rw [if_pos (by simp; omega)]
      simp
    · by_cases heq : cs.length = 255
      · have hexp : expectedLogs cs = cs.map (fun c => logEntry c.1 c.2.1) := by
          unfold expectedLogs; rw [if_pos (by omega)]
        have hlen : (setLogCalls s cs).logs.length = cs.length := by
          rw [ih, hexp, List.length_map]
        rw [SetLog_below _ hctx _ _ _ (by rw [hlen]; unfold _maxLogs; omega), hlen,
          if_pos (by unfold _maxLogs; omega), ih, hexp]
        unfold expectedLogs
        rw [if_neg (by simp; omega)]
        have htake : (cs ++ [c]).take 256 = cs ++ [c] :=
          List.take_of_length_le (by simp; omega)
        have hget : (cs ++ [c]).getD 255 ([], 0, 0) = c := by
          rw [List.getD_append_right _ _ _ _ (by omega), heq]
          simp
        rw [htake, hget]
        simp
      · have hge : 256 ≤ cs.length := by omega
        have hexp : expectedLogs cs = (cs.take 256).map (fun c => logEntry c.1 c.2.1) ++
            [tooManyLogs (cs.getD 255 ([], 0, 0)).2.2] := by
          unfold expectedLogs; rw [if_neg (by omega)]
        have hlen : (setLogCalls s cs).logs.length = 257 := by
          rw [ih, hexp]
          simp [List.length_take]
          omega
        rw [SetLog_above _ _ _ _ (by rw [hlen]; unfold _maxLogs; omega), ih, hexp]
        unfold expectedLogs
        rw [if_neg (by simp; omega)]
        have htake : (cs ++ [c]).take 256 = cs.take 256 :=
          List.take_append_of_le_length hge
        have hget : (cs ++ [c]).getD 255 ([], 0, 0) = cs.getD 255 ([], 0, 0) :=
          List.getD_append _ _ _ _ (by omega)
        rw [htake, hget]

theorem expectedLogs_length (calls : List (List LogField × Int × Int)) :
    (expectedLogs calls).length ≤ 257 := by
  unfold expectedLogs
  split
  · simp; omega
  · simp [List.length_take]

/-- The tag and log calls of `Finish` leave the logs unchanged above the cap. -/
theorem finishMark_logs_above (env : Env) (s : Span) (perr : Option (Option GoError))
    (clk : FinishClock) (hlen : s.logs.length > _maxLogs) :
    (Span.finishMark env s perr clk).logs = s.logs := by
  have h1 : ∀ (x : Span) (l : List LogField) (t1 t2 : Int), x.logs = s.logs →
      (x.SetLog l t1 t2).logs = s.logs := by
    intro x l t1 t2 hx
    rw [SetLog_above x l t1 t2 (by rw [hx]; exact hlen), hx]
  unfold Span.finishMark
  simp only []
  cases perr with
  | none => rfl
  | some e =>
    cases e with
    | none => rfl
    | some err =>
      simp only []
      cases err.stack with
      | none =>
        simp only []
        exact h1 _ _ _ _ (Span.SetTag_frame _ _).1
      | some st =>
        simp only []
        exact h1 _ _ _ _ (h1 _ _ _ _ (Span.SetTag_frame _ _).1)

/-- One `SetTag` call that overshoots the cap stores all its tags and no marker. -/
theorem SetTag_overshoot (s : Span) (tags : List Tag)
    (h : s.context.isSampled = true ∨ s.context.isDebug = true)
    (hlt : s.tags.length < _maxTags) (hgt : _maxTags < s.tags.length + tags.length) :
    (s.SetTag tags).tags = s.tags ++ tags := by
  unfold Span.SetTag
  rw [if_neg (gate_of_sampled_or_debug _ h)]
  simp only [if_pos hlt, List.length_append]
  rw [if_neg (by omega)]

/-- Once more than 128 tags are stored `SetTag` changes nothing. -/
theorem SetTag_above (s : Span) (tags : List Tag) (hlen : s.tags.length > _maxTags) :
    s.SetTag tags = s := by
  unfold Span.SetTag
  split
  · rfl
  · simp only [if_neg (show ¬ s.tags.length < _maxTags by omega)]
    rw [if_neg (by omega)]

/-! ## Lemmas on the sampling gate of `SetTag` and `SetLog` -/

theorem SetTag_unsampled (s : Span) (tags : List Tag) (h1 : s.context.isSampled = false)
    (h2 : s.context.isDebug = false) : s.SetTag tags = s := by
  unfold Span.SetTag
  rw [if_pos (by simp [h1, h2])]

theorem SetLog_unsampled (s : Span) (logs : List LogField) (t1 t2 : Int)
    (h1 : s.context.isSampled = false) (h2 : s.context.isDebug = false) :
    s.SetLog logs t1 t2 = s := by
  unfold Span.SetLog
  rw [if_pos (by simp [h1, h2])]

/-- One `SetTag` call below the cap appends the tags of the call, and the marker
when the length is 128 afterwards. -/
theorem SetTag_below (s : Span) (tags : List Tag)
    (h : s.context.isSampled = true ∨ s.context.isDebug = true)
    (hlt : s.tags.length < _maxTags) :
    (s.SetTag tags).tags =
      s.tags ++ tags ++ (if (s.tags ++ tags).length = _maxTags then [tooManyTags] else []) := by
  unfold Span.SetTag
  rw [if_neg (gate_of_sampled_or_debug _ h)]
  simp only [if_pos hlt]
  by_cases h128 : (s.tags ++ tags).length = _maxTags
  · rw [if_pos h128, if_pos h128]
    rfl
  · rw [if_neg h128, if_neg h128]
    simp

theorem World.setSpan_self (w : World) (a : Nat) : w.setSpan a (w.spans a) = w := by
  simp [World.setSpan]

/-! ## Lemmas on the shape of `FormatUint` and `String` -/

theorem digitChar_lower : ∀ d : Nat, d < 16 →
    isLowerHexDigit (digitChar d) ∧ (d ≠ 0 → 1 ≤ hexByteValue (digitChar d).toNat) := by
  unfold isLowerHexDigit hexByteValue digitChar
  decide

theorem formatBits_lower (fuel : Nat) : ∀ (u : Nat) (acc : Str),
    (∀ c ∈ acc, isLowerHexDigit c) → ∀ c ∈ formatBits fuel u acc, isLowerHexDigit c := by
  induction fuel with
  | zero =>
    intro u acc hacc c hc
    simp only [formatBits, List.mem_cons] at hc
    rcases hc with rfl | hc
    · exact (digitChar_lower (u % 16) (Nat.mod_lt _ (by norm_num))).1
    · exact hacc c hc
  | succ fuel ih =>
    intro u acc hacc c hc
    rw [formatBits] at hc
    by_cases hu : u ≥ 16
    · rw [if_pos hu] at hc
      refine ih (u / 16) _ ?_ c hc
      intro c' hc'
      simp only [List.mem_cons] at hc'
      rcases hc' with rfl | hc'
      · exact (digitChar_lower (u % 16) (Nat.mod_lt _ (by norm_num))).1
      · exact hacc c' hc'
    · rw [if_neg hu] at hc
      simp only [List.mem_cons] at hc
      rcases hc with rfl | hc
      · exact (digitChar_lower u (by omega)).1
      · exact hacc c hc

/-- The first digit of the numeral of a positive value is not zero. -/
theorem formatBits_head (fuel : Nat) : ∀ (u : Nat) (acc : Str), 0 < u → u < 16 ^ (fuel + 1) →
    ∃ c rest, formatBits fuel u acc = c :: rest ∧ 1 ≤ hexByteValue c.toNat := by
  induction fuel with
  | zero =>
    intro u acc hpos hu
    have hu' : u < 16 := by simpa using hu
    refine ⟨digitChar (u % 16), acc, rfl, ?_⟩
    rw [Nat.mod_eq_of_lt hu']
    exact (digitChar_lower u hu').2 (by omega)
  | succ fuel ih =>
    intro u acc hpos hu
    rw [formatBits]
    by_cases h16 : u ≥ 16
    · rw [if_pos h16]
      have hdiv : u / 16 < 16 ^ (fuel + 1) := by
        rw [Nat.div_lt_iff_lt_mul (by norm_num)]
        calc u < 16 ^ (fuel + 1 + 1) := hu
          _ = 16 ^ (fuel + 1) * 16 := by rw [Nat.pow_succ]
      exact ih (u / 16) _ (Nat.div_pos h16 (by norm_num)) hdiv
    · rw [if_neg h16]
      exact ⟨digitChar u, acc, rfl, (digitChar_lower u (by omega)).2 (by omega)⟩

theorem isHexByte_of_lower (c : Char) (h : isLowerHexDigit c) : isHexByte c.toNat := by
  unfold isLowerHexDigit at h
  unfold isHexByte
  omega

/-- A numeral of `n` digits has a value below `16 ^ n`. -/
theorem hexValueFrom_lt (s : Str) : ∀ n, (∀ c ∈ s, isLowerHexDigit c) →
    hexValueFrom n s < (n + 1) * 16 ^ s.length := by
  induction s with
  | nil => intro n _; simp [hexValueFrom]
  | cons c cs ih =>
    intro n hs
    have hc := hexByteValue_lt c.toNat (isHexByte_of_lower c (hs c (by simp)))
    have h1 := ih (n * 16 + hexByteValue c.toNat) (fun c' hc' => hs c' (by simp [hc']))
    simp only [hexValueFrom, List.length_cons]
    calc hexValueFrom (n * 16 + hexByteValue c.toNat) cs
        < (n * 16 + hexByteValue c.toNat + 1) * 16 ^ cs.length := h1
      _ ≤ ((n + 1) * 16) * 16 ^ cs.length := by
          apply Nat.mul_le_mul_right
          omega
      _ = (n + 1) * 16 ^ (cs.length + 1) := by
          rw [Nat.pow_succ, Nat.mul_assoc, Nat.mul_comm 16]

/-- A numeral read from `n` has a value of at least `n * 16 ^ length`. -/
theorem hexValueFrom_ge (s : Str) : ∀ n, n * 16 ^ s.length ≤ hexValueFrom n s := by
  induction s with
  | nil => intro n; simp [hexValueFrom]
  | cons c cs ih =>
    intro n
    have h1 := ih (n * 16 + hexByteValue c.toNat)
    simp only [hexValueFrom, List.length_cons]
    calc n * 16 ^ (cs.length + 1) = (n * 16) * 16 ^ cs.length := by
          rw [Nat.pow_succ, Nat.mul_assoc, Nat.mul_comm 16]
      _ ≤ (n * 16 + hexByteValue c.toNat) * 16 ^ cs.length := by
          apply Nat.mul_le_mul_right
          omega
      _ ≤ hexValueFrom (n * 16 + hexByteValue c.toNat) cs := h1

/-- The numeral `FormatUint u` is the shortest lowercase numeral of `u`. -/
theorem FormatUint_shortest (u : Nat) (hu : u < 2 ^ 64) : isShortestHex (FormatUint u) u := by
  have hval : hexValue (FormatUint u) = u := by
    unfold hexValue FormatUint
    rw [formatBits_value 16 u [] (by omega)]
    rfl
  have hlow : ∀ c ∈ FormatUint u, isLowerHexDigit c :=
    formatBits_lower 16 u [] (by simp)
  refine ⟨⟨FormatUint_ne_nil u, hlow, hval⟩, ?_⟩
  intro s' hs'
  obtain ⟨hne, hl', hv'⟩ := hs'
  have hlen' : 1 ≤ s'.length := by
    cases s' with
    | nil => exact absurd rfl hne
    | cons c cs => simp
  by_cases h0 : u = 0
  · subst h0
    have : FormatUint 0 = ['0'] := by decide
    rw [this]
    simpa using hlen'
  · obtain ⟨c, rest, heq, hc⟩ := formatBits_head 16 u [] (by omega) (by omega)
    have heq' : FormatUint u = c :: rest := heq
    have hlt := hexValueFrom_lt s' 0 hl'
    have hge := hexValueFrom_ge rest (0 * 16 + hexByteValue c.toNat)
    have hval' : hexValueFrom (0 * 16 + hexByteValue c.toNat) rest = u := by
      rw [← hval, heq']
      rfl
    have hv'' : hexValueFrom 0 s' = u := hv'
    rw [hval'] at hge
    rw [hv''] at hlt
    have h1 : 16 ^ rest.length ≤ u := by
      calc 16 ^ rest.length = 1 * 16 ^ rest.length := by rw [Nat.one_mul]
        _ ≤ (0 * 16 + hexByteValue c.toNat) * 16 ^ rest.length := by
            apply Nat.mul_le_mul_right
            omega
        _ ≤ u := hge
    have h2 : 16 ^ rest.length < 16 ^ s'.length := by
      have : u < 16 ^ s'.length := by simpa using hlt
      omega
    have h3 : rest.length < s'.length := (Nat.pow_lt_pow_iff_right (by norm_num)).1 h2
    rw [heq']
    simp only [List.length_cons]
    omega

/-- The encoded context: the four numerals separated by colons. -/
theorem String_eq (ctx : spanContext) :
    ctx.String = FormatUint ctx.TraceId ++ ':' :: (FormatUint ctx.SpanId ++
      ':' :: (FormatUint ctx.ParentId ++ ':' :: FormatUint ctx.Flags)) := by
  simp [spanContext.String, Join]

theorem FormatUint_count_colon (u : Nat) : (FormatUint u).count ':' = 0 := by
  rw [List.count_eq_zero]
  intro h
  exact FormatUint_no_colon u ':' h rfl

/-! ## Lemmas on `Finish` and the reporter -/

theorem Span.SetLog_frame (s : Span) (logs : List LogField) (t1 t2 : Int) :
    (s.SetLog logs t1 t2).tags = s.tags ∧ (s.SetLog logs t1 t2).dapper = s.dapper ∧
    (s.SetLog logs t1 t2).children = s.children ∧
    (s.SetLog logs t1 t2).operationName = s.operationName := by
  unfold Span.SetLog Span.setLog
  split
  · simp
  · simp only []
    split <;> split <;> simp

/-- The method `SetLog` only appends: an entry stored before the call is stored
after it. -/
theorem SetLog_mono (s : Span) (logs : List LogField) (t1 t2 : Int) (l : protoGen.Log)
    (hl : l ∈ s.logs) : l ∈ (s.SetLog logs t1 t2).logs := by
  unfold Span.SetLog Span.setLog
  split
  · exact hl
  · simp only []
    split <;> split <;> simp [hl]

/-- The tag and log calls of `Finish` leave the context and the owner unchanged. -/
theorem finishMark_frame (env : Env) (s : Span) (perr : Option (Option GoError))
    (clk : FinishClock) :
    (Span.finishMark env s perr clk).context = s.context ∧
    (Span.finishMark env s perr clk).dapper = s.dapper := by
  unfold Span.finishMark
  simp only []
  cases perr with
  | none => exact ⟨rfl, rfl⟩
  | some e =>
    cases e with
    | none => exact ⟨rfl, rfl⟩
    | some err =>
      simp only []
      cases err.stack with
      | none =>
        simp only [Span.SetLog_context, Span.SetTag_context, (Span.SetLog_frame _ _ _ _).2.1,
          (Span.SetTag_frame _ _).2.2.2.1, and_self]
      | some st =>
        simp only [Span.SetLog_context, Span.SetTag_context, (Span.SetLog_frame _ _ _ _).2.1,
          (Span.SetTag_frame _ _).2.2.2.1, and_self]

/-- Without an error `Finish` adds no tag and no log. -/
theorem finishMark_nil (env : Env) (s : Span) (clk : FinishClock) :
    (Span.finishMark env s none clk).tags = s.tags ∧
    (Span.finishMark env s none clk).logs = s.logs ∧
    (Span.finishMark env s (some none) clk).tags = s.tags ∧
    (Span.finishMark env s (some none) clk).logs = s.logs :=
  ⟨rfl, rfl, rfl, rfl⟩

/-- The tags after the tag and log calls of `Finish` with an error. -/
theorem finishMark_error_tags (env : Env) (s : Span) (err : GoError) (clk : FinishClock) :
    (Span.finishMark env s (some (some err)) clk).tags =
      ({ s with duration := clk.now - s.startTime }.SetTag [TagBool env.TagError true]).tags := by
  unfold Span.finishMark
  simp only []
  cases err.stack with
  | none => simp only [(Span.SetLog_frame _ _ _ _).1]
  | some st => simp only [(Span.SetLog_frame _ _ _ _).1]

/-- Below the caps `Finish` with an error stores the error tag and the message. -/
theorem finishMark_error (env : Env) (s : Span) (err : GoError) (clk : FinishClock)
    (h : s.context.isSampled = true ∨ s.context.isDebug = true)
    (ht : s.tags.length < _maxTags) (hl : s.logs.length < _maxLogs) :
    TagBool env.TagError true ∈ (Span.finishMark env s (some (some err)) clk).tags ∧
    logEntry [Log env.LogMessage err.msg] clk.t1 ∈
      (Span.finishMark env s (some (some err)) clk).logs := by
  constructor
  · have hs0 := SetTag_below { s with duration := clk.now - s.startTime }
      [TagBool env.TagError true] h ht
    rw [finishMark_error_tags, hs0]
    simp
  · have hctx : ({ s with duration := clk.now - s.startTime }.SetTag
        [TagBool env.TagError true]).context.isSampled = true ∨
        ({ s with duration := clk.now - s.startTime }.SetTag
        [TagBool env.TagError true]).context.isDebug = true := by
      rw [Span.SetTag_context]; exact h
    have hlen : ({ s with duration := clk.now - s.startTime }.SetTag
        [TagBool env.TagError true]).logs.length < _maxLogs := by
      rw [(Span.SetTag_frame _ _).1]; exact hl
    have hmem : logEntry [Log env.LogMessage err.msg] clk.t1 ∈
        (({ s with duration := clk.now - s.startTime }.SetTag
          [TagBool env.TagError true]).SetLog [Log env.LogMessage err.msg] clk.t1
          clk.t2).logs := by
      rw [SetLog_below _ hctx _ _ _ hlen]
      simp
    unfold Span.finishMark
    simp only []
    cases err.stack with
    | none => exact hmem
    | some st => exact SetLog_mono _ _ _ _ _ hmem

/-- What the reporters hold after `Finish`: the span is appended to the record of
the reporter of its tracer when its sampled bit is set, and nothing changes
otherwise. -/
theorem Finish_reports (env : Env) (w : World) (a : Nat) (perr : Option (Option GoError))
    (clk : FinishClock) :
    (Span.Finish env w a perr clk).reports =
      if (w.spans a).context.isSampled then
        Function.update w.reports (w.dappers (w.spans a).dapper).reporter
          (w.reports (w.dappers (w.spans a).dapper).reporter ++
            [(a, Span.finishMark env (w.spans a) perr clk)])
      else w.reports := by
  have hf := finishMark_frame env (w.spans a) perr clk
  unfold Span.Finish dapper.report dapper.putSpan
  simp only [World.setSpan_same, hf.1, hf.2]
  by_cases hs : (w.spans a).context.isSampled = true
  · simp only [hs, if_true]
    simp [WriteSpan, World.setSpan, World.setDapper]
  · simp only [hs, if_false]
    simp [World.setSpan, World.setDapper]

/-- The method `Finish` changes no context, no owner of a span and no reporter
of a tracer. -/
theorem Finish_frame (env : Env) (w : World) (a : Nat) (perr : Option (Option GoError))
    (clk : FinishClock) :
    (∀ b, ((Span.Finish env w a perr clk).spans b).context = (w.spans b).context ∧
      ((Span.Finish env w a perr clk).spans b).dapper = (w.spans b).dapper) ∧
    (∀ e, ((Span.Finish env w a perr clk).dappers e).reporter = (w.dappers e).reporter) := by
  have hf := finishMark_frame env (w.spans a) perr clk
  constructor
  · intro b
    unfold Span.Finish dapper.report dapper.putSpan
    simp only [World.setSpan_same, hf.1, hf.2]
    by_cases hb : b = a
    · subst hb
      by_cases hs : (w.spans b).context.isSampled = true <;>
        simp only [hs, if_true, if_false, Bool.false_eq_true] <;>
        simp only [World.setDapper_spans, World.setSpan_same, WriteSpan] <;>
        split <;> split <;> simp [hf.1, hf.2, World.setSpan]
    · by_cases hs : (w.spans a).context.isSampled = true <;>
        simp only [hs, if_true, if_false, Bool.false_eq_true] <;>
        simp [World.setDapper, World.setSpan, WriteSpan, Function.update_noteq hb]
  · intro e
    unfold Span.Finish dapper.report dapper.putSpan
    simp only [World.setSpan_same, hf.1, hf.2]
    by_cases hs : (w.spans a).context.isSampled = true <;>
      simp only [hs, if_true, if_false, Bool.false_eq_true] <;>
      by_cases he : e = (w.spans a).dapper <;>
      simp [World.setDapper, World.setSpan, WriteSpan, he, Function.update_noteq]

theorem setLogCalls_dapper (s : Span) (calls : List (List LogField × Int × Int)) :
    (setLogCalls s calls).dapper = s.dapper := by
  induction calls using List.reverseRecOn with
  | nil => rfl
  | append_singleton cs c ih => rw [setLogCalls_append, (Span.SetLog_frame _ _ _ _).2.1, ih]

/-- The tag call of `Finish` leaves the tags unchanged above the cap. -/
theorem finishMark_tags_above (env : Env) (s : Span) (perr : Option (Option GoError))
    (clk : FinishClock) (hlen : s.tags.length > _maxTags) :
    (Span.finishMark env s perr clk).tags = s.tags := by
  cases perr with
  | none => rfl
  | some e =>
    cases e with
    | none => rfl
    | some err =>
      have h0 : ({ s with duration := clk.now - s.startTime } : Span).tags.length > _maxTags :=
        hlen
      rw [finishMark_error_tags, SetTag_above _ _ h0]

theorem tooManyLogs_Fields (t : Int) :
    (tooManyLogs t).Fields =
      [{ Key := "trace.error".toList, Value := "too many logs".toList }] := rfl

/-- Three `Finish` calls on sampled spans whose tracers share the reporter `r`:
the reporter receives the three spans in the order of the calls. -/
theorem Finish_three (env : Env) (w : World) (a1 a2 a3 r : Nat)
    (p1 p2 p3 : Option (Option GoError)) (c1 c2 c3 : FinishClock)
    (h1 : (w.spans a1).context.isSampled = true) (h2 : (w.spans a2).context.isSampled = true)
    (h3 : (w.spans a3).context.isSampled = true)
    (hr1 : (w.dappers (w.spans a1).dapper).reporter = r)
    (hr2 : (w.dappers (w.spans a2).dapper).reporter = r)
    (hr3 : (w.dappers (w.spans a3).dapper).reporter = r) :
    ((Span.Finish env (Span.Finish env (Span.Finish env w a1 p1 c1) a2 p2 c2) a3 p3
        c3).reports r).map Prod.fst = (w.reports r).map Prod.fst ++ [a1, a2, a3] := by
  have f1 := Finish_frame env w a1 p1 c1
  have f2 := Finish_frame env (Span.Finish env w a1 p1 c1) a2 p2 c2
  have s2 : ((Span.Finish env w a1 p1 c1).spans a2).context.isSampled = true := by
    rw [(f1.1 a2).1]; exact h2
  have s3 : ((Span.Finish env (Span.Finish env w a1 p1 c1) a2 p2 c2).spans a3).context.isSampled
      = true := by
    rw [(f2.1 a3).1, (f1.1 a3).1]; exact h3
  have r2 : ((Span.Finish env w a1 p1 c1).dappers
      ((Span.Finish env w a1 p1 c1).spans a2).dapper).reporter = r := by
    rw [f1.2, (f1.1 a2).2]; exact hr2
  have r3 : ((Span.Finish env (Span.Finish env w a1 p1 c1) a2 p2 c2).dappers
      ((Span.Finish env (Span.Finish env w a1 p1 c1) a2 p2 c2).spans a3).dapper).reporter
      = r := by
    rw [f2.2, (f2.1 a3).2, f1.2, (f1.1 a3).2]; exact hr3
  rw [Finish_reports, if_pos s3, r3, Function.update_same, Finish_reports, if_pos s2, r2,
    Function.update_same, Finish_reports, if_pos h1, hr1, Function.update_same]
  simp

/-! ## Lemmas on the sampler -/

/-- The method `IsSampled` on a name that is not ignored. -/
theorem IsSampled_not_ignored (p : probabilitySampling) (tid : Nat) (name : Str) (now : Int)
    (r : Rat) (h : name ∉ ignores) :
    p.IsSampled tid name now r =
      if p.slot (slotOf name) ≠ now then
        ((true, 1), { p with slot := Function.update p.slot (slotOf name) now })
      else ((decide (r < p.probability), p.probability), p) := by
  unfold probabilitySampling.IsSampled slotOf
  rw [if_neg]
  rw [List.any_eq_true]
  rintro ⟨x, hx, hxe⟩
  have : name = x := by simpa using hxe
  exact h (this ▸ hx)

/-- After one call a slot holds what it held, or the time of the call when the
name of the call is not ignored and falls into the slot. -/
theorem IsSampled_slot (p : probabilitySampling) (tid : Nat) (name : Str) (now : Int)
    (r : Rat) (i : Nat) :
    (p.IsSampled tid name now r).2.slot i = p.slot i ∨
    (name ∉ ignores ∧ slotOf name = i ∧ (p.IsSampled tid name now r).2.slot i = now) := by
  by_cases hign : name ∈ ignores
  · left
    have : p.IsSampled tid name now r = ((false, 0), p) := by
      unfold probabilitySampling.IsSampled
      rw [if_pos]
      rw [List.any_eq_true]
      exact ⟨name, hign, by simp⟩
    rw [this]
  · rw [IsSampled_not_ignored p tid name now r hign]
    by_cases hold : p.slot (slotOf name) ≠ now
    · rw [if_pos hold]
      by_cases hi : slotOf name = i
      · right
        refine ⟨hign, hi, ?_⟩
        subst hi
        simp
      · left
        simp [Function.update_noteq (Ne.symm hi)]
    · rw [if_neg hold]
      left
      rfl

/-- After a sequence of calls a slot holds what it held at the start, or the time
of one of the calls whose name is not ignored and falls into the slot. -/
theorem IsSampledCalls_slot (calls : List SamplerCall) : ∀ (p : probabilitySampling) (i : Nat),
    (IsSampledCalls p calls).slot i = p.slot i ∨
    ∃ c ∈ calls, c.operationName ∉ ignores ∧ slotOf c.operationName = i ∧
      (IsSampledCalls p calls).slot i = c.now := by
  induction calls with
  | nil => intro p i; left; rfl
  | cons c cs ih =>
    intro p i
    have hstep : IsSampledCalls p (c :: cs) =
        IsSampledCalls (p.IsSampled c.traceID c.operationName c.now c.rand).2 cs := rfl
    rw [hstep]
    rcases ih (p.IsSampled c.traceID c.operationName c.now c.rand).2 i with h | ⟨c', hc', h1, h2, h3⟩
    · rcases IsSampled_slot p c.traceID c.operationName c.now c.rand i with h' | ⟨g1, g2, g3⟩
      · left; rw [h, h']
      · right
        exact ⟨c, by simp, g1, g2, by rw [h, g3]⟩
    · right
      exact ⟨c', by simp [hc'], h1, h2, h3⟩

/-- The first call in a slot within a second is sampled: if no earlier call with a
name of the same slot was made at the second `now`, and `now` is not 0, the call
returns `(true, 1)`. -/
theorem IsSampled_first_in_slot (pr : Rat) (calls : List SamplerCall) (tid : Nat) (name : Str)
    (now : Int) (r : Rat) (hign : name ∉ ignores) (hnow : now ≠ 0)
    (hfirst : ∀ c ∈ calls, c.operationName ∉ ignores → slotOf c.operationName = slotOf name →
      c.now ≠ now) :
    ((IsSampledCalls (newSampler pr) calls).IsSampled tid name now r).1 = (true, 1) := by
  have hslot : (IsSampledCalls (newSampler pr) calls).slot (slotOf name) ≠ now := by
    rcases IsSampledCalls_slot calls (newSampler pr) (slotOf name) with h | ⟨c, hc, h1, h2, h3⟩
    · rw [h]
      exact fun h0 => hnow h0.symm
    · rw [h3]
      exact hfirst c hc h1 h2
  rw [IsSampled_not_ignored _ _ _ _ _ hign, if_pos hslot]

/-- The sampler of the tracer after `New` is the one the sampling decision left. -/
theorem New_sampler (env : Env) (w : World) (d : Nat) (op : Str) (opts : List TraceOption)
    (dr : Draw) (sNow : Int) (sRand : Rat) :
    ((dapper.New env w d op opts dr sNow sRand).2.dappers d).sampler =
      (samplingDecision (w.dappers d) (genID env.hostHash dr.rand dr.unix) op sNow sRand).2 := by
  unfold dapper.New
  simp only []
  cases hs : (samplingDecision (w.dappers d) (genID env.hostHash dr.rand dr.unix) op sNow
      sRand).1.1 <;>
    cases hd : (opts.foldl (fun o fn => fn o) defaultOption).Debug <;>
    simp only [Bool.false_eq_true, if_true, if_false] <;>
    rw [newSpanWithContext_eq _ _ _ _ _ _ (by simp [maxLevel])] <;>
    simp only [Trace.SetTag_span, World.setSpan_dappers] <;>
    rw [(getSpan_dappers _ _ _ _).2.2.2.2] <;>
    simp [World.setDapper]

theorem samplingDecision_disabled (dp : dapper) (tid : Nat) (op : Str) (sNow : Int)
    (sRand : Rat) (h : dp.disableSample = true) :
    samplingDecision dp tid op sNow sRand = ((true, 1), dp.sampler) := by
  unfold samplingDecision
  rw [if_pos h]

/-! ## Identifier layout -/

/-- The four bytes of `PutUint32` put together again give the value. -/
theorem putUint32_bytes (v : Nat) (hv : v < 2 ^ 32) :
    v / 2 ^ 24 % 256 * 2 ^ 24 + v / 2 ^ 16 % 256 * 2 ^ 16 + v / 2 ^ 8 % 256 * 2 ^ 8 + v % 256 =
      v := by
  omega

/-- The value `genID` returns, for a draw below `2^31` and a host byte. -/
theorem genID_value (h r : Nat) (t : Int) (hr : r < 2 ^ 31) (hh : h < 256) :
    genID h r t = r * 2 ^ 32 + h * 2 ^ 24 + (t % 2 ^ 32).toNat / 2 ^ 8 := by
  have ht : (t % 2 ^ 32).toNat < 2 ^ 32 := by
    have h1 : t % 2 ^ 32 < 2 ^ 32 := Int.emod_lt_of_pos t (by norm_num)
    have h0 : 0 ≤ t % 2 ^ 32 := Int.emod_nonneg t (by norm_num)
    omega
  unfold genID
  generalize (t % 2 ^ 32).toNat = u at ht ⊢
  have hv : u / 2 ^ 8 < 2 ^ 24 := by omega
  generalize u / 2 ^ 8 = v at hv ⊢
  rw [Nat.mod_eq_of_lt hr, Nat.mod_eq_of_lt hh]
  have e1 := putUint32_bytes r (by omega)
  have e2 := putUint32_bytes v (by omega)
  have e3 : v / 2 ^ 24 % 256 = 0 := by omega
  simp only [putUint32, List.set_cons_zero, List.cons_append, List.nil_append, beUint64,
    List.foldl_cons, List.foldl_nil]
  generalize r / 2 ^ 24 % 256 = a3 at e1 ⊢
  generalize r / 2 ^ 16 % 256 = a2 at e1 ⊢
  generalize r / 2 ^ 8 % 256 = a1 at e1 ⊢
  generalize r % 256 = a0 at e1 ⊢
  generalize v / 2 ^ 24 % 256 = b3 at e2 e3 ⊢
  generalize v / 2 ^ 16 % 256 = b2 at e2 ⊢
  generalize v / 2 ^ 8 % 256 = b1 at e2 ⊢
  generalize v % 256 = b0 at e2 ⊢
  omega

/-! ## Levels along forks -/

/-- A `Fork` that returns a real span gives it the level of the forked span plus 1. -/
theorem Fork_span_level (env : Env) (w : World) (a : Nat) (sn op : Str) (dr : Draw) (b : Nat)
    (w' : World) (h : Span.Fork env w a sn op dr = (.span b, w')) :
    (w'.spans b).context.Level = (w.spans a).context.Level + 1 := by
  by_cases hc : (w.spans a).children > _maxChildren
  · rw [Fork_noop_children env w a sn op dr hc] at h
    cases h
  · by_cases hl : (w.spans a).context.Level > maxLevel
    · have hn := Fork_noop_level env w a sn op dr (by omega) hl
      rw [h] at hn
      cases hn
    · obtain ⟨w'', hf, hctx, -⟩ := Fork_spec env w a sn op dr (by omega) (by omega)
      rw [h] at hf
      cases hf
      rw [hctx]
      rfl

theorem Fork_span_level_of_trace (env : Env) (w : World) (t : Trace) (sn op : Str) (dr : Draw)
    (b : Nat) (w' : World) (h : Trace.Fork env w t sn op dr = (.span b, w')) :
    ∃ a, t = .span a ∧ (w'.spans b).context.Level = (w.spans a).context.Level + 1 := by
  cases t with
  | span a => exact ⟨a, rfl, Fork_span_level env w a sn op dr b w' h⟩
  | noop => cases h

/-- Along a path of forks that ends in a real span every step was taken on a real
span, and the level grows by 1 with each step. -/
theorem forkPath_level (env : Env) (steps : List (Str × Str × Draw)) :
    ∀ (r : Trace × World) (c : Nat) (w' : World), forkPath env steps r = (.span c, w') →
      ∃ a, r.1 = .span a ∧
        (w'.spans c).context.Level = (r.2.spans a).context.Level + steps.length := by
  induction steps with
  | nil =>
    intro r c w' h
    simp only [forkPath] at h
    refine ⟨c, by rw [h], ?_⟩
    rw [h]
    simp
  | cons st rest ih =>
    intro r c w' h
    simp only [forkPath] at h
    obtain ⟨b, hb, hlev⟩ := ih _ c w' h
    obtain ⟨a, ha, hstep⟩ := Fork_span_level_of_trace env r.2 r.1 st.1 st.2.1 st.2.2 b _
      (Prod.ext hb rfl)
    refine ⟨a, ha, ?_⟩
    rw [hlev, hstep, List.length_cons]
    push_cast
    omega

/-- The root span of `dapper.New` is a real span of level 1. -/
theorem New_level (env : Env) (w : World) (d : Nat) (op : Str) (opts : List TraceOption)
    (dr : Draw) (sNow : Int) (sRand : Rat) :
    ∃ a w0, dapper.New env w d op opts dr sNow sRand = (.span a, w0) ∧
      (w0.spans a).context.Level = 1 := by
  obtain ⟨w0, hnew, hctx, -⟩ := New_spec env w d op opts dr sNow sRand
  refine ⟨_, w0, hnew, ?_⟩
  rw [hctx]
  simp [childContext, rootContext]

/-! ## The pool -/

/-- The method `Finish` puts the object in front of the pool of its tracer. -/
theorem Finish_pool (env : Env) (w : World) (a : Nat) (perr : Option (Option GoError))
    (clk : FinishClock) :
    ((Span.Finish env w a perr clk).dappers (w.spans a).dapper).pool =
      a :: (w.dappers (w.spans a).dapper).pool := by
  have hf := finishMark_frame env (w.spans a) perr clk
  unfold Span.Finish dapper.report dapper.putSpan
  simp only [World.setSpan_same, hf.1, hf.2]
  by_cases hs : (w.spans a).context.isSampled = true <;>
    simp [hs, World.setDapper, World.setSpan, WriteSpan]

/-- With pick 0 `getSpan` hands out the object in front of the pool. -/
theorem getSpan_head (w : World) (d a : Nat) (rest : List Nat)
    (h : (w.dappers d).pool = a :: rest) : (dapper.getSpan w d 0).1 = a := by
  rw [getSpan_fst_eq]
  unfold poolGet
  rw [h]
  rfl

/-- The span `newSpanWithContext` creates below the level gate, field by field. -/
theorem newSpanWithContext_fields (env : Env) (w : World) (d : Nat) (op : Str)
    (ctx : spanContext) (dr : Draw) (h : ctx.Level ≤ maxLevel) :
    ∃ w', dapper.newSpanWithContext env w d op ctx dr =
        (.span (dapper.getSpan w d dr.pick).1, w') ∧
      (w'.spans (dapper.getSpan w d dr.pick).1).tags = (w.dappers d).tags ∧
      (w'.spans (dapper.getSpan w d dr.pick).1).logs = [] ∧
      (w'.spans (dapper.getSpan w d dr.pick).1).children = 0 ∧
      (w'.spans (dapper.getSpan w d dr.pick).1).dapper = d ∧
      (w'.spans (dapper.getSpan w d dr.pick).1).operationName = op ∧
      (w'.spans (dapper.getSpan w d dr.pick).1).context = childContext env ctx dr ∧
      (w'.spans (dapper.getSpan w d dr.pick).1).startTime = dr.now := by
  have hreset := getSpan_reset w d dr.pick
  rw [newSpanWithContext_eq env w d op ctx dr h]
  refine ⟨_, rfl, ?_, ?_, ?_, ?_, ?_, ?_, ?_⟩
  · rw [World.setSpan_same]
    simp only [hreset.1, List.nil_append]
    exact (getSpan_dappers w d dr.pick d).2.1
  · rw [World.setSpan_same]; exact hreset.2.1
  · rw [World.setSpan_same]; exact hreset.2.2.1
  · rw [World.setSpan_same]; exact hreset.2.2.2
  · rw [World.setSpan_same]
  · rw [World.setSpan_same]
  · rw [World.setSpan_same]

/-! ## Tags of forked spans -/

/-- One `SetTag` call on a span whose tags are known and below the cap. -/
theorem SetTag_tags_of (s : Span) (T tags : List Tag)
    (h : s.context.isSampled = true ∨ s.context.isDebug = true) (ht : s.tags = T)
    (hlt : T.length < _maxTags) :
    (s.SetTag tags).tags =
      T ++ tags ++ (if (T ++ tags).length = _maxTags then [tooManyTags] else []) := by
  subst ht
  exact SetTag_below s tags h hlt

/-- The tags of the span a successful `Fork` returns, for a forked span that is
sampled or in debug mode: the default tags of the tracer followed by the tag
`span.kind=client` (and the marker when that makes 128 tags). -/
theorem Fork_tags (env : Env) (w : World) (a : Nat) (sn op : Str) (dr : Draw)
    (hc : (w.spans a).children ≤ _maxChildren) (hl : (w.spans a).context.Level ≤ maxLevel)
    (hs : (w.spans a).context.isSampled = true ∨ (w.spans a).context.isDebug = true)
    (hlen : (w.dappers (w.spans a).dapper).tags.length < _maxTags) :
    ((Span.Fork env w a sn op dr).2.spans (dapper.getSpan w (w.spans a).dapper dr.pick).1).tags =
      (w.dappers (w.spans a).dapper).tags ++ [TagString env.TagSpanKind "client".toList] ++
        (if ((w.dappers (w.spans a).dapper).tags ++
            [TagString env.TagSpanKind "client".toList]).length = _maxTags
          then [tooManyTags] else []) := by
  have hfst := getSpan_setSpan_fst w a { w.spans a with children := (w.spans a).children + 1 }
    (w.spans a).dapper dr.pick
  have hreset := getSpan_reset (w.setSpan a { w.spans a with children := (w.spans a).children + 1 })
    (w.spans a).dapper dr.pick
  have hdt := (getSpan_dappers
    (w.setSpan a { w.spans a with children := (w.spans a).children + 1 })
    (w.spans a).dapper dr.pick (w.spans a).dapper).2.1
  rw [World.setSpan_dappers] at hdt
  unfold Span.Fork
  simp only []
  rw [if_neg (by omega), newSpanWithContext_eq _ _ _ _ _ _ hl, Trace.SetTag_span]
  rw [hfst] at hreset ⊢
  simp only [World.setSpan_same]
  apply SetTag_tags_of
  · exact hs
  · simp only [hreset.1, List.nil_append, hdt]
  · exact hlen

/-- The method `Follow` after a successful `Fork`: the span `Fork` returned, with
one more `SetTag` call on it. -/
theorem Follow_eq (env : Env) (w : World) (a : Nat) (sn op : Str) (dr : Draw) (c : Nat)
    (w1 : World) (hf : Span.Fork env w a sn op dr = (.span c, w1)) :
    Span.Follow env w a sn op dr =
      (.span c, w1.setSpan c ((w1.spans c).SetTag [TagString env.TagSpanKind "producer".toList])) := by
  unfold Span.Follow
  simp only []
  rw [hf, Trace.SetTag_span]

/-- The tags of the span `Follow` returns, for a sampled or debug span on which
`Fork` succeeds and a tracer with fewer than 126 default tags: the tags of the
span `Fork` returns, the tag `span.kind=client` among them, followed by the tag
`span.kind=producer`. -/
theorem Follow_tags (env : Env) (w : World) (a : Nat) (sn op : Str) (dr : Draw)
    (hc : (w.spans a).children ≤ _maxChildren) (hl : (w.spans a).context.Level ≤ maxLevel)
    (hs : (w.spans a).context.isSampled = true ∨ (w.spans a).context.isDebug = true)
    (hlen : (w.dappers (w.spans a).dapper).tags.length + 2 < _maxTags) :
    ∃ c w1 w2, Span.Fork env w a sn op dr = (.span c, w1) ∧
      Span.Follow env w a sn op dr = (.span c, w2) ∧
      (w1.spans c).tags =
        (w.dappers (w.spans a).dapper).tags ++ [TagString env.TagSpanKind "client".toList] ∧
      (w2.spans c).tags =
        (w.dappers (w.spans a).dapper).tags ++ [TagString env.TagSpanKind "client".toList,
          TagString env.TagSpanKind "producer".toList] ∧
      (w2.spans c).context = (w1.spans c).context ∧
      (∀ b, b ≠ c → w2.spans b = w1.spans b) := by
  obtain ⟨w1, hf, hctx, -⟩ := Fork_spec env w a sn op dr hc hl
  have ht := Fork_tags env w a sn op dr hc hl hs (by omega)
  rw [hf] at ht
  have hne : ((w.dappers (w.spans a).dapper).tags ++
      [TagString env.TagSpanKind "client".toList]).length ≠ _maxTags := by
    rw [List.length_append, List.length_singleton]
    omega
  rw [if_neg hne, List.append_nil] at ht
  have hs1 : (w1.spans (dapper.getSpan w (w.spans a).dapper dr.pick).1).context.isSampled = true ∨
      (w1.spans (dapper.getSpan w (w.spans a).dapper dr.pick).1).context.isDebug = true := by
    rw [hctx]; exact hs
  have hlt1 : (w1.spans (dapper.getSpan w (w.spans a).dapper dr.pick).1).tags.length <
      _maxTags := by
    rw [ht, List.length_append, List.length_singleton]
    omega
  have ht2 := SetTag_below _ [TagString env.TagSpanKind "producer".toList] hs1 hlt1
  have hne2 : ((w1.spans (dapper.getSpan w (w.spans a).dapper dr.pick).1).tags ++
      [TagString env.TagSpanKind "producer".toList]).length ≠ _maxTags := by
    rw [ht, List.length_append, List.length_append, List.length_singleton, List.length_singleton]
    omega
  rw [if_neg hne2, List.append_nil, ht, List.append_assoc] at ht2
  refine ⟨_, w1, _, hf, Follow_eq env w a sn op dr _ w1 hf, ht, ?_, ?_, ?_⟩
  · rw [World.setSpan_same]
    exact ht2
  · rw [World.setSpan_same, Span.SetTag_context]
  · intro b hb
    rw [World.setSpan_other _ _ _ _ hb]

/-! ## The lookup of the format -/

/-- For a carrier without `Set`/`Get` and a format value of an unhashable type the
lookup in the map of propagators panics, in `Inject` and in `Extract`. -/
theorem unhashable_format_panics (env : Env) (w : World) (d : Nat) (t : Option Trace)
    (carrier : Carrier) (dr : Draw) (tag : Nat) (h : carrier.asCarrier = none) :
    dapper.Inject env w d t (.unhashable tag) carrier = .panic ∧
    dapper.Extract env w d (.unhashable tag) carrier dr = .panic := by
  cases carrier with
  | httpHeader hh => simp [Carrier.asCarrier] at h
  | grpcMD md => exact ⟨rfl, rfl⟩
  | other tag' => exact ⟨rfl, rfl⟩

/-- A carrier that offers `Set`/`Get` is used directly: the format is not looked
up, so `Extract` gives the same result for every format value. -/
theorem Extract_format_ignored (env : Env) (w : World) (d : Nat) (h : Option StrMap)
    (dr : Draw) (f1 f2 : Format) :
    dapper.Extract env w d f1 (.httpHeader h) dr = dapper.Extract env w d f2 (.httpHeader h) dr :=
  rfl

/-! ## Claims -/

/-- C1: for every span context (64-bit trace, span and parent ids, 8-bit flags),
decoding the encoded context succeeds and returns the same `TraceId`, `SpanId`,
`ParentId` and `Flags`, with `Level` 0 and `Probability` 0 whatever the level and
probability of the encoded context were. -/
theorem C1_decode_encode_roundtrip (ctx : spanContext) (h : ctx.wf) :
    contextFromString ctx.String =
      .ok { TraceId := ctx.TraceId, SpanId := ctx.SpanId, ParentId := ctx.ParentId,
            Flags := ctx.Flags, Probability := 0, Level := 0 } :=
  contextFromString_String ctx h

/-- C1 at a concrete context with non-zero level and probability. -/
theorem C1_decode_encode_roundtrip_witness :
    (spanContext.mk (2 ^ 64 - 1) 255 0 3 1 7).wf ∧
    contextFromString (spanContext.mk (2 ^ 64 - 1) 255 0 3 1 7).String =
      .ok (spanContext.mk (2 ^ 64 - 1) 255 0 3 0 0) :=
  ⟨by decide, C1_decode_encode_roundtrip _ (by decide)⟩

/-- C2: `contextFromString` fails with the empty-string error exactly on the empty
string; it fails with the malformed-string error exactly when the input is
non-empty and either has fewer than four `:`-separated fields or one of its
first four fields is not a base-16 numeral fitting in 64 bits; on every other
input it succeeds.  In particular `""` gives the empty error and `"abc"` and
`"g:1:1:1"` give the malformed error. -/
theorem C2_decode_errors (s : Str) :
    (contextFromString s = .error .errEmptyTracerString ↔ s = []) ∧
    (contextFromString s = .error .errInvalidTracerString ↔
      s ≠ [] ∧ ((Split s ':').length < 4 ∨ ∃ f ∈ (Split s ':').take 4, ¬ isHex64 f)) ∧
    ((∃ c, contextFromString s = .ok c) ↔
      ¬ (s = []) ∧
      ¬ (s ≠ [] ∧ ((Split s ':').length < 4 ∨ ∃ f ∈ (Split s ':').take 4, ¬ isHex64 f))) ∧
    (∀ e, contextFromString s = .error e →
      e = .errEmptyTracerString ∨ e = .errInvalidTracerString) ∧
    contextFromString "".toList = .error .errEmptyTracerString ∧
    contextFromString "abc".toList = .error .errInvalidTracerString ∧
    contextFromString "g:1:1:1".toList = .error .errInvalidTracerString := by
  refine ⟨?_, ?_, ?_, ?_, rfl, rfl, rfl⟩
  · rcases contextFromString_cases s with ⟨h1, h2⟩ | ⟨h1, _, h2⟩ | ⟨h1, _, _, c, h2⟩
    · rw [h2]; simp [h1]
    · rw [h2]; simp [h1]
    · rw [h2]; simp [h1]
  · rcases contextFromString_cases s with ⟨h1, h2⟩ | ⟨h1, h3, h2⟩ | ⟨h1, h3, h4, c, h2⟩
    · rw [h2]; simp [h1]
    · rw [h2]; simp [h1, h3]
    · rw [h2]
      constructor
      · intro h; cases h
      · rintro ⟨_, h5 | ⟨f, hf, hn⟩⟩
        · omega
        · exact absurd (h4 f hf) hn
  · rcases contextFromString_cases s with ⟨h1, h2⟩ | ⟨h1, h3, h2⟩ | ⟨h1, h3, h4, c, h2⟩
    · rw [h2]; simp [h1]
    · rw [h2]
      constructor
      · rintro ⟨c, hc⟩; cases hc
      · intro h; exact absurd ⟨h1, h3⟩ h.2
    · rw [h2]
      constructor
      · intro _
        refine ⟨h1, ?_⟩
        rintro ⟨_, h5 | ⟨f, hf, hn⟩⟩
        · omega
        · exact absurd (h4 f hf) hn
      · intro _; exact ⟨c, rfl⟩
  · intro e he
    rcases contextFromString_cases s with ⟨h1, h2⟩ | ⟨h1, h3, h2⟩ | ⟨h1, h3, h4, c, h2⟩
    · rw [h2] at he; cases he; exact Or.inl rfl
    · rw [h2] at he; cases he; exact Or.inr rfl
    · rw [h2] at he; cases he

/-- C3: for every real span `sp2` (at address `a` of world `w1`, with a context of
64-bit ids and 8-bit flags; a non-zero span id is not needed) and every non-nil
HTTP header `h`, whatever it holds, `Inject(sp2, HTTPFormat, h)` succeeds, and
`Extract(HTTPFormat, h)` on any tracer `d2` of any world `w2` then succeeds
with a real span `sp3` such that `sp3.trace_id = sp2.trace_id`,
`sp3.parent_id = sp2.span_id`, `sp3.flags = sp2.flags` and `sp3.level = 1`. -/
theorem C3_http_inject_extract (env : Env) (w1 w2 : World) (d1 d2 a : Nat) (h : StrMap)
    (dr : Draw) (hwf : (w1.spans a).context.wf) :
    ∃ h', dapper.Inject env w1 d1 (some (.span a)) .HTTPFormat (.httpHeader (some h)) =
        .ok (.httpHeader (some h')) ∧
      ∃ b w', dapper.Extract env w2 d2 .HTTPFormat (.httpHeader (some h')) dr = .ok (.span b, w') ∧
        (w'.spans b).context.TraceId = (w1.spans a).context.TraceId ∧
        (w'.spans b).context.ParentId = (w1.spans a).context.SpanId ∧
        (w'.spans b).context.Flags = (w1.spans a).context.Flags ∧
        (w'.spans b).context.Level = 1 := by
  refine ⟨Function.update h (env.canonicalKey env.FosTraceID)
    (some [(w1.spans a).context.String]), rfl, ?_⟩
  exact Extract_http_of_value env w2 d2 _ _ dr hwf (by simp)

/-- C3 on the root span of `rootWorld` and an empty header. -/
theorem C3_http_inject_extract_witness :
    (rootWorld.spans 0).context.wf ∧
    ∃ h', dapper.Inject sampleEnv rootWorld 0 (some (.span 0)) .HTTPFormat
        (.httpHeader (some (fun _ => none))) = .ok (.httpHeader (some h')) ∧
      ∃ b w', dapper.Extract sampleEnv World.empty 0 .HTTPFormat (.httpHeader (some h'))
          sampleDraw = .ok (.span b, w') ∧
        (w'.spans b).context.TraceId = (rootWorld.spans 0).context.TraceId ∧
        (w'.spans b).context.ParentId = (rootWorld.spans 0).context.SpanId ∧
        (w'.spans b).context.Flags = (rootWorld.spans 0).context.Flags ∧
        (w'.spans b).context.Level = 1 :=
  ⟨by decide, C3_http_inject_extract sampleEnv rootWorld World.empty 0 0 0 (fun _ => none)
    sampleDraw (by decide)⟩

/-- C4, where the code departs from the claim: the gRPC metadata `staleMD` already
holds `1:1:0:1` under the trace key.  `Inject` of the root span of `rootWorld`
(trace id and span id `0x5076553f1`) appends its context after that value, and
the following `Extract` decodes the old first value: the extracted span has
trace id 1 and parent id 1, not those of the injected span. -/
theorem C4_grpc_set_appends :
    ∃ md', dapper.Inject sampleEnv rootWorld 0 (some (.span 0)) .GRPCFormat
        (.grpcMD (some staleMD)) = .ok (.grpcMD (some md')) ∧
      md' sampleEnv.FosTraceID = some ["1:1:0:1".toList, "5076553f1:5076553f1:0:1".toList] ∧
      ∃ b w', dapper.Extract sampleEnv rootWorld 0 .GRPCFormat (.grpcMD (some md'))
          sampleDraw = .ok (.span b, w') ∧
        (w'.spans b).context.TraceId = 1 ∧
        (w'.spans b).context.ParentId = 1 ∧
        (rootWorld.spans 0).context.TraceId = 21598917617 ∧
        (rootWorld.spans 0).context.SpanId = 21598917617 := by
  refine ⟨Function.update staleMD sampleEnv.FosTraceID
    (some ((staleMD sampleEnv.FosTraceID).getD [] ++ [(rootWorld.spans 0).context.String])),
    rfl, ?_, ?_⟩
  · rw [Function.update_same]
    decide
  · obtain ⟨b, w', h1, h2, h3, -, -⟩ := Extract_grpc_of_value sampleEnv rootWorld 0
      (Function.update staleMD sampleEnv.FosTraceID
        (some ((staleMD sampleEnv.FosTraceID).getD [] ++ [(rootWorld.spans 0).context.String])))
      "1:1:0:1".toList ["5076553f1:5076553f1:0:1".toList] (spanContext.mk 1 1 0 1 0 0) sampleDraw
      (by rw [Function.update_same]; decide) rfl
    exact ⟨b, w', h1, h2, h3, by decide, by decide⟩

/-- C5: for every live span `p` (allocated, not in the pool of its tracer) whose
level is at most the depth limit and whose child count is below the child cap
(a non-zero span id is not needed), `Fork` returns a real span `c`, another
object than `p`, with `c.parent_id = p.span_id`, `c.trace_id = p.trace_id`,
`c.flags = p.flags` and `c.level = p.level + 1`; the call increases the child
count of `p` by exactly 1 and leaves the context, tags and logs of `p`
unchanged. -/
theorem C5_fork_child (env : Env) (w : World) (a : Nat) (sn op : Str) (dr : Draw)
    (hlive : a < w.next) (hpool : a ∉ (w.dappers (w.spans a).dapper).pool)
    (hl : (w.spans a).context.Level ≤ maxLevel)
    (hc : (w.spans a).children < _maxChildren) :
    ∃ c w', Span.Fork env w a sn op dr = (.span c, w') ∧ c ≠ a ∧
      (w'.spans c).context.ParentId = (w.spans a).context.SpanId ∧
      (w'.spans c).context.TraceId = (w.spans a).context.TraceId ∧
      (w'.spans c).context.Flags = (w.spans a).context.Flags ∧
      (w'.spans c).context.Level = (w.spans a).context.Level + 1 ∧
      (w'.spans a).children = (w.spans a).children + 1 ∧
      (w'.spans a).context = (w.spans a).context ∧
      (w'.spans a).tags = (w.spans a).tags ∧
      (w'.spans a).logs = (w.spans a).logs := by
  obtain ⟨w', hf, hctx, -, -, -, -, hpar, -⟩ :=
    Fork_spec env w a sn op dr (by omega) hl
  have hne := getSpan_fst_ne w (w.spans a).dapper dr.pick a hlive hpool
  refine ⟨_, w', hf, hne, ?_, ?_, ?_, ?_, ?_, ?_, ?_, ?_⟩
  · rw [hctx]; rfl
  · rw [hctx]; rfl
  · rw [hctx]; rfl
  · rw [hctx]; rfl
  · rw [hpar hne]
  · rw [hpar hne]
  · rw [hpar hne]
  · rw [hpar hne]

/-- C5 on the root span of `rootWorld`. -/
theorem C5_fork_child_witness :
    0 < rootWorld.next ∧ 0 ∉ (rootWorld.dappers (rootWorld.spans 0).dapper).pool ∧
    (rootWorld.spans 0).context.Level ≤ maxLevel ∧
    (rootWorld.spans 0).children < _maxChildren ∧
    ∃ c w', Span.Fork sampleEnv rootWorld 0 [] "opt_client".toList sampleDraw = (.span c, w') ∧
      c ≠ 0 ∧
      (w'.spans c).context.ParentId = (rootWorld.spans 0).context.SpanId ∧
      (w'.spans c).context.TraceId = (rootWorld.spans 0).context.TraceId ∧
      (w'.spans c).context.Flags = (rootWorld.spans 0).context.Flags ∧
      (w'.spans c).context.Level = (rootWorld.spans 0).context.Level + 1 ∧
      (w'.spans 0).children = (rootWorld.spans 0).children + 1 ∧
      (w'.spans 0).context = (rootWorld.spans 0).context ∧
      (w'.spans 0).tags = (rootWorld.spans 0).tags ∧
      (w'.spans 0).logs = (rootWorld.spans 0).logs :=
  ⟨by decide, by decide, by decide, by decide,
    C5_fork_child sampleEnv rootWorld 0 [] "opt_client".toList sampleDraw
      (by decide) (by decide) (by decide) (by decide)⟩

/-- C6, where the code departs from the claim: on the root span of a fresh tracer,
whatever the draws, each of the first 1025 `Fork` calls returns a real span and
after `n ≤ 1025` calls the child count is `n`; so the 1025th call is not
answered by `noopSpan` and brings the child count to 1025, above the cap
`_maxChildren = 1024`.  Only the 1026th call returns `noopSpan`. -/
theorem C6_fork_1025th_child_is_real (env : Env) (sn : Str) (tags : List Tag) (ds : Bool)
    (op : Str) (opts : List TraceOption) (dr : Draw) (sNow : Int) (sRand : Rat)
    (drs : Nat → Draw) :
    ∃ w, freshRoot env sn tags ds op opts dr sNow sRand = (.span 0, w) ∧
      (w.spans 0).children = 0 ∧
      (∀ n : Nat, n ≤ 1025 → ((forkTimes env 0 drs n w).spans 0).children = n) ∧
      (∀ n : Nat, n < 1025 →
        ∃ c, (Span.Fork env (forkTimes env 0 drs n w) 0 [] [] (drs n)).1 = .span c) ∧
      (∃ c, (Span.Fork env (forkTimes env 0 drs 1024 w) 0 [] [] (drs 1024)).1 = .span c) ∧
      ((forkTimes env 0 drs 1025 w).spans 0).children = 1025 ∧
      (Span.Fork env (forkTimes env 0 drs 1025 w) 0 [] [] (drs 1025)).1 = .noop := by
  obtain ⟨w, hroot, hlive, hd, hpool, hch, hlev⟩ :=
    freshRoot_spec env sn tags ds op opts dr sNow sRand
  have hpool' : 0 ∉ (w.dappers (w.spans 0).dapper).pool := by
    rw [hd, hpool]; exact List.not_mem_nil 0
  have hl : (w.spans 0).context.Level ≤ maxLevel := by rw [hlev]; decide
  have hcount : ∀ n : Nat, n ≤ 1025 →
      (forkTimes env 0 drs n w).spans 0 = { w.spans 0 with children := n } ∧
      0 < (forkTimes env 0 drs n w).next ∧
      0 ∉ ((forkTimes env 0 drs n w).dappers (w.spans 0).dapper).pool := by
    intro n hn
    have := forkTimes_spec env 0 drs w hlive hpool' hl n
      (by rw [hch]; unfold _maxChildren; push_cast; omega)
    rw [hch] at this
    simpa using this
  have hreal : ∀ n : Nat, n < 1025 →
      ∃ c, (Span.Fork env (forkTimes env 0 drs n w) 0 [] [] (drs n)).1 = .span c := by
    intro n hn
    obtain ⟨hsp, -, -⟩ := hcount n (by omega)
    obtain ⟨w', hf, -⟩ := Fork_spec env (forkTimes env 0 drs n w) 0 [] [] (drs n)
      (by rw [hsp]; unfold _maxChildren; push_cast; omega) (by rw [hsp]; exact hl)
    exact ⟨_, by rw [hf]⟩
  refine ⟨w, hroot, hch, ?_, hreal, hreal 1024 (by omega), ?_, ?_⟩
  · intro n hn
    rw [(hcount n hn).1]
  · rw [(hcount 1025 (by omega)).1]
    rfl
  · rw [Fork_noop_children env _ 0 [] [] (drs 1025)
      (by rw [(hcount 1025 (by omega)).1]; unfold _maxChildren; norm_num)]

/-- C7, where the code departs from the claim: from a parent context whose level is
exactly `maxLevel = 64`, `newSpanWithContext` returns a real span of level 65.
Such a parent is reached from the root span of a fresh tracer: in a chain of
nested forks the `n`-th span (`n ≤ 64`) is real and has level `n + 1`, so the
64th has level 65, above the maximum depth; only the 65th fork of the chain
returns `noopSpan`. -/
theorem C7_real_span_of_level_65 (env : Env) (sn : Str) (tags : List Tag) (ds : Bool)
    (op : Str) (opts : List TraceOption) (dr : Draw) (sNow : Int) (sRand : Rat)
    (drs : Nat → Draw) :
    (∀ (w : World) (d : Nat) (op' : Str) (ctx : spanContext) (dr' : Draw),
      ∃ c w', dapper.newSpanWithContext env w d op' { ctx with Level := maxLevel } dr' =
          (.span c, w') ∧
        (w'.spans c).context.Level = maxLevel + 1) ∧
    ∃ w, freshRoot env sn tags ds op opts dr sNow sRand = (.span 0, w) ∧
      (∀ n : Nat, n ≤ 64 →
        ∃ c w', forkChain env drs n (.span 0, w) = (.span c, w') ∧
          (w'.spans c).context.Level = n + 1) ∧
      (∃ c w', forkChain env drs 64 (.span 0, w) = (.span c, w') ∧
        (w'.spans c).context.Level = 65) ∧
      (forkChain env drs 65 (.span 0, w)).1 = .noop := by
  constructor
  · intro w d op' ctx dr'
    obtain ⟨w', hnew, hctx, -, -⟩ := newSpanWithContext_span env w d op'
      { ctx with Level := maxLevel } dr' (by simp)
    exact ⟨_, w', hnew, by rw [hctx]⟩
  · obtain ⟨w, hroot, hlive, hd, hpool, hch, hlev⟩ :=
      freshRoot_spec env sn tags ds op opts dr sNow sRand
    have hchain := forkChain_spec env drs w 0 0 1 hlive hd hpool hch hlev
    have h64 := hchain 64 (by decide)
    refine ⟨w, hroot, ?_, ?_, ?_⟩
    · intro n hn
      obtain ⟨c, w', h1, -, -, -, -, h2⟩ := hchain n (by unfold maxLevel; push_cast; omega)
      exact ⟨c, w', h1, by rw [h2]; omega⟩
    · obtain ⟨c, w', h1, -, -, -, -, h2⟩ := h64
      exact ⟨c, w', h1, by rw [h2]; rfl⟩
    · obtain ⟨c, w', h1, -, -, -, h3, h2⟩ := h64
      rw [forkChain_succ, h1]
      exact Fork_noop_level env w' c [] [] (drs 64) (by rw [h3]; decide) (by rw [h2]; decide)

/-- C8: for every operation name and every option list made of `EnableDebug`
options, `dapper.New` returns a real span whose span id equals its trace id,
whose parent id is 0, whose operation name is the given one, whose sampled bit
is set iff sampling is disabled on the tracer or the sampler returned true,
and whose debug bit is set iff the debug option was given. -/
theorem C8_new_root_span (env : Env) (w : World) (d : Nat) (op : Str) (opts : List TraceOption)
    (dr : Draw) (sNow : Int) (sRand : Rat) (hopts : ∀ fn ∈ opts, fn = EnableDebug) :
    ∃ a w', dapper.New env w d op opts dr sNow sRand = (.span a, w') ∧
      (w'.spans a).context.SpanId = (w'.spans a).context.TraceId ∧
      (w'.spans a).context.ParentId = 0 ∧
      (w'.spans a).operationName = op ∧
      ((w'.spans a).context.isSampled = true ↔
        ((w.dappers d).disableSample = true ∨
         ((w.dappers d).sampler.IsSampled (genID env.hostHash dr.rand dr.unix) op sNow
            sRand).1.1 = true)) ∧
      ((w'.spans a).context.isDebug = true ↔ EnableDebug ∈ opts) := by
  obtain ⟨w', hnew, hctx, hop, -⟩ := New_spec env w d op opts dr sNow sRand
  have hdbg := foldl_EnableDebug opts hopts defaultOption
  refine ⟨_, w', hnew, ?_, ?_, hop, ?_, ?_⟩
  · rw [hctx]; simp [childContext, rootContext]
  · rw [hctx]; simp [childContext, rootContext]
  · rw [hctx]
    have hs : (samplingDecision (w.dappers d) (genID env.hostHash dr.rand dr.unix) op sNow
        sRand).1.1 = true ↔
        ((w.dappers d).disableSample = true ∨
         ((w.dappers d).sampler.IsSampled (genID env.hostHash dr.rand dr.unix) op sNow
            sRand).1.1 = true) := by
      unfold samplingDecision
      cases (w.dappers d).disableSample <;> simp
    rw [← hs]
    cases (samplingDecision (w.dappers d) (genID env.hostHash dr.rand dr.unix) op sNow
        sRand).1.1 <;>
      cases (opts.foldl (fun o fn => fn o) defaultOption).Debug <;>
      simp [childContext, rootContext, spanContext.isSampled, flagSampled, flagDebug]
  · rw [hctx, hdbg]
    have hmem : EnableDebug ∈ opts ↔ opts ≠ [] := by
      constructor
      · intro h hnil; rw [hnil] at h; exact absurd h (List.not_mem_nil _)
      · intro h
        cases opts with
        | nil => exact absurd rfl h
        | cons f fs =>
          rw [hopts f (by simp)]
          simp
    rw [hmem]
    cases (samplingDecision (w.dappers d) (genID env.hostHash dr.rand dr.unix) op sNow
        sRand).1.1 <;>
      cases opts <;>
      simp [childContext, rootContext, spanContext.isDebug, flagSampled, flagDebug,
        defaultOption]
    decide

/-- C8 on the tracer of `rootWorld`, with the debug option. -/
theorem C8_new_root_span_witness :
    (∀ fn ∈ [EnableDebug], fn = EnableDebug) ∧
    ∃ a w', dapper.New sampleEnv rootWorld 0 "opt_1".toList [EnableDebug] sampleDraw 5 0 =
        (.span a, w') ∧
      (w'.spans a).context.SpanId = (w'.spans a).context.TraceId ∧
      (w'.spans a).context.ParentId = 0 ∧
      (w'.spans a).operationName = "opt_1".toList ∧
      ((w'.spans a).context.isSampled = true ↔
        ((rootWorld.dappers 0).disableSample = true ∨
         ((rootWorld.dappers 0).sampler.IsSampled
            (genID sampleEnv.hostHash sampleDraw.rand sampleDraw.unix) "opt_1".toList 5
            0).1.1 = true)) ∧
      ((w'.spans a).context.isDebug = true ↔ EnableDebug ∈ [EnableDebug]) :=
  ⟨by simp, C8_new_root_span sampleEnv rootWorld 0 "opt_1".toList [EnableDebug] sampleDraw 5 0
    (by simp)⟩

/-- C9, where the code departs from the claim: the root span of `rootWorld` is
sampled and holds one tag.  One `SetTag` call carrying 130 tags stores all of
them, 131 tags in total, more than 129, and appends no "too many tags" marker;
later `SetTag` calls change nothing, so the marker never appears. -/
theorem C9_setTag_130_tags_stored :
    (rootWorld.spans 0).context.isSampled = true ∧ (rootWorld.spans 0).tags.length = 1 ∧
    ((rootWorld.spans 0).SetTag tags130).tags = (rootWorld.spans 0).tags ++ tags130 ∧
    ((rootWorld.spans 0).SetTag tags130).tags.length = 131 ∧
    tooManyTags ∉ ((rootWorld.spans 0).SetTag tags130).tags ∧
    ∀ more : List Tag, (((rootWorld.spans 0).SetTag tags130).SetTag more).tags =
      (rootWorld.spans 0).tags ++ tags130 := by
  have hlen : (rootWorld.spans 0).tags.length = 1 := by decide
  have h1 : ((rootWorld.spans 0).SetTag tags130).tags = (rootWorld.spans 0).tags ++ tags130 :=
    SetTag_overshoot (rootWorld.spans 0) tags130 (Or.inl (by decide))
      (by rw [hlen]; decide) (by rw [hlen]; simp [tags130, _maxTags])
  have h131 : ((rootWorld.spans 0).tags ++ tags130).length = 131 := by
    rw [List.length_append, hlen]; simp [tags130]
  refine ⟨by decide, hlen, h1, ?_, ?_, ?_⟩
  · rw [h1, h131]
  · rw [h1, List.mem_append]
    rintro (hmem | hmem)
    · revert hmem; decide
    · unfold tags130 at hmem
      have := List.eq_of_mem_replicate hmem
      revert this
      decide
  · intro more
    rw [SetTag_above _ _ (by rw [h1, h131]; decide), h1]

/-- C10: on every sampled or debug span, a `SetLog` call made while fewer than
256 entries are stored appends exactly one entry holding the fields of the call
in order, followed by one "too many logs" marker when that entry is the 256th;
a `SetLog` call on a span holding more than 256 entries changes nothing, and the
same holds for the tag and log calls issued by `Finish`; starting from a span
without logs every sequence of `SetLog` calls leaves the entries of the first
256 calls, then the single marker, so the stored count never exceeds 257. -/
theorem C10_setLog_cap (s : Span) (h : s.context.isSampled = true ∨ s.context.isDebug = true) :
    (∀ (logs : List LogField) (t1 t2 : Int), s.logs.length < _maxLogs →
      (s.SetLog logs t1 t2).logs =
        s.logs ++ [logEntry logs t1] ++
          (if s.logs.length + 1 = _maxLogs then [tooManyLogs t2] else [])) ∧
    (∀ (logs : List LogField) (t1 t2 : Int), s.logs.length > _maxLogs →
      s.SetLog logs t1 t2 = s) ∧
    (∀ (env : Env) (perr : Option (Option GoError)) (clk : FinishClock),
      s.logs.length > _maxLogs → (Span.finishMark env s perr clk).logs = s.logs) ∧
    (s.logs = [] → ∀ calls : List (List LogField × Int × Int),
      (setLogCalls s calls).logs = expectedLogs calls ∧
      (setLogCalls s calls).logs.length ≤ 257 ∧
      (calls.length < 256 → (setLogCalls s calls).logs.length = calls.length) ∧
      (256 ≤ calls.length → (setLogCalls s calls).logs.length = 257)) := by
  refine ⟨fun logs t1 t2 hlen => SetLog_below s h logs t1 t2 hlen,
    fun logs t1 t2 hlen => SetLog_above s logs t1 t2 hlen,
    fun env perr clk hlen => finishMark_logs_above env s perr clk hlen, ?_⟩
  intro hnil calls
  have hlogs := setLogCalls_logs s h hnil calls
  refine ⟨hlogs, ?_, ?_, ?_⟩
  · rw [hlogs]; exact expectedLogs_length calls
  · intro hlt
    rw [hlogs]
    unfold expectedLogs
    rw [if_pos hlt, List.length_map]
  · intro hge
    rw [hlogs]
    unfold expectedLogs
    rw [if_neg (by omega)]
    simp [List.length_take]
    omega

/-- C10 on the root span of `rootWorld`, which is sampled and holds no logs: the
statement itself, then its parts at concrete calls.  One call stores one entry;
after 300 calls 257 entries are stored and a further call changes nothing. -/
theorem C10_setLog_cap_witness :
    ((rootWorld.spans 0).context.isSampled = true ∨ (rootWorld.spans 0).context.isDebug = true) ∧
    ((∀ (logs : List LogField) (t1 t2 : Int), (rootWorld.spans 0).logs.length < _maxLogs →
      ((rootWorld.spans 0).SetLog logs t1 t2).logs =
        (rootWorld.spans 0).logs ++ [logEntry logs t1] ++
          (if (rootWorld.spans 0).logs.length + 1 = _maxLogs then [tooManyLogs t2] else [])) ∧
    (∀ (logs : List LogField) (t1 t2 : Int), (rootWorld.spans 0).logs.length > _maxLogs →
      (rootWorld.spans 0).SetLog logs t1 t2 = (rootWorld.spans 0)) ∧
    (∀ (env : Env) (perr : Option (Option GoError)) (clk : FinishClock),
      (rootWorld.spans 0).logs.length > _maxLogs →
        (Span.finishMark env (rootWorld.spans 0) perr clk).logs = (rootWorld.spans 0).logs) ∧
    ((rootWorld.spans 0).logs = [] → ∀ calls : List (List LogField × Int × Int),
      (setLogCalls (rootWorld.spans 0) calls).logs = expectedLogs calls ∧
      (setLogCalls (rootWorld.spans 0) calls).logs.length ≤ 257 ∧
      (calls.length < 256 → (setLogCalls (rootWorld.spans 0) calls).logs.length = calls.length) ∧
      (256 ≤ calls.length → (setLogCalls (rootWorld.spans 0) calls).logs.length = 257))) ∧
    (rootWorld.spans 0).logs = [] ∧
    ((rootWorld.spans 0).SetLog [Log "k".toList "v".toList] 1 2).logs =
      [logEntry [Log "k".toList "v".toList] 1] ∧
    (setLogCalls (rootWorld.spans 0)
      (List.replicate 300 ([Log "k".toList "v".toList], 1, 2))).logs.length = 257 ∧
    (setLogCalls (rootWorld.spans 0)
        (List.replicate 300 ([Log "k".toList "v".toList], 1, 2))).SetLog
        [Log "k".toList "v".toList] 3 4 =
      setLogCalls (rootWorld.spans 0) (List.replicate 300 ([Log "k".toList "v".toList], 1, 2)) := by
  have h0 : (rootWorld.spans 0).context.isSampled = true ∨
      (rootWorld.spans 0).context.isDebug = true := Or.inl (by decide)
  have hnil : (rootWorld.spans 0).logs = [] := by decide
  have h300 := ((C10_setLog_cap (rootWorld.spans 0) h0).2.2.2 hnil
    (List.replicate 300 ([Log "k".toList "v".toList], 1, 2))).2.2.2
    (by rw [List.length_replicate]; omega)
  refine ⟨h0, C10_setLog_cap (rootWorld.spans 0) h0, hnil, ?_, h300, ?_⟩
  · have h1 := (C10_setLog_cap (rootWorld.spans 0) h0).1 [Log "k".toList "v".toList] 1 2
      (by rw [hnil]; decide)
    rw [h1, hnil]
    decide
  · exact (C10_setLog_cap _ (by rw [setLogCalls_context]; exact h0)).2.1 _ 3 4
      (by rw [h300]; decide)

/-- C11: on every real span whose flags have neither the sampled bit nor the debug
bit, `SetTag` and `SetLog` with any arguments return the same span and change
nothing: tags, logs, context, child count and operation name stay as they were,
and so does the whole state.  On a span with the debug bit set and the sampled
bit clear, `SetTag` below the cap appends the tags of the call. -/
theorem C11_unsampled_frame (w : World) (a : Nat) (tags : List Tag) (logs : List LogField)
    (t1 t2 : Int) (hs : (w.spans a).context.isSampled = false) :
    ((w.spans a).context.isDebug = false →
      (w.spans a).SetTag tags = w.spans a ∧ (w.spans a).SetLog logs t1 t2 = w.spans a ∧
      Trace.SetTag w (.span a) tags = (.span a, w) ∧
      Trace.SetLog w (.span a) logs t1 t2 = (.span a, w)) ∧
    ((w.spans a).context.isDebug = true → (w.spans a).tags.length < _maxTags →
      ((w.spans a).SetTag tags).tags =
        (w.spans a).tags ++ tags ++
          (if ((w.spans a).tags ++ tags).length = _maxTags then [tooManyTags] else []) ∧
      ((setTagWorld w a tags).spans a).tags =
        (w.spans a).tags ++ tags ++
          (if ((w.spans a).tags ++ tags).length = _maxTags then [tooManyTags] else [])) := by
  constructor
  · intro hd
    have h1 := SetTag_unsampled (w.spans a) tags hs hd
    have h2 := SetLog_unsampled (w.spans a) logs t1 t2 hs hd
    refine ⟨h1, h2, ?_, ?_⟩
    · rw [Trace.SetTag_span, h1, World.setSpan_self]
    · simp only [Trace.SetLog]
      rw [h2, World.setSpan_self]
  · intro hd hlt
    have h1 := SetTag_below (w.spans a) tags (Or.inr hd) hlt
    refine ⟨h1, ?_⟩
    simp only [setTagWorld, Trace.SetTag_span, World.setSpan_same]
    exact h1

/-- C11 on the unsampled root span of `unsampledWorld` and on the debug-only root
span of `debugWorld`: the first keeps its state, the second stores the tag. -/
theorem C11_unsampled_frame_witness :
    (unsampledWorld.spans 0).context.isSampled = false ∧
    (unsampledWorld.spans 0).context.isDebug = false ∧
    (unsampledWorld.spans 0).SetTag [TagString "k".toList "v".toList] = unsampledWorld.spans 0 ∧
    (unsampledWorld.spans 0).SetLog [Log "k".toList "v".toList] 1 2 = unsampledWorld.spans 0 ∧
    Trace.SetTag unsampledWorld (.span 0) [TagString "k".toList "v".toList] =
      (.span 0, unsampledWorld) ∧
    Trace.SetLog unsampledWorld (.span 0) [Log "k".toList "v".toList] 1 2 =
      (.span 0, unsampledWorld) ∧
    (debugWorld.spans 0).context.isSampled = false ∧
    (debugWorld.spans 0).context.isDebug = true ∧
    (debugWorld.spans 0).tags.length < _maxTags ∧
    ((debugWorld.spans 0).SetTag [TagString "k".toList "v".toList]).tags =
      (debugWorld.spans 0).tags ++ [TagString "k".toList "v".toList] := by
  have hu := (C11_unsampled_frame unsampledWorld 0 [TagString "k".toList "v".toList]
    [Log "k".toList "v".toList] 1 2 (by decide)).1 (by decide)
  have hd := ((C11_unsampled_frame debugWorld 0 [TagString "k".toList "v".toList]
    [Log "k".toList "v".toList] 1 2 (by decide)).2 (by decide) (by decide)).1
  refine ⟨by decide, by decide, hu.1, hu.2.1, hu.2.2.1, hu.2.2.2, by decide, by decide,
    by decide, ?_⟩
  rw [hd, if_neg (by decide)]
  simp

/-- C15: for every trace id, sampler state, time and random draw, `IsSampled` with
an operation name equal to an entry of the ignore list returns `(false, 0)` and
leaves the sampler, hence every slot of the ring, unchanged. -/
theorem C15_ignored_never_sampled (p : probabilitySampling) (traceID : Nat) (name : Str)
    (now : Int) (r : Rat) (h : name ∈ ignores) :
    p.IsSampled traceID name now r = ((false, 0), p) ∧
    (∀ i, (p.IsSampled traceID name now r).2.slot i = p.slot i) ∧
    (name = "/metrics".toList ∨ name = "/healthy".toList ∨
      name = "/grpc.health.v1.Health/Check".toList) := by
  have h1 : p.IsSampled traceID name now r = ((false, 0), p) := by
    unfold probabilitySampling.IsSampled
    rw [if_pos]
    rw [List.any_eq_true]
    exact ⟨name, h, by simp⟩
  refine ⟨h1, ?_, ?_⟩
  · intro i; rw [h1]
  · simpa [ignores] using h

/-- C15 on the fresh sampler and the name `/healthy`. -/
theorem C15_ignored_never_sampled_witness :
    "/healthy".toList ∈ ignores ∧
    (newSampler probability).IsSampled 7 "/healthy".toList 1700000000 0 =
      ((false, 0), newSampler probability) ∧
    (∀ i, ((newSampler probability).IsSampled 7 "/healthy".toList 1700000000 0).2.slot i =
      (newSampler probability).slot i) ∧
    ("/healthy".toList = "/metrics".toList ∨ "/healthy".toList = "/healthy".toList ∨
      "/healthy".toList = "/grpc.health.v1.Health/Check".toList) :=
  ⟨by decide, C15_ignored_never_sampled (newSampler probability) 7 "/healthy".toList
    1700000000 0 (by decide)⟩

/-- C17, where the code departs from the claim: on an empty, non-nil `http.Header`
and on empty, non-nil gRPC metadata, and more generally on every such carrier
without a value under the trace key, `Extract` returns the error
`errEmptyTracerString` of the decoder, not `ErrTraceNotFound`. -/
theorem C17_extract_empty_carrier (env : Env) (w : World) (d : Nat) (dr : Draw) :
    dapper.Extract env w d .HTTPFormat (.httpHeader (some emptyMap)) dr =
      .error .errEmptyTracerString ∧
    dapper.Extract env w d .GRPCFormat (.grpcMD (some emptyMap)) dr =
      .error .errEmptyTracerString ∧
    (∀ m : StrMap, m (env.canonicalKey env.FosTraceID) = none →
      dapper.Extract env w d .HTTPFormat (.httpHeader (some m)) dr =
        .error .errEmptyTracerString) ∧
    (∀ m : StrMap, m env.FosTraceID = none →
      dapper.Extract env w d .GRPCFormat (.grpcMD (some m)) dr =
        .error .errEmptyTracerString) ∧
    Error.errEmptyTracerString ≠ Error.ErrTraceNotFound := by
  have hhttp : ∀ m : StrMap, m (env.canonicalKey env.FosTraceID) = none →
      dapper.Extract env w d .HTTPFormat (.httpHeader (some m)) dr =
        .error .errEmptyTracerString := by
    intro m hm
    simp [dapper.Extract, dapper.extract, Carrier.asCarrier, CarrierObj.Get, headerGet, hm,
      contextFromString]
  have hgrpc : ∀ m : StrMap, m env.FosTraceID = none →
      dapper.Extract env w d .GRPCFormat (.grpcMD (some m)) dr =
        .error .errEmptyTracerString := by
    intro m hm
    simp [dapper.Extract, dapper.extract, Carrier.asCarrier, propagators, propagator.Extract,
      gRpcPropagator.Extract, CarrierObj.Get, hm, contextFromString]
  exact ⟨hhttp emptyMap rfl, hgrpc emptyMap rfl, hhttp, hgrpc, by decide⟩

/-- C20, where the code departs from the claim: the root span of `rootWorld` is
sampled and holds the tag `span.kind=server`.  `SetTag` with a tag of the same
key appends it and keeps the old one: the span then holds two tags with the key
`span.kind`, so the tags no longer have one tag per key. -/
theorem C20_setTag_keeps_old_tag :
    (rootWorld.spans 0).tags = [TagString "span.kind".toList "server".toList] ∧
    ((rootWorld.spans 0).SetTag [TagString "span.kind".toList "client".toList]).tags =
      [TagString "span.kind".toList "server".toList,
       TagString "span.kind".toList "client".toList] ∧
    oneTagPerKey (rootWorld.spans 0).tags ∧
    ¬ oneTagPerKey
      ((rootWorld.spans 0).SetTag [TagString "span.kind".toList "client".toList]).tags := by
  refine ⟨by decide, by decide, by decide, by decide⟩

/-- C19: for every context with 64-bit trace, span and parent ids and 8-bit flags,
`String()` is the four fields `hex(trace_id)`, `hex(span_id)`, `hex(parent_id)`,
`hex(flags)` joined by `:` in that order, each field the shortest lowercase
base-16 numeral of its value; the string holds exactly three `:`, only
characters of `0-9a-f` and `:`, and does not depend on `Level` or
`Probability`. -/
theorem C19_String_format (ctx : spanContext) (h : ctx.wf) :
    ∃ a b c d : Str,
      ctx.String = a ++ ':' :: (b ++ ':' :: (c ++ ':' :: d)) ∧
      ctx.String = Join [a, b, c, d] [':'] ∧
      isShortestHex a ctx.TraceId ∧ isShortestHex b ctx.SpanId ∧
      isShortestHex c ctx.ParentId ∧ isShortestHex d ctx.Flags ∧
      ctx.String.count ':' = 3 ∧
      (∀ ch ∈ ctx.String, isLowerHexDigit ch ∨ ch = ':') ∧
      (∀ (l : Int) (p : Rat),
        spanContext.String { ctx with Level := l, Probability := p } = ctx.String) := by
  obtain ⟨ht, hs, hp, hf⟩ := h
  have hlow : ∀ u, ∀ ch ∈ FormatUint u, isLowerHexDigit ch :=
    fun u => formatBits_lower 16 u [] (by simp)
  refine ⟨FormatUint ctx.TraceId, FormatUint ctx.SpanId, FormatUint ctx.ParentId,
    FormatUint ctx.Flags, String_eq ctx, rfl, FormatUint_shortest _ ht,
    FormatUint_shortest _ hs, FormatUint_shortest _ hp, FormatUint_shortest _ (by omega),
    ?_, ?_, fun l p => rfl⟩
  · rw [String_eq]
    simp [List.count_append, List.count_cons, FormatUint_count_colon]
  · intro ch hch
    rw [String_eq] at hch
    simp only [List.mem_append, List.mem_cons] at hch
    rcases hch with h1 | h1 | h1 | h1 | h1 | h1 | h1
    · exact Or.inl (hlow _ ch h1)
    · exact Or.inr h1
    · exact Or.inl (hlow _ ch h1)
    · exact Or.inr h1
    · exact Or.inl (hlow _ ch h1)
    · exact Or.inr h1
    · exact Or.inl (hlow _ ch h1)

/-- C19 at a concrete context: the string is `ffffffffffffffff:ff:0:3`. -/
theorem C19_String_format_witness :
    (spanContext.mk (2 ^ 64 - 1) 255 0 3 1 7).wf ∧
    (spanContext.mk (2 ^ 64 - 1) 255 0 3 1 7).String = "ffffffffffffffff:ff:0:3".toList ∧
    ∃ a b c d : Str,
      (spanContext.mk (2 ^ 64 - 1) 255 0 3 1 7).String = a ++ ':' :: (b ++ ':' :: (c ++ ':' :: d)) ∧
      (spanContext.mk (2 ^ 64 - 1) 255 0 3 1 7).String = Join [a, b, c, d] [':'] ∧
      isShortestHex a (2 ^ 64 - 1) ∧ isShortestHex b 255 ∧
      isShortestHex c 0 ∧ isShortestHex d 3 ∧
      (spanContext.mk (2 ^ 64 - 1) 255 0 3 1 7).String.count ':' = 3 ∧
      (∀ ch ∈ (spanContext.mk (2 ^ 64 - 1) 255 0 3 1 7).String, isLowerHexDigit ch ∨ ch = ':') ∧
      (∀ (l : Int) (p : Rat),
        spanContext.String { spanContext.mk (2 ^ 64 - 1) 255 0 3 1 7 with
          Level := l, Probability := p } = (spanContext.mk (2 ^ 64 - 1) 255 0 3 1 7).String) :=
  ⟨by decide, by decide, C19_String_format (spanContext.mk (2 ^ 64 - 1) 255 0 3 1 7) (by decide)⟩

/-- C12 fails as stated, at the caps: the root span of `cappedTagsWorld` is sampled
and holds 129 tags; `Finish` with the error `boom` hands it to the reporter
without an error tag.  The root span of `cappedLogsWorld` is sampled and holds
257 log entries; `Finish` with the error hands it over without an entry that
has the message field `boom`. -/
theorem C12_finish_error_at_cap_counterexample :
    ((cappedTagsWorld.spans 0).context.isSampled = true ∧
      ∃ s', (Span.Finish sampleEnv cappedTagsWorld 0 (some (some sampleError))
          sampleClock).reports 0 = [(0, s')] ∧
        TagBool sampleEnv.TagError true ∉ s'.tags) ∧
    ((cappedLogsWorld.spans 0).context.isSampled = true ∧
      ∃ s', (Span.Finish sampleEnv cappedLogsWorld 0 (some (some sampleError))
          sampleClock).reports 0 = [(0, s')] ∧
        ∀ l ∈ s'.logs,
          ({ Key := sampleEnv.LogMessage, Value := sampleError.msg } : protoGen.Field) ∉
            l.Fields) := by
  have hroot : (rootWorld.spans 0).context.isSampled = true := by decide
  have hrlen : (rootWorld.spans 0).tags.length = 1 := by decide
  constructor
  · have htags : (cappedTagsWorld.spans 0).tags =
        (rootWorld.spans 0).tags ++ List.replicate 127 (TagString "k".toList "v".toList) ++
          [tooManyTags] := by
      unfold cappedTagsWorld setTagWorld
      rw [Trace.SetTag_span, World.setSpan_same,
        SetTag_below _ _ (Or.inl hroot) (by rw [hrlen]; decide),
        if_pos (by rw [List.length_append, hrlen, List.length_replicate]; rfl)]
    have hctx : (cappedTagsWorld.spans 0).context = (rootWorld.spans 0).context := by
      unfold cappedTagsWorld setTagWorld
      rw [Trace.SetTag_span, World.setSpan_same, Span.SetTag_context]
    have hdap : (cappedTagsWorld.dappers (cappedTagsWorld.spans 0).dapper).reporter = 0 := by
      unfold cappedTagsWorld setTagWorld
      rw [Trace.SetTag_span, World.setSpan_same, (Span.SetTag_frame _ _).2.2.2.1]
      decide
    have hrep : cappedTagsWorld.reports 0 = [] := rfl
    have hlen : (cappedTagsWorld.spans 0).tags.length = 129 := by
      rw [htags]
      simp [hrlen]
    refine ⟨by rw [hctx]; exact hroot,
      Span.finishMark sampleEnv (cappedTagsWorld.spans 0) (some (some sampleError)) sampleClock,
      ?_, ?_⟩
    · rw [Finish_reports, if_pos (by rw [hctx]; exact hroot), hdap, Function.update_same, hrep]
      rfl
    · rw [finishMark_tags_above _ _ _ _ (by rw [hlen]; decide), htags]
      simp only [List.mem_append, List.mem_singleton, not_or]
      refine ⟨⟨by decide, ?_⟩, by decide⟩
      intro hmem
      have := List.eq_of_mem_replicate hmem
      revert this
      decide
  · have hnil : (rootWorld.spans 0).logs = [] := by decide
    have hlogs : (cappedLogsWorld.spans 0).logs =
        expectedLogs (List.replicate 256 ([Log "k".toList "v".toList], 1, 2)) := by
      unfold cappedLogsWorld
      rw [World.setSpan_same, setLogCalls_logs _ (Or.inl hroot) hnil]
    have hexp : expectedLogs (List.replicate 256 ([Log "k".toList "v".toList], 1, 2)) =
        ((List.replicate 256 ([Log "k".toList "v".toList], (1 : Int), (2 : Int))).take 256).map
          (fun c => logEntry c.1 c.2.1) ++
        [tooManyLogs ((List.replicate 256 ([Log "k".toList "v".toList], (1 : Int),
          (2 : Int))).getD 255 ([], 0, 0)).2.2] := by
      unfold expectedLogs
      rw [if_neg (by rw [List.length_replicate]; omega)]
    have hctx : (cappedLogsWorld.spans 0).context = (rootWorld.spans 0).context := by
      unfold cappedLogsWorld
      rw [World.setSpan_same, setLogCalls_context]
    have hlen : (cappedLogsWorld.spans 0).logs.length = 257 := by
      rw [hlogs, hexp, List.length_append, List.length_map, List.length_take,
        List.length_replicate]
      rfl
    have hdap : (cappedLogsWorld.dappers (cappedLogsWorld.spans 0).dapper).reporter = 0 := by
      unfold cappedLogsWorld
      rw [World.setSpan_same, setLogCalls_dapper, World.setSpan_dappers]
      decide
    have hrep : cappedLogsWorld.reports 0 = [] := by
      unfold cappedLogsWorld
      rfl
    refine ⟨by rw [hctx]; exact hroot,
      Span.finishMark sampleEnv (cappedLogsWorld.spans 0) (some (some sampleError)) sampleClock,
      ?_, ?_⟩
    · rw [Finish_reports, if_pos (by rw [hctx]; exact hroot), hdap, Function.update_same, hrep]
      rfl
    · intro l hl
      rw [finishMark_logs_above _ _ _ _ (by rw [hlen]; decide), hlogs, hexp] at hl
      simp only [List.mem_append, List.mem_map, List.mem_singleton] at hl
      rcases hl with ⟨c, hc, rfl⟩ | rfl
      · have hc' := List.eq_of_mem_replicate (List.mem_of_mem_take hc)
        subst hc'
        decide
      · rw [tooManyLogs_Fields]
        decide

/-- C12 as amended: for every sampled span that holds fewer than 128 tags and fewer
than 256 log entries and every non-nil error `e`, `Finish(&e)` hands the reporter
of its tracer the span, once, with tags that contain the error tag set to true
and with a log entry whose fields contain the message field equal to the
message of `e`; `Finish` with a nil pointer or with a pointer to a nil error
hands it over with the tags and logs it had. -/
theorem C12_finish_error_recorded (env : Env) (w : World) (a : Nat) (err : GoError)
    (clk : FinishClock) (hs : (w.spans a).context.isSampled = true)
    (ht : (w.spans a).tags.length < _maxTags) (hl : (w.spans a).logs.length < _maxLogs) :
    (∃ s', (Span.Finish env w a (some (some err)) clk).reports
          (w.dappers (w.spans a).dapper).reporter =
        w.reports (w.dappers (w.spans a).dapper).reporter ++ [(a, s')] ∧
      TagBool env.TagError true ∈ s'.tags ∧
      ∃ l ∈ s'.logs, ({ Key := env.LogMessage, Value := err.msg } : protoGen.Field) ∈ l.Fields) ∧
    (∃ s', (Span.Finish env w a none clk).reports (w.dappers (w.spans a).dapper).reporter =
        w.reports (w.dappers (w.spans a).dapper).reporter ++ [(a, s')] ∧
      s'.tags = (w.spans a).tags ∧ s'.logs = (w.spans a).logs) ∧
    (∃ s', (Span.Finish env w a (some none) clk).reports
          (w.dappers (w.spans a).dapper).reporter =
        w.reports (w.dappers (w.spans a).dapper).reporter ++ [(a, s')] ∧
      s'.tags = (w.spans a).tags ∧ s'.logs = (w.spans a).logs) := by
  have herr := finishMark_error env (w.spans a) err clk (Or.inl hs) ht hl
  have hnil := finishMark_nil env (w.spans a) clk
  refine ⟨⟨_, ?_, herr.1, _, herr.2, ?_⟩, ⟨_, ?_, hnil.1, hnil.2.1⟩,
    ⟨_, ?_, hnil.2.2.1, hnil.2.2.2⟩⟩
  · rw [Finish_reports, if_pos hs, Function.update_same]
  · simp [logEntry, Log]
  · rw [Finish_reports, if_pos hs, Function.update_same]
  · rw [Finish_reports, if_pos hs, Function.update_same]

/-- C12 as amended, on the span `sp2` of the test scenario and the error `boom`. -/
theorem C12_finish_error_recorded_witness :
    (testWorld.spans 1).context.isSampled = true ∧
    (testWorld.spans 1).tags.length < _maxTags ∧
    (testWorld.spans 1).logs.length < _maxLogs ∧
    (∃ s', (Span.Finish sampleEnv testWorld 1 (some (some sampleError)) sampleClock).reports
          (testWorld.dappers (testWorld.spans 1).dapper).reporter =
        testWorld.reports (testWorld.dappers (testWorld.spans 1).dapper).reporter ++ [(1, s')] ∧
      TagBool sampleEnv.TagError true ∈ s'.tags ∧
      ∃ l ∈ s'.logs,
        ({ Key := sampleEnv.LogMessage, Value := sampleError.msg } : protoGen.Field) ∈
          l.Fields) ∧
    (∃ s', (Span.Finish sampleEnv testWorld 1 none sampleClock).reports
          (testWorld.dappers (testWorld.spans 1).dapper).reporter =
        testWorld.reports (testWorld.dappers (testWorld.spans 1).dapper).reporter ++ [(1, s')] ∧
      s'.tags = (testWorld.spans 1).tags ∧ s'.logs = (testWorld.spans 1).logs) ∧
    (∃ s', (Span.Finish sampleEnv testWorld 1 (some none) sampleClock).reports
          (testWorld.dappers (testWorld.spans 1).dapper).reporter =
        testWorld.reports (testWorld.dappers (testWorld.spans 1).dapper).reporter ++ [(1, s')] ∧
      s'.tags = (testWorld.spans 1).tags ∧ s'.logs = (testWorld.spans 1).logs) :=
  ⟨by decide, by decide, by decide,
    C12_finish_error_recorded sampleEnv testWorld 1 sampleError sampleClock (by decide)
      (by decide) (by decide)⟩

/-- C13: `Finish` on a real span passes it to `WriteSpan` of the reporter of its
tracer exactly once when the sampled bit of its context is set (the record of
that reporter grows by this span, the other reporters keep theirs), and not at
all when the sampled bit is clear, whatever the debug bit; so three `Finish`
calls on sampled spans whose tracers share a reporter add exactly these three
spans to its record, in the order of the calls. -/
theorem C13_finish_reports_sampled (env : Env) (w : World) (a1 a2 a3 r : Nat)
    (p1 p2 p3 : Option (Option GoError)) (c1 c2 c3 : FinishClock)
    (h1 : (w.spans a1).context.isSampled = true) (h2 : (w.spans a2).context.isSampled = true)
    (h3 : (w.spans a3).context.isSampled = true)
    (hr1 : (w.dappers (w.spans a1).dapper).reporter = r)
    (hr2 : (w.dappers (w.spans a2).dapper).reporter = r)
    (hr3 : (w.dappers (w.spans a3).dapper).reporter = r) :
    (∀ (w0 : World) (a : Nat) (perr : Option (Option GoError)) (clk : FinishClock),
      ((w0.spans a).context.isSampled = true →
        (Span.Finish env w0 a perr clk).reports =
          Function.update w0.reports (w0.dappers (w0.spans a).dapper).reporter
            (w0.reports (w0.dappers (w0.spans a).dapper).reporter ++
              [(a, Span.finishMark env (w0.spans a) perr clk)])) ∧
      ((w0.spans a).context.isSampled = false →
        (Span.Finish env w0 a perr clk).reports = w0.reports) ∧
      ((w0.spans a).context.isSampled = false → (w0.spans a).context.isDebug = true →
        (Span.Finish env w0 a perr clk).reports = w0.reports)) ∧
    ((Span.Finish env (Span.Finish env (Span.Finish env w a1 p1 c1) a2 p2 c2) a3 p3
        c3).reports r).map Prod.fst = (w.reports r).map Prod.fst ++ [a1, a2, a3] := by
  refine ⟨fun w0 a perr clk => ⟨fun hs => ?_, fun hs => ?_, fun hs _ => ?_⟩,
    Finish_three env w a1 a2 a3 r p1 p2 p3 c1 c2 c3 h1 h2 h3 hr1 hr2 hr3⟩
  · rw [Finish_reports, if_pos hs]
  · rw [Finish_reports, if_neg (by rw [hs]; decide)]
  · rw [Finish_reports, if_neg (by rw [hs]; decide)]

/-- C13 on the test scenario: `sp3`, `sp2`, `sp1` (addresses 2, 1, 0) are sampled,
their tracers share reporter 0, which has received nothing; after the three
`Finish` calls it holds exactly these three spans in that order.  The
debug-only root span of `debugWorld` is not reported. -/
theorem C13_finish_reports_sampled_witness :
    (testWorld.spans 2).context.isSampled = true ∧
    (testWorld.spans 1).context.isSampled = true ∧
    (testWorld.spans 0).context.isSampled = true ∧
    (testWorld.dappers (testWorld.spans 2).dapper).reporter = 0 ∧
    (testWorld.dappers (testWorld.spans 1).dapper).reporter = 0 ∧
    (testWorld.dappers (testWorld.spans 0).dapper).reporter = 0 ∧
    (testWorld.reports 0).map Prod.fst = [] ∧
    ((Span.Finish sampleEnv (Span.Finish sampleEnv (Span.Finish sampleEnv testWorld 2 none
        sampleClock) 1 none sampleClock) 0 none sampleClock).reports 0).map Prod.fst =
      [2, 1, 0] ∧
    (debugWorld.spans 0).context.isSampled = false ∧
    (debugWorld.spans 0).context.isDebug = true ∧
    (Span.Finish sampleEnv debugWorld 0 none sampleClock).reports = debugWorld.reports := by
  have h := C13_finish_reports_sampled sampleEnv testWorld 2 1 0 0 none none none sampleClock
    sampleClock sampleClock (by decide) (by decide) (by decide) (by decide) (by decide)
    (by decide)
  have h0 : (testWorld.reports 0).map Prod.fst = [] := by decide
  refine ⟨by decide, by decide, by decide, by decide, by decide, by decide, h0, ?_, by decide,
    by decide, ?_⟩
  · rw [h.2, h0]
    rfl
  · exact (h.1 debugWorld 0 none sampleClock).2.2 (by decide) (by decide)

/-- C14 fails as stated, by a collision in the ring: the names `/api/v1` and
`/api/v348` are not ignored, differ, and fall into the same slot 388.  On a fresh
sampler a call for `/api/v1` at the second 1700000000 is sampled and stores the
second in the slot; the first call ever for `/api/v348`, in the same second with
the draw 1/2, then returns `(false, probability)`, not `(true, 1)`. -/
theorem C14_slot_collision_counterexample :
    "/api/v1".toList ∉ ignores ∧ "/api/v348".toList ∉ ignores ∧
    "/api/v348".toList ≠ "/api/v1".toList ∧
    slotOf "/api/v1".toList = 388 ∧ slotOf "/api/v348".toList = 388 ∧
    ((newSampler probability).IsSampled 1 "/api/v1".toList 1700000000 0).1 = (true, 1) ∧
    ((IsSampledCalls (newSampler probability)
        [SamplerCall.mk 1 "/api/v1".toList 1700000000 0]).IsSampled 2 "/api/v348".toList
        1700000000 (1 / 2)).1 = (false, probability) ∧
    ((false, probability) : Bool × Rat) ≠ (true, 1) := by
  have h1 : "/api/v1".toList ∉ ignores := by decide
  have h2 : "/api/v348".toList ∉ ignores := by decide
  have s1 : slotOf "/api/v1".toList = 388 := by decide
  have s2 : slotOf "/api/v348".toList = 388 := by decide
  refine ⟨h1, h2, by decide, s1, s2, ?_, ?_, ?_⟩
  · rw [IsSampled_not_ignored _ _ _ _ _ h1, if_pos]
    simp [newSampler]
  · have hstate : IsSampledCalls (newSampler probability)
        [SamplerCall.mk 1 "/api/v1".toList 1700000000 0] =
        ((newSampler probability).IsSampled 1 "/api/v1".toList 1700000000 0).2 := rfl
    rw [hstate, IsSampled_not_ignored _ _ _ _ _ h1, if_pos (by simp [newSampler]),
      IsSampled_not_ignored _ _ _ _ _ h2, if_neg (by
        show ¬ (Function.update (newSampler probability).slot (slotOf "/api/v1".toList)
          1700000000 (slotOf "/api/v348".toList) ≠ 1700000000)
        rw [s1, s2, Function.update_same]
        simp)]
    simp [newSampler, probability]
    norm_num
  · simp

/-- C14 as amended: for every operation name that is not ignored and every sampler
state reached from a fresh sampler by earlier calls, if none of the earlier
calls made within the same second had a name that is not ignored and falls into
the same slot of the ring (in particular none had the same name), then the
`IsSampled` call for the name within that second, which is not 0, returns
`(true, 1)`, whatever the configured probability and the random draw. -/
theorem C14_first_call_in_slot_sampled (pr : Rat) (calls : List SamplerCall) (tid : Nat)
    (name : Str) (now : Int) (r : Rat) (hign : name ∉ ignores) (hnow : now ≠ 0)
    (hfirst : ∀ c ∈ calls, c.operationName ∉ ignores → slotOf c.operationName = slotOf name →
      c.now ≠ now) :
    ((IsSampledCalls (newSampler pr) calls).IsSampled tid name now r).1 = (true, 1) ∧
    (IsSampledCalls (newSampler pr) calls).slot (slotOf name) ≠ now := by
  have h := IsSampled_first_in_slot pr calls tid name now r hign hnow hfirst
  refine ⟨h, ?_⟩
  intro hcon
  rcases IsSampledCalls_slot calls (newSampler pr) (slotOf name) with h0 | ⟨c, hc, h1, h2, h3⟩
  · rw [h0] at hcon
    exact hnow hcon.symm
  · rw [h3] at hcon
    exact hfirst c hc h1 h2 hcon

/-- C14 as amended, on the names of the collision: after a call for `/api/v1` in
the second before and a call for `/metrics` in the same second, the call for
`/api/v348` at the second 1700000000 is sampled. -/
theorem C14_first_call_in_slot_sampled_witness :
    "/api/v348".toList ∉ ignores ∧ (1700000000 : Int) ≠ 0 ∧
    (∀ c ∈ [SamplerCall.mk 1 "/api/v1".toList 1699999999 0,
            SamplerCall.mk 2 "/metrics".toList 1700000000 0],
      c.operationName ∉ ignores → slotOf c.operationName = slotOf "/api/v348".toList →
      c.now ≠ 1700000000) ∧
    ((IsSampledCalls (newSampler probability)
        [SamplerCall.mk 1 "/api/v1".toList 1699999999 0,
         SamplerCall.mk 2 "/metrics".toList 1700000000 0]).IsSampled 3 "/api/v348".toList
        1700000000 (1 / 2)).1 = (true, 1) ∧
    (IsSampledCalls (newSampler probability)
        [SamplerCall.mk 1 "/api/v1".toList 1699999999 0,
         SamplerCall.mk 2 "/metrics".toList 1700000000 0]).slot (slotOf "/api/v348".toList) ≠
      1700000000 := by
  have hf : ∀ c ∈ [SamplerCall.mk 1 "/api/v1".toList 1699999999 0,
            SamplerCall.mk 2 "/metrics".toList 1700000000 0],
      c.operationName ∉ ignores → slotOf c.operationName = slotOf "/api/v348".toList →
      c.now ≠ 1700000000 := by
    intro c hc
    simp only [List.mem_cons, List.mem_singleton, List.not_mem_nil, or_false] at hc
    rcases hc with rfl | rfl
    · intro _ _; decide
    · intro hn; exact absurd (by decide) hn
  exact ⟨by decide, by decide, hf,
    C14_first_call_in_slot_sampled probability _ 3 "/api/v348".toList 1700000000 (1 / 2)
      (by decide) (by decide) hf⟩

/-- C18: on a tracer with sampling disabled `New` returns, for every operation
name, a real span with the sampled bit set; the sampler of the tracer is the
same after the call, and the call does not depend on it: with any other sampler
state, clock reading and draw of the sampler, `New` returns the span at the same
address with the same context and leaves that sampler as it was. -/
theorem C18_disabled_sampling (env : Env) (w : World) (d : Nat) (op : Str)
    (opts : List TraceOption) (dr : Draw) (sNow : Int) (sRand : Rat)
    (h : (w.dappers d).disableSample = true) :
    ∃ a w', dapper.New env w d op opts dr sNow sRand = (.span a, w') ∧
      (w'.spans a).context.isSampled = true ∧
      (w'.dappers d).sampler = (w.dappers d).sampler ∧
      ∀ (smp : probabilitySampling) (sNow' : Int) (sRand' : Rat),
        ∃ w'', dapper.New env (w.setDapper d { w.dappers d with sampler := smp }) d op opts dr
            sNow' sRand' = (.span a, w'') ∧
          (w''.spans a).context = (w'.spans a).context ∧
          (w''.dappers d).sampler = smp := by
  obtain ⟨w', hnew, hctx, -⟩ := New_spec env w d op opts dr sNow sRand
  have hdec := samplingDecision_disabled (w.dappers d) (genID env.hostHash dr.rand dr.unix) op
    sNow sRand h
  have hsmp := New_sampler env w d op opts dr sNow sRand
  rw [hnew] at hsmp
  rw [hdec] at hctx hsmp
  refine ⟨_, w', hnew, ?_, hsmp, ?_⟩
  · rw [hctx]
    cases (opts.foldl (fun o fn => fn o) defaultOption).Debug <;>
      simp [childContext, rootContext, spanContext.isSampled, flagSampled, flagDebug]
  · intro smp sNow' sRand'
    have hd' : ((w.setDapper d { w.dappers d with sampler := smp }).dappers d).disableSample
        = true := by
      simp [World.setDapper, h]
    obtain ⟨w'', hnew', hctx', -⟩ := New_spec env
      (w.setDapper d { w.dappers d with sampler := smp }) d op opts dr sNow' sRand'
    have hdec' := samplingDecision_disabled
      ((w.setDapper d { w.dappers d with sampler := smp }).dappers d)
      (genID env.hostHash dr.rand dr.unix) op sNow' sRand' hd'
    have hsmp' := New_sampler env (w.setDapper d { w.dappers d with sampler := smp }) d op opts
      dr sNow' sRand'
    rw [hnew'] at hsmp'
    rw [hdec'] at hctx' hsmp'
    have hfst := (getSpan_setDapper_sampler w d dr.pick smp).1
    rw [hfst] at hnew' hctx'
    refine ⟨w'', hnew', ?_, ?_⟩
    · rw [hctx', hctx]
    · rw [hsmp']
      simp [World.setDapper]

/-- C18 on a fresh tracer with sampling disabled and the ignored name `/metrics`. -/
theorem C18_disabled_sampling_witness :
    (testTracers.dappers 0).disableSample = true ∧
    "/metrics".toList ∈ ignores ∧
    ∃ a w', dapper.New sampleEnv testTracers 0 "/metrics".toList [] sampleDraw 5 0 =
        (.span a, w') ∧
      (w'.spans a).context.isSampled = true ∧
      (w'.dappers 0).sampler = (testTracers.dappers 0).sampler ∧
      ∀ (smp : probabilitySampling) (sNow' : Int) (sRand' : Rat),
        ∃ w'', dapper.New sampleEnv
            (testTracers.setDapper 0 { testTracers.dappers 0 with sampler := smp }) 0
            "/metrics".toList [] sampleDraw sNow' sRand' = (.span a, w'') ∧
          (w''.spans a).context = (w'.spans a).context ∧
          (w''.dappers 0).sampler = smp :=
  ⟨by decide, by decide,
    C18_disabled_sampling sampleEnv testTracers 0 "/metrics".toList [] sampleDraw 5 0
      (by decide)⟩

/-- C21, where the code departs from the claim: on the sampled root span `sp1` of
the test scenario (a tracer with the default tag `ip`) `Fork` succeeds, and
`Follow` with the same arguments returns the same span address as `Fork`, with
the parent id, trace id, flags, level and span id of the span `Fork` returns,
and raises the child count of `sp1` to 1.  But its span does
not carry `span.kind=producer` in the place of `span.kind=client`: `Follow`
calls `SetTag` on the span `Fork` has already tagged, and `SetTag` appends, so
the span holds the tags of the span `Fork` returns followed by a second
`span.kind` tag, `ip`, `span.kind=client`, `span.kind=producer`. -/
theorem C21_follow_keeps_client_tag :
    (testSp1.2.spans 0).context.isSampled = true ∧
    (Span.Fork sampleEnv testSp1.2 0 [] "opt_async".toList sampleDraw).1 = .span 1 ∧
    (Span.Follow sampleEnv testSp1.2 0 [] "opt_async".toList sampleDraw).1 = .span 1 ∧
    ((Span.Follow sampleEnv testSp1.2 0 [] "opt_async".toList sampleDraw).2.spans 1).context.ParentId
      = (testSp1.2.spans 0).context.SpanId ∧
    ((Span.Follow sampleEnv testSp1.2 0 [] "opt_async".toList sampleDraw).2.spans 1).context.TraceId
      = (testSp1.2.spans 0).context.TraceId ∧
    ((Span.Follow sampleEnv testSp1.2 0 [] "opt_async".toList sampleDraw).2.spans 1).context.Flags
      = (testSp1.2.spans 0).context.Flags ∧
    ((Span.Follow sampleEnv testSp1.2 0 [] "opt_async".toList sampleDraw).2.spans 1).context.Level
      = (testSp1.2.spans 0).context.Level + 1 ∧
    ((Span.Follow sampleEnv testSp1.2 0 [] "opt_async".toList sampleDraw).2.spans 1).context.SpanId
      = ((Span.Fork sampleEnv testSp1.2 0 [] "opt_async".toList sampleDraw).2.spans 1).context.SpanId ∧
    ((Span.Follow sampleEnv testSp1.2 0 [] "opt_async".toList sampleDraw).2.spans 0).children
      = 1 ∧
    ((Span.Fork sampleEnv testSp1.2 0 [] "opt_async".toList sampleDraw).2.spans 1).tags =
      [TagString "ip".toList "10.0.0.1".toList,
       TagString "span.kind".toList "client".toList] ∧
    ((Span.Follow sampleEnv testSp1.2 0 [] "opt_async".toList sampleDraw).2.spans 1).tags =
      [TagString "ip".toList "10.0.0.1".toList,
       TagString "span.kind".toList "client".toList,
       TagString "span.kind".toList "producer".toList] ∧
    TagString "span.kind".toList "client".toList ∈
      ((Span.Follow sampleEnv testSp1.2 0 [] "opt_async".toList sampleDraw).2.spans 1).tags ∧
    ¬ oneTagPerKey
      ((Span.Follow sampleEnv testSp1.2 0 [] "opt_async".toList sampleDraw).2.spans 1).tags := by
  refine ⟨by decide, by decide, by decide, by decide, by decide, by decide, by decide, by decide,
    by decide, by decide, by decide, by decide, by decide⟩

/-- C22: for every random draw `r < 2^31`, host byte `h < 256` and Unix time `t`,
`genID` returns `r * 2^32 + h * 2^24 + ((t mod 2^32) div 2^8)`: the top four
bytes are `r` (so the top bit is 0), the fifth byte is `h`, the low three bytes
are the 32-bit time shifted right by 8, which is below `2^24`; the byte that
`h` overwrites was 0, so no time bit is lost. -/
theorem C22_genID_layout (h r : Nat) (t : Int) (hr : r < 2 ^ 31) (hh : h < 256) :
    genID h r t = r * 2 ^ 32 + h * 2 ^ 24 + (t % 2 ^ 32).toNat / 2 ^ 8 ∧
    (t % 2 ^ 32).toNat / 2 ^ 8 < 2 ^ 24 ∧
    (putUint32 ((t % 2 ^ 32).toNat / 2 ^ 8)).head? = some 0 ∧
    genID h r t / 2 ^ 32 = r ∧
    genID h r t / 2 ^ 24 % 256 = h ∧
    genID h r t % 2 ^ 24 = (t % 2 ^ 32).toNat / 2 ^ 8 ∧
    genID h r t < 2 ^ 63 := by
  have ht : (t % 2 ^ 32).toNat < 2 ^ 32 := by
    have h1 : t % 2 ^ 32 < 2 ^ 32 := Int.emod_lt_of_pos t (by norm_num)
    have h0 : 0 ≤ t % 2 ^ 32 := Int.emod_nonneg t (by norm_num)
    omega
  have hg := genID_value h r t hr hh
  generalize (t % 2 ^ 32).toNat = u at ht hg ⊢
  refine ⟨hg, ?_, ?_, ?_, ?_, ?_, ?_⟩
  · omega
  · simp only [putUint32, List.head?_cons]
    congr 1
    omega
  · rw [hg]; omega
  · rw [hg]; omega
  · rw [hg]; omega
  · rw [hg]; omega

/-- C22 for the draw 5, the host byte 7 and the time 1700000000. -/
theorem C22_genID_layout_witness :
    5 < 2 ^ 31 ∧ 7 < 256 ∧
    (genID 7 5 1700000000 = 5 * 2 ^ 32 + 7 * 2 ^ 24 + ((1700000000 : Int) % 2 ^ 32).toNat / 2 ^ 8 ∧
    ((1700000000 : Int) % 2 ^ 32).toNat / 2 ^ 8 < 2 ^ 24 ∧
    (putUint32 (((1700000000 : Int) % 2 ^ 32).toNat / 2 ^ 8)).head? = some 0 ∧
    genID 7 5 1700000000 / 2 ^ 32 = 5 ∧
    genID 7 5 1700000000 / 2 ^ 24 % 256 = 7 ∧
    genID 7 5 1700000000 % 2 ^ 24 = ((1700000000 : Int) % 2 ^ 32).toNat / 2 ^ 8 ∧
    genID 7 5 1700000000 < 2 ^ 63) :=
  ⟨by decide, by decide, C22_genID_layout 7 5 1700000000 (by decide) (by decide)⟩

/-- C23 fails as stated: the root span `dapper.New` returns on a fresh tracer has
level 1 in its context, not 0, and the span reached from it by one `Fork` has
level 2, not 1. -/
theorem C23_root_level_counterexample :
    (freshRoot sampleEnv "service1".toList [] true "opt_1".toList [] sampleDraw 0 0).1 = .span 0 ∧
    (rootWorld.spans 0).context.Level = 1 ∧
    (rootWorld.spans 0).context.Level ≠ 0 ∧
    (Span.Fork sampleEnv rootWorld 0 [] "opt_client".toList sampleDraw).1 = .span 1 ∧
    ((Span.Fork sampleEnv rootWorld 0 [] "opt_client".toList sampleDraw).2.spans 1).context.Level
      = 2 := by
  refine ⟨by decide, by decide, by decide, by decide, by decide⟩

/-- C23 as amended: the root span returned by `dapper.New` is a real span of level 1
(`New` hands a context of level 0 to `newSpanWithContext`, which stores that
level plus 1), and a span reached from the root by `k` successful nested
`Fork` calls has level `k + 1`. -/
theorem C23_root_level_one (env : Env) (w : World) (d : Nat) (op : Str)
    (opts : List TraceOption) (dr : Draw) (sNow : Int) (sRand : Rat)
    (steps : List (Str × Str × Draw)) (c : Nat) (w' : World)
    (h : forkPath env steps (dapper.New env w d op opts dr sNow sRand) = (.span c, w')) :
    (∃ a w0, dapper.New env w d op opts dr sNow sRand = (.span a, w0) ∧
      (w0.spans a).context.Level = 1) ∧
    (w'.spans c).context.Level = steps.length + 1 := by
  obtain ⟨a, w0, hnew, hlev⟩ := New_level env w d op opts dr sNow sRand
  refine ⟨⟨a, w0, hnew, hlev⟩, ?_⟩
  obtain ⟨a', ha', hpath⟩ := forkPath_level env steps _ c w' h
  rw [hnew] at ha' hpath
  cases ha'
  rw [hpath, hlev]
  omega

/-- C23 as amended, on a fresh tracer and two nested forks: the second span
sits at address 2 and has level 3. -/
theorem C23_root_level_one_witness :
    forkPath sampleEnv sampleSteps
        (dapper.New sampleEnv (NewTracer World.empty "service1".toList [] 0 true).2 0
          "opt_1".toList [] sampleDraw 0 0) =
      (.span 2, (forkPath sampleEnv sampleSteps
        (dapper.New sampleEnv (NewTracer World.empty "service1".toList [] 0 true).2 0
          "opt_1".toList [] sampleDraw 0 0)).2) ∧
    ((∃ a w0, dapper.New sampleEnv (NewTracer World.empty "service1".toList [] 0 true).2 0
        "opt_1".toList [] sampleDraw 0 0 = (.span a, w0) ∧ (w0.spans a).context.Level = 1) ∧
      ((forkPath sampleEnv sampleSteps
        (dapper.New sampleEnv (NewTracer World.empty "service1".toList [] 0 true).2 0
          "opt_1".toList [] sampleDraw 0 0)).2.spans 2).context.Level
        = sampleSteps.length + 1) :=
  ⟨rfl, C23_root_level_one sampleEnv (NewTracer World.empty "service1".toList [] 0 true).2 0
    "opt_1".toList [] sampleDraw 0 0 sampleSteps 2 _ rfl⟩

/-- C24: whatever a span object holds when `Finish` puts it in the pool, its
tracer gets that same object back from the pool (`sync.Pool.Get` choosing the
object put last); in every state and for every choice of `sync.Pool.Get` the
span `getSpan` hands out has no tags, no logs, child count 0 and is bound to
the acquiring tracer; and the span `newSpanWithContext` creates for an
unsampled context carries exactly the default tags of the tracer, no logs,
child count 0, and the name, context and start time of the call.  When the
debug bit is clear too, the `SetTag` calls that follow in `New`, `Fork` and
`Extract` add nothing. -/
theorem C24_acquired_span_reset (env : Env) (w0 : World) (a : Nat)
    (perr : Option (Option GoError)) (clk : FinishClock) (w : World) (d pick : Nat) (op : Str)
    (ctx : spanContext) (dr : Draw) (hl : ctx.Level ≤ maxLevel)
    (hs : ctx.isSampled = false) :
    (dapper.getSpan (Span.Finish env w0 a perr clk) (w0.spans a).dapper 0).1 = a ∧
    (((dapper.getSpan w d pick).2.spans (dapper.getSpan w d pick).1).tags = [] ∧
      ((dapper.getSpan w d pick).2.spans (dapper.getSpan w d pick).1).logs = [] ∧
      ((dapper.getSpan w d pick).2.spans (dapper.getSpan w d pick).1).children = 0 ∧
      ((dapper.getSpan w d pick).2.spans (dapper.getSpan w d pick).1).dapper = d) ∧
    ∃ c w', dapper.newSpanWithContext env w d op ctx dr = (.span c, w') ∧
      c = (dapper.getSpan w d dr.pick).1 ∧
      (w'.spans c).tags = (w.dappers d).tags ∧
      (w'.spans c).logs = [] ∧
      (w'.spans c).children = 0 ∧
      (w'.spans c).dapper = d ∧
      (w'.spans c).operationName = op ∧
      (w'.spans c).context = childContext env ctx dr ∧
      (w'.spans c).startTime = dr.now ∧
      (ctx.isDebug = false → ∀ tags, Trace.SetTag w' (.span c) tags = (.span c, w')) := by
  refine ⟨getSpan_head _ _ a _ (Finish_pool env w0 a perr clk), getSpan_reset w d pick, ?_⟩
  obtain ⟨w', hnew, ht, hlg, hch, hd, hop, hctx, hst⟩ :=
    newSpanWithContext_fields env w d op ctx dr hl
  refine ⟨_, w', hnew, rfl, ht, hlg, hch, hd, hop, hctx, hst, ?_⟩
  intro hdb tags
  have hs' : (w'.spans (dapper.getSpan w d dr.pick).1).context.isSampled = false := by
    rw [hctx]; exact hs
  have hd' : (w'.spans (dapper.getSpan w d dr.pick).1).context.isDebug = false := by
    rw [hctx]; exact hdb
  rw [Trace.SetTag_span, SetTag_unsampled _ tags hs' hd', World.setSpan_self]

/-- C24 on the scenario of the tests: `sp1`, finished with an error while it
holds three tags, one log entry and one child, is the object tracer 0 gets
back for the unsampled context; the new span at address 0 carries the one
default tag of the tracer and nothing else. -/
theorem C24_acquired_span_reset_witness :
    unsampledContext.Level ≤ maxLevel ∧ unsampledContext.isSampled = false ∧
    (pooledWorld.spans 0).tags.length = 3 ∧ (pooledWorld.spans 0).logs.length = 1 ∧
    (pooledWorld.spans 0).children = 1 ∧ (pooledWorld.dappers 0).pool = [0] ∧
    (dapper.getSpan (Span.Finish sampleEnv testWorld 0 (some (some sampleError)) sampleClock)
      (testWorld.spans 0).dapper 0).1 = 0 ∧
    ((dapper.getSpan pooledWorld 0 0).2.spans (dapper.getSpan pooledWorld 0 0).1).tags = [] ∧
    ((dapper.getSpan pooledWorld 0 0).2.spans (dapper.getSpan pooledWorld 0 0).1).logs = [] ∧
    ((dapper.getSpan pooledWorld 0 0).2.spans (dapper.getSpan pooledWorld 0 0).1).children = 0 ∧
    ((dapper.getSpan pooledWorld 0 0).2.spans (dapper.getSpan pooledWorld 0 0).1).dapper = 0 ∧
    ∃ w', dapper.newSpanWithContext sampleEnv pooledWorld 0 "opt_2".toList unsampledContext
        sampleDraw = (.span 0, w') ∧
      (w'.spans 0).tags = [TagString "ip".toList "10.0.0.1".toList] ∧
      (w'.spans 0).logs = [] ∧
      (w'.spans 0).children = 0 ∧
      (w'.spans 0).dapper = 0 ∧
      (w'.spans 0).operationName = "opt_2".toList ∧
      (w'.spans 0).context = childContext sampleEnv unsampledContext sampleDraw ∧
      (w'.spans 0).startTime = 0 ∧
      Trace.SetTag w' (.span 0) [TagString "span.kind".toList "server".toList] =
        (.span 0, w') := by
  obtain ⟨h1, ⟨h2, h3, h4, h5⟩, c, w', hnew, hc, ht, hlg, hch, hd, hop, hctx, hst, hset⟩ :=
    C24_acquired_span_reset sampleEnv testWorld 0 (some (some sampleError)) sampleClock
      pooledWorld 0 0 "opt_2".toList unsampledContext sampleDraw (by decide) (by decide)
  have hc0 : c = 0 := by rw [hc]; decide
  subst hc0
  exact ⟨by decide, by decide, by decide, by decide, by decide, by decide, h1, h2, h3, h4, h5,
    w', hnew, ht, hlg, hch, hd, hop, hctx, hst, hset (by decide) _⟩

end trace
